import Mathlib

/-!
# Habit journal: weekly data model and derived-state engine

A shallow embedding of `src/script.js`.  JavaScript values are embedded as follows.

* A field the source guards with a truthiness test (`if (w.tasks)`, `if (!appData.profile)`)
  is an `Option`; `null`/`undefined` is `none`.
* A field the source tests with `Array.isArray` is a `JsField`: missing, some non-array
  value, or an array.
* Numbers that hold counts (xp, level, streaks) are natural numbers and arithmetic on them
  is exact; the rounding of IEEE-754 doubles is not part of the model.
* The object `appData.weeks` is a key/value list whose keys are pairwise distinct.
* Module-level variables (`appData`, `currentWeekKey`, the Pomodoro counters, the
  `localStorage` slot) are fields of an explicit state that every operation takes and returns.
-/

namespace HabitApp

/-! ## Data model -/

/-- The constant `DAYS` of the source. -/
def DAYS : Nat := 7

/-- A task-day slot: `null`, or one of the strings the click handler writes. -/
abbrev DayStatus := Option String

/-- One task row: `{ text, days }`; `days` may be missing in a stored record. -/
structure Task where
  text : String
  days : Option (List DayStatus)
deriving DecidableEq, Repr

/-- One day of the sleep tracker: `{ wake, wakeAmPm, bed, bedAmPm, hours }`. -/
structure SleepEntry where
  wake : String
  wakeAmPm : Option String
  bed : String
  bedAmPm : Option String
  hours : Option String
deriving DecidableEq, Repr

/-- A field the source tests with `Array.isArray`. -/
inductive JsField (α : Type) where
  | missing : JsField α
  | other (json : String) : JsField α
  | arr (items : List α) : JsField α
deriving DecidableEq, Repr

/-- The `trackers` object of a week. -/
structure Trackers where
  water : JsField Bool
  sleep : JsField (Option SleepEntry)
  food : Option (List (String × Bool))
  mood : Option String
  weather : Option String
  uniqueEvent : String
  fitness : Option (String × String)
  appointments : Option (List (String × String))
deriving DecidableEq, Repr

/-- The data of one week: `{ tasks, trackers, weekOf }`. -/
structure WeekRecord where
  tasks : Option (List Task)
  trackers : Option Trackers
  weekOf : String
deriving DecidableEq, Repr

/-- The `profile` object. `longestStreak` is read as `profile.longestStreak || 0`. -/
structure Profile where
  xp : Nat
  level : Nat
  streakDays : Nat
  longestStreak : Option Nat
  unlockedThemes : List String
deriving DecidableEq, Repr

/-- The object `appData.weeks`: entries in enumeration order, keys pairwise distinct. -/
structure Weeks where
  entries : List (String × Option WeekRecord)
  nodup : (entries.map Prod.fst).Nodup

/-- The object `appData`: `{ currentWeek, profile, weeks }`. -/
structure AppState where
  currentWeek : String
  profile : Option Profile
  weeks : Weeks

/-- The JavaScript expression `Object.keys(appData.weeks)`. -/
def Weeks.keys (w : Weeks) : List String := w.entries.map Prod.fst

/-- The JavaScript expression `appData.weeks[key]`; a missing key and a stored `null`
both read as a falsy value. -/
def Weeks.get (w : Weeks) (key : String) : Option WeekRecord :=
  match w.entries.lookup key with
  | some r => r
  | none => none

/-- Truthiness of a value that is `null` or a string. -/
def truthyStr : Option String → Bool
  | none => false
  | some v => v != ""

/-! ## Gamification -/

/-- The profile literal used by `ensureProfile` and `loadAppData`. -/
def defaultProfile : Profile :=
  { xp := 0, level := 1, streakDays := 0, longestStreak := some 0, unlockedThemes := [] }

/-- The function `ensureProfile`: the stored profile, or the default one when it is falsy. -/
def ensureProfile (s : AppState) : Profile :=
  match s.profile with
  | some p => p
  | none => defaultProfile

/-- The function `calculateLevel`: `Math.max(1, Math.floor(Math.sqrt(xp / 100)))`.
The floor of the real square root of the real quotient is the integer square root of the
integer quotient (see `calculateLevel_eq_floor_sqrt`). -/
def calculateLevel (xp : Nat) : Nat := max 1 (Nat.sqrt (xp / 100))

/-- The function `xpForLevel`. -/
def xpForLevel (level : Nat) : Nat := level * level * 100

/-- Body of `task.days.forEach(status => ...)` in the xp pass. -/
def xpStatusStep (total : Nat) (status : DayStatus) : Nat :=
  if status = some "check" then total + 10 else total

/-- Body of `w.tasks.forEach(task => ...)` in the xp pass. -/
def xpTaskStep (total : Nat) (task : Task) : Nat :=
  match task.days with
  | some ds => ds.foldl xpStatusStep total
  | none => total

/-- Body of `w.trackers.water.forEach(filled => ...)`. -/
def xpWaterStep (total : Nat) (filled : Bool) : Nat :=
  if filled then total + 5 else total

/-- Body of `Object.values(w.trackers.food).forEach(checked => ...)`. -/
def xpFoodStep (total : Nat) (entry : String × Bool) : Nat :=
  if entry.2 then total + 5 else total

/-- The test `day && day.hours && day.hours !== '' && day.hours !== '0'`. -/
def sleepLogged (day : Option SleepEntry) : Bool :=
  match day with
  | none => false
  | some d => truthyStr d.hours && d.hours != some "" && d.hours != some "0"

/-- Body of `w.trackers.sleep.forEach(day => ...)`. -/
def xpSleepStep (total : Nat) (day : Option SleepEntry) : Nat :=
  if sleepLogged day then total + 10 else total

/-- The `if (w.trackers) { ... }` block of the xp pass. -/
def xpTrackers (total : Nat) (tr : Trackers) : Nat :=
  let t1 := match tr.water with
    | .arr ws => ws.foldl xpWaterStep total
    | _ => total
  let t2 := match tr.food with
    | some fs => fs.foldl xpFoodStep t1
    | none => t1
  let t3 := match tr.sleep with
    | .arr ds => ds.foldl xpSleepStep t2
    | _ => t2
  let t4 := if truthyStr tr.mood then t3 + 5 else t3
  if truthyStr tr.weather then t4 + 5 else t4

/-- Body of `Object.keys(appData.weeks).forEach(weekKey => ...)`, given `w = weeks[weekKey]`. -/
def xpWeekStep (total : Nat) (w : Option WeekRecord) : Nat :=
  match w with
  | none => total
  | some w =>
    let t1 := match w.tasks with
      | some ts => ts.foldl xpTaskStep total
      | none => total
    match w.trackers with
    | some tr => xpTrackers t1 tr
    | none => t1

/-- The value of `totalXP` after the loop over all weeks. -/
def totalXP (weeks : Weeks) : Nat :=
  weeks.keys.foldl (fun total weekKey => xpWeekStep total (weeks.get weekKey)) 0

/-! ### Streak -/

/-- UTF-16 code units of a character: strings compare by code units in JavaScript. -/
def utf16Units (c : Char) : List Nat :=
  if c.toNat < 0x10000 then [c.toNat]
  else [0xD800 + (c.toNat - 0x10000) / 0x400, 0xDC00 + (c.toNat - 0x10000) % 0x400]

/-- The sequence of UTF-16 code units of a string. -/
def codeUnits (s : String) : List Nat := (s.toList.map utf16Units).flatten

/-- Lexicographic "less than" on code-unit sequences. -/
def unitsLt : List Nat → List Nat → Bool
  | [], [] => false
  | [], _ :: _ => true
  | _ :: _, [] => false
  | a :: as, b :: bs => if a < b then true else if b < a then false else unitsLt as bs

/-- The comparison `a < b` on JavaScript strings. -/
def jsStrLt (a b : String) : Bool := unitsLt (codeUnits a) (codeUnits b)

/-- The order in which the default comparator of `Array.prototype.sort` leaves two strings:
`a` may come before `b` when `b < a` is false. -/
def jsStrLe (a b : String) : Prop := jsStrLt b a = false

instance jsStrLeDecidable : DecidableRel jsStrLe := fun a b =>
  inferInstanceAs (Decidable (jsStrLt b a = false))

/-- The expression `Object.keys(appData.weeks).sort()`. -/
def sortedKeys (weeks : Weeks) : List String := weeks.keys.insertionSort jsStrLe

/-- Body of `task.days.forEach(s => { if (s === 'check') hasCheck = true; })`. -/
def checkStatusStep (hasCheck : Bool) (status : DayStatus) : Bool :=
  if status = some "check" then true else hasCheck

/-- Body of `w.tasks.forEach(task => ...)` in the streak pass. -/
def checkTaskStep (hasCheck : Bool) (task : Task) : Bool :=
  match task.days with
  | some ds => ds.foldl checkStatusStep hasCheck
  | none => hasCheck

/-- The value of `hasCheck` for the week `w` at the end of one loop iteration. -/
def weekHasCheck (w : Option WeekRecord) : Bool :=
  match w with
  | some w =>
    match w.tasks with
    | some ts => ts.foldl checkTaskStep false
    | none => false
  | none => false

/-- The value `appData.weeks[weekKeys[i]]`. -/
def weekAt (weeks : Weeks) (weekKeys : List String) (i : Nat) : Option WeekRecord :=
  match weekKeys[i]? with
  | some key => weeks.get key
  | none => none

/-- The loop `for (let i = weekKeys.length - 1; i >= 0; i--)`: the first argument is `i + 1`,
the second the running `streak`; the result is `streak` when the loop is left. -/
def streakLoop (weeks : Weeks) (weekKeys : List String) : Nat → Nat → Nat
  | 0, streak => streak
  | i + 1, streak =>
    if weekHasCheck (weekAt weeks weekKeys i) then streakLoop weeks weekKeys i (streak + 1)
    else streak

/-- The value of `streak` computed by `recalculateXP`. -/
def computeStreak (weeks : Weeks) : Nat :=
  streakLoop weeks (sortedKeys weeks) (sortedKeys weeks).length 0

/-- The function `recalculateXP`, as a function of the application state. -/
def recalculateXP (s : AppState) : AppState :=
  let profile := ensureProfile s
  let total := totalXP s.weeks
  let streak := computeStreak s.weeks
  { s with
    profile := some
      { profile with
        xp := total
        level := calculateLevel total
        streakDays := streak
        longestStreak :=
          if streak > profile.longestStreak.getD 0 then some streak else profile.longestStreak } }

/-- The level announced by `showLevelUpToast` during `recalculateXP`, if it is called. -/
def levelUpToast (s : AppState) : Option Nat :=
  let oldLevel := (ensureProfile s).level
  let level := calculateLevel (totalXP s.weeks)
  if level > oldLevel ∧ oldLevel > 0 then some level else none

/-! ## Default week -/

/-- The sleep-entry literal `{ wake: '', wakeAmPm: 'AM', bed: '', bedAmPm: 'PM', hours: '' }`. -/
def defaultSleepEntry : SleepEntry :=
  { wake := "", wakeAmPm := some "AM", bed := "", bedAmPm := some "PM", hours := some "" }

/-- The function `createEmptyWeek`. -/
def createEmptyWeek : WeekRecord :=
  { tasks := some [{ text := "", days := some (List.replicate DAYS none) }]
    trackers := some
      { water := .arr (List.replicate DAYS false)
        sleep := .arr (List.replicate DAYS (some defaultSleepEntry))
        food := some [("breakfast", false), ("lunch", false), ("dinner", false), ("snack", false)]
        mood := none
        weather := none
        uniqueEvent := ""
        fitness := some ("", "")
        appointments := some [] }
    weekOf := "" }

/-! ## Dates

The `Date` operations the week-key helpers call, after the abstract operations of the
ECMAScript specification (section "Date Objects").  A time value is a number of
milliseconds since the epoch in UTC; an invalid date (`NaN`) is `none`.  The local time
zone is a parameter `tza`, the offset of local time from UTC in milliseconds, taken as
constant (no daylight-saving transitions). -/

namespace JsDate

/-- Milliseconds per day. -/
def msPerDay : Int := 86400000

/-- The day number of a time value. -/
def Day (t : Int) : Int := t / msPerDay

/-- The milliseconds since the start of the day. -/
def TimeWithinDay (t : Int) : Int := t % msPerDay

/-- The number of days of year `y`. -/
def DaysInYear (y : Int) : Int :=
  if y % 4 ≠ 0 then 365 else if y % 100 ≠ 0 then 366 else if y % 400 ≠ 0 then 365 else 366

/-- The day number of the first day of year `y`. -/
def DayFromYear (y : Int) : Int :=
  365 * (y - 1970) + (y - 1969) / 4 - (y - 1901) / 100 + (y - 1601) / 400

/-- The largest year `y` with `DayFromYear y ≤ d`: an estimate from the mean year length,
corrected by one year where needed. -/
def yearFromDay (d : Int) : Int :=
  if DayFromYear (1970 + 400 * d / 146097 + 1) ≤ d then 1970 + 400 * d / 146097 + 1
  else if d < DayFromYear (1970 + 400 * d / 146097) then 1970 + 400 * d / 146097 - 1
  else 1970 + 400 * d / 146097

/-- The year of a time value. -/
def YearFromTime (t : Int) : Int := yearFromDay (Day t)

/-- One in a leap year, zero otherwise. -/
def InLeapYear (t : Int) : Int := if DaysInYear (YearFromTime t) = 366 then 1 else 0

/-- The zero-based day within the year. -/
def DayWithinYear (t : Int) : Int := Day t - DayFromYear (YearFromTime t)

/-- The day within the year on which zero-based month `m` starts; `leap` is 0 or 1. -/
def monthStart (m leap : Int) : Int :=
  if m = 0 then 0 else if m = 1 then 31 else if m = 2 then 59 + leap
  else if m = 3 then 90 + leap else if m = 4 then 120 + leap else if m = 5 then 151 + leap
  else if m = 6 then 181 + leap else if m = 7 then 212 + leap else if m = 8 then 243 + leap
  else if m = 9 then 273 + leap else if m = 10 then 304 + leap else 334 + leap

/-- The zero-based month in which day `d` of a year falls; `leap` is 0 or 1. -/
def monthOfDay (d leap : Int) : Int :=
  if d < 31 then 0 else if d < 59 + leap then 1 else if d < 90 + leap then 2
  else if d < 120 + leap then 3 else if d < 151 + leap then 4 else if d < 181 + leap then 5
  else if d < 212 + leap then 6 else if d < 243 + leap then 7 else if d < 273 + leap then 8
  else if d < 304 + leap then 9 else if d < 334 + leap then 10 else 11

/-- The zero-based month of a time value. -/
def MonthFromTime (t : Int) : Int := monthOfDay (DayWithinYear t) (InLeapYear t)

/-- The day of the month (1 to 31) of a time value. -/
def DateFromTime (t : Int) : Int :=
  DayWithinYear t - monthStart (MonthFromTime t) (InLeapYear t) + 1

/-- The day of the week of a time value: 0 is Sunday, 1 is Monday. -/
def WeekDay (t : Int) : Int := (Day t + 4) % 7

/-- Local time of a UTC time value. -/
def LocalTime (tza t : Int) : Int := t + tza

/-- The UTC time value of a local time. -/
def UTC (tza t : Int) : Int := t - tza

/-- The day number of the given day of a month; month and date may be out of range. -/
def MakeDay (year month date : Int) : Int :=
  let ym := year + month / 12
  let mn := month % 12
  DayFromYear ym + monthStart mn (if DaysInYear ym = 366 then 1 else 0) + date - 1

/-- The time value of a day number and a time within the day. -/
def MakeDate (day time : Int) : Int := day * msPerDay + time

/-- Time values beyond 8.64e15 milliseconds from the epoch are invalid. -/
def TimeClip (t : Int) : Option Int :=
  if t.natAbs ≤ 8640000000000000 then some t else none

/-- The method `getDay`, in local time. -/
def getDay (tza t : Int) : Int := WeekDay (LocalTime tza t)

/-- The method `getDate`, in local time. -/
def getDate (tza t : Int) : Int := DateFromTime (LocalTime tza t)

/-- The method `setDate`, in local time: the new time value. -/
def setDate (tza t dt : Int) : Option Int :=
  let lt := LocalTime tza t
  TimeClip (UTC tza (MakeDate (MakeDay (YearFromTime lt) (MonthFromTime lt) dt) (TimeWithinDay lt)))

/-- Decimal digits of `n`, left-padded with zeros to `width`. -/
def padDigits (width n : Nat) : List Char :=
  let ds := Nat.toDigits 10 n
  List.replicate (width - ds.length) '0' ++ ds

/-- The year of an ISO date string: four digits, or a sign and six digits outside 0..9999. -/
def isoYear (y : Int) : List Char :=
  if 0 ≤ y ∧ y ≤ 9999 then padDigits 4 y.toNat
  else if 0 ≤ y then '+' :: padDigits 6 y.toNat
  else '-' :: padDigits 6 (-y).toNat

/-- The expression `toISOString().split('T')[0]`: the UTC calendar date of a time value. -/
def isoDatePart (t : Int) : String :=
  String.mk (isoYear (YearFromTime t) ++ '-' :: padDigits 2 (MonthFromTime t + 1).toNat
    ++ '-' :: padDigits 2 (DateFromTime t).toNat)

/-- The value of a string of decimal digits. -/
def digitsValue (cs : List Char) : Option Nat :=
  if cs.all Char.isDigit then some (cs.foldl (fun n c => 10 * n + (c.toNat - 48)) 0) else none

/-- The year field of an ISO date-time string: `YYYY`, `+YYYYYY` or `-YYYYYY`, and the rest
of the string. -/
def parseYear (cs : List Char) : Option (Int × List Char) :=
  match cs with
  | '+' :: a :: b :: c :: d :: e :: f :: rest =>
    (digitsValue [a, b, c, d, e, f]).map (fun n => ((n : Int), rest))
  | '-' :: a :: b :: c :: d :: e :: f :: rest =>
    match digitsValue [a, b, c, d, e, f] with
    | some n => if n = 0 then none else some (-(n : Int), rest)
    | none => none
  | a :: b :: c :: d :: rest => (digitsValue [a, b, c, d]).map (fun n => ((n : Int), rest))
  | _ => none

/-- A two-digit field introduced by `-`, or its default 1 when the string has ended. -/
def parseDashField (cs : List Char) : Option (Nat × List Char) :=
  match cs with
  | [] => some (1, [])
  | '-' :: a :: b :: rest => (digitsValue [a, b]).map (fun n => (n, rest))
  | _ => none

/-- The date-only forms `YYYY`, `YYYY-MM` and `YYYY-MM-DD` of the ISO format: the day number
of the date, or `none` when the text is not a date of that format.  The last condition says
that day `d` exists in month `m`; a day that does not is treated as not of the format
(engines differ on such text). -/
def parseDate (s : String) : Option Int :=
  match parseYear s.toList with
  | none => none
  | some (y, r1) =>
    match parseDashField r1 with
    | none => none
    | some (m, r2) =>
      match parseDashField r2 with
      | none => none
      | some (d, r3) =>
        if r3 = [] ∧ 1 ≤ m ∧ m ≤ 12 ∧ 1 ≤ d ∧
            MakeDay y ((m : Int) - 1) ((d : Int) + 1) ≤ MakeDay y (m : Int) 1
        then some (MakeDay y ((m : Int) - 1) (d : Int)) else none

/-- The expression `new Date(key + 'T00:00:00')`: local midnight of the date `key`, or an
invalid date when `key` is not a date of the ISO format. -/
def localMidnight (tza : Int) (key : String) : Option Int :=
  match parseDate key with
  | some day => TimeClip (UTC tza (MakeDate day 0))
  | none => none

end JsDate

/-! ## Week keys -/

/-- The function `getWeekKey`: `date` is the time value of its argument, `none` when the
date is invalid; the result is `none` when `toISOString` throws a `RangeError`. -/
def getWeekKey (tza : Int) (date : Option Int) : Option String :=
  match date with
  | none => none
  | some d =>
    let day := JsDate.getDay tza d
    let diff := JsDate.getDate tza d - day + (if day = 0 then -6 else 1)
    match JsDate.setDate tza d diff with
    | some monday => some (JsDate.isoDatePart monday)
    | none => none

/-- The function `shiftWeek`. -/
def shiftWeek (tza : Int) (weekKey : String) (delta : Int) : Option String :=
  match JsDate.localMidnight tza weekKey with
  | none => none
  | some d => getWeekKey tza (JsDate.setDate tza d (JsDate.getDate tza d + delta * 7))

/-- The day number of the Monday of the Monday-to-Sunday span that contains day number
`day` (day 0, the first of January 1970, is a Thursday). -/
def mondayOfWeek (day : Int) : Int := day - (day + 3) % 7

/-- Offset of local time from UTC in a zone nine hours east (Asia/Tokyo), in milliseconds. -/
def tzaTokyo : Int := 9 * 3600000

/-- Offset of local time from UTC in a zone four hours west (New York in summer). -/
def tzaNewYork : Int := -4 * 3600000

/-! ## Sample data -/

/-- An empty week in which one task is checked on two days. -/
def sampleWeekTwoChecks : WeekRecord :=
  { createEmptyWeek with
    tasks := some [{ text := "Read", days := some [some "check", some "check", none, none, none,
      none, none] }] }

/-- The week of the xp example: two checks, water on two days, a mood, nothing else. -/
def sampleWeekXP : WeekRecord :=
  { sampleWeekTwoChecks with
    trackers := some
      { water := .arr [true, true, false, false, false, false, false]
        sleep := .arr (List.replicate DAYS (some defaultSleepEntry))
        food := some [("breakfast", false), ("lunch", false), ("dinner", false), ("snack", false)]
        mood := some "good"
        weather := none
        uniqueEvent := ""
        fitness := some ("", "")
        appointments := some [] } }

/-- A state holding only the week of the xp example. -/
def sampleStateXP : AppState :=
  { currentWeek := "2024-06-10"
    profile := some defaultProfile
    weeks := ⟨[("2024-06-10", some sampleWeekXP)], by decide⟩ }

/-! ## The xp aggregate as the specification words it -/

/-- Number of task-day slots of a week whose status is `check`. -/
def checkSlots (w : WeekRecord) : Nat :=
  ((w.tasks.getD []).map (fun task => (task.days.getD []).count (some "check"))).sum

/-- Number of water days of a week that are `true`. -/
def waterDays (w : WeekRecord) : Nat :=
  match w.trackers with
  | some tr =>
    match tr.water with
    | .arr ws => ws.count true
    | _ => 0
  | none => 0

/-- Number of food entries of a week that are `true`. -/
def foodEntries (w : WeekRecord) : Nat :=
  match w.trackers with
  | some tr => ((tr.food.getD []).map Prod.snd).count true
  | none => 0

/-- A sleep day counts when its `hours` is present and neither empty nor `"0"`. -/
def hoursPresent (day : Option SleepEntry) : Bool :=
  match day with
  | some d =>
    match d.hours with
    | some h => h != "" && h != "0"
    | none => false
  | none => false

/-- Number of sleep days of a week that count. -/
def sleepDays (w : WeekRecord) : Nat :=
  match w.trackers with
  | some tr =>
    match tr.sleep with
    | .arr ds => ds.countP hoursPresent
    | _ => 0
  | none => 0

/-- A mood or weather value is set when it is a non-empty string. -/
def isSet (v : Option String) : Bool :=
  match v with
  | some x => x != ""
  | none => false

/-- Whether the mood of a week is set. -/
def moodSet (w : WeekRecord) : Bool :=
  match w.trackers with
  | some tr => isSet tr.mood
  | none => false

/-- Whether the weather of a week is set. -/
def weatherSet (w : WeekRecord) : Bool :=
  match w.trackers with
  | some tr => isSet tr.weather
  | none => false

/-- The xp one week record contributes, as the specification lists it. -/
def specWeekXP (w : WeekRecord) : Nat :=
  10 * checkSlots w + 5 * waterDays w + 5 * foodEntries w + 10 * sleepDays w
    + (if moodSet w then 5 else 0) + (if weatherSet w then 5 else 0)

/-- The sum of the contributions of all week records; a `null` record contributes nothing. -/
def specTotalXP (weeks : Weeks) : Nat :=
  (weeks.entries.map (fun kv =>
    match kv.2 with
    | some w => specWeekXP w
    | none => 0)).sum

/-- A week counts for the streak when some task-day slot of it has status `check`. -/
def WeekCounts (w : Option WeekRecord) : Prop :=
  ∃ r, w = some r ∧ ∃ task ∈ r.tasks.getD [], some "check" ∈ task.days.getD []

/-- The amount `x` is the smallest xp at which `calculateLevel` returns `level`. -/
def IsFirstXpOfLevel (level x : Nat) : Prop :=
  calculateLevel x = level ∧ ∀ xp, calculateLevel xp = level → x ≤ xp

/-! ## Application state and persistence -/

/-- The module-level variables of `script.js` that the data operations read and write,
and the `localStorage` slot `habitJournalDataV5`. -/
structure App where
  appData : AppState
  currentWeekKey : String
  pomodoroSeconds : Int
  pomodoroIsWork : Bool
  storage : Option AppState

/-- The function `saveAppData`: the slot holds the serialised `appData`. -/
def saveAppData (a : App) : App := { a with storage := some a.appData }

/-- The function `saveData`: set `currentWeek`, recompute, persist. -/
def saveData (a : App) : App :=
  let a1 := { a with appData := { a.appData with currentWeek := a.currentWeekKey } }
  saveAppData { a1 with appData := recalculateXP a1.appData }

/-- The function `pomodoroTick`, without its display and audio effects. -/
def pomodoroTick (a : App) : App :=
  let a1 := { a with pomodoroSeconds := a.pomodoroSeconds - 1 }
  if a1.pomodoroSeconds ≤ 0 then
    if a1.pomodoroIsWork then
      let profile := ensureProfile a1.appData
      let xp := profile.xp + 25
      let a2 := { a1 with
        appData := { a1.appData with
          profile := some { profile with xp := xp, level := calculateLevel xp } } }
      let a3 := saveData a2
      { a3 with pomodoroIsWork := false, pomodoroSeconds := 5 * 60 }
    else
      { a1 with pomodoroIsWork := true, pomodoroSeconds := 25 * 60 }
  else a1

/-- A state with four weeks, each holding a check: the streak example `W1..W4`. -/
def sampleStateW4 : AppState :=
  { currentWeek := "2024-06-24"
    profile := some defaultProfile
    weeks := ⟨[("2024-06-17", some sampleWeekTwoChecks), ("2024-06-03", some sampleWeekTwoChecks),
      ("2024-06-24", some sampleWeekXP), ("2024-06-10", some sampleWeekTwoChecks)], by decide⟩ }

/-- The state `sampleStateW4` with a later week `W5` that holds no check. -/
def sampleStateW5 : AppState :=
  { currentWeek := "2024-07-01"
    profile := some defaultProfile
    weeks := ⟨sampleStateW4.weeks.entries ++ [("2024-07-01", some createEmptyWeek)], by decide⟩ }

/-- An application whose Pomodoro work session ends at the next tick. -/
def sampleAppWorkEnds : App :=
  { appData := sampleStateXP
    currentWeekKey := "2024-06-10"
    pomodoroSeconds := 1
    pomodoroIsWork := true
    storage := none }

/-! ## Loading and migration -/

/-- An exception thrown by the JavaScript runtime. -/
inductive JsError where
  | syntaxError
  | typeError
  | rangeError
deriving DecidableEq, Repr

/-- What `JSON.parse(localStorage.getItem(key))` meets in a storage slot: no item (the
result is `null`), text that is not JSON (a `SyntaxError` is thrown), the JSON text of a
falsy value (`null`, `false`, `0`, `""`), or the JSON text of an object of the shape the
program reads. -/
inductive Stored (α : Type) where
  | absent : Stored α
  | invalid (text : String) : Stored α
  | falsy (text : String) : Stored α
  | object (v : α) : Stored α

/-- The two `localStorage` slots: `STORAGE_KEY` and `OLD_STORAGE_KEY`. -/
structure LocalStorage where
  habitJournalDataV5 : Stored AppState
  habitJournalDataV4 : Stored WeekRecord

/-- Seven sleep entries: `Array(DAYS).fill().map(() => ({ wake: '', ... }))`. -/
def defaultSleep : List (Option SleepEntry) := List.replicate DAYS (some defaultSleepEntry)

/-- The migration step on the legacy trackers: the sleep field is replaced when
`typeof sleep === 'number' || !Array.isArray(sleep)`. -/
def migrateSleep (tr : Trackers) : Trackers :=
  match tr.sleep with
  | .arr _ => tr
  | _ => { tr with sleep := .arr defaultSleep }

/-- The object `{ currentWeek: currentKey, profile: {...}, weeks: {} }` after the
assignment `appData.weeks[currentKey] = record`. -/
def singleWeekState (currentKey : String) (record : WeekRecord) : AppState :=
  { currentWeek := currentKey
    profile := some defaultProfile
    weeks := ⟨[(currentKey, some record)], by simp⟩ }

/-- The function `loadAppData`: `now` is the time value of `new Date()`.  The result is the
returned `appData` and the storage after the call, or the exception that leaves the
function. -/
def loadAppData (tza : Int) (now : Option Int) (ls : LocalStorage) :
    Except JsError (AppState × LocalStorage) :=
  match ls.habitJournalDataV5 with
  | .invalid _ => .error .syntaxError
  | .object appData => .ok (appData, ls)
  | _ =>
    match ls.habitJournalDataV4 with
    | .invalid _ => .error .syntaxError
    | oldData =>
      match getWeekKey tza now with
      | none => .error .rangeError
      | some currentKey =>
        match oldData with
        | .object old =>
          match old.trackers with
          | none => .error .typeError
          | some tr =>
            let appData := singleWeekState currentKey { old with trackers := some (migrateSleep tr) }
            .ok (appData, { ls with habitJournalDataV5 := .object appData })
        | _ =>
          let appData := singleWeekState currentKey createEmptyWeek
          .ok (appData, { ls with habitJournalDataV5 := .object appData })

/-- Legacy trackers with a bare number in `sleep`. -/
def sampleLegacyTrackers : Trackers :=
  { water := .arr [true, true, false, false, false, false, false]
    sleep := .other "7.5"
    food := some [("breakfast", false), ("lunch", false), ("dinner", false), ("snack", false)]
    mood := some "good"
    weather := none
    uniqueEvent := ""
    fitness := some ("", "")
    appointments := some [] }

/-- A legacy record: the tasks of `sampleWeekXP` with the legacy trackers. -/
def sampleLegacyWeek : WeekRecord :=
  { sampleWeekXP with trackers := some sampleLegacyTrackers }

/-- Noon UTC of Wednesday 2024-06-12 as a time value. -/
def sampleNow : Option Int := some (19886 * 86400000 + 12 * 3600000)


/-! ## Access to the current week -/

/-- The assignment `weeks[key] = r` on the entry list: an existing key keeps its place, a
new key goes to the end. -/
def setEntry (l : List (String × Option WeekRecord)) (key : String) (r : Option WeekRecord) :
    List (String × Option WeekRecord) :=
  match l with
  | [] => [(key, r)]
  | kv :: rest => if kv.1 = key then (kv.1, r) :: rest else kv :: setEntry rest key r

/-- The assignment `appData.weeks[key] = r`. -/
def Weeks.set (w : Weeks) (key : String) (r : Option WeekRecord) : Weeks :=
  ⟨setEntry w.entries key r, by
    have hmem : ∀ (l : List (String × Option WeekRecord)) (x : String),
        x ∈ (setEntry l key r).map Prod.fst → x ∈ l.map Prod.fst ∨ x = key := by
      intro l
      induction l with
      | nil => intro x hx; simpa [setEntry] using hx
      | cons kv rest ih =>
        intro x hx
        unfold setEntry at hx
        by_cases hk : kv.1 = key
        · rw [if_pos hk] at hx
          exact Or.inl (by simpa using hx)
        · rw [if_neg hk] at hx
          rw [List.map_cons, List.mem_cons] at hx
          rcases hx with hx | hx
          · exact Or.inl (by simp [hx])
          · rcases ih x hx with h | h
            · exact Or.inl (by simp [h])
            · exact Or.inr h
    have hnd : ∀ l : List (String × Option WeekRecord),
        (l.map Prod.fst).Nodup → ((setEntry l key r).map Prod.fst).Nodup := by
      intro l
      induction l with
      | nil => intro _; simp [setEntry]
      | cons kv rest ih =>
        intro h
        rw [List.map_cons, List.nodup_cons] at h
        unfold setEntry
        by_cases hk : kv.1 = key
        · rw [if_pos hk, List.map_cons, List.nodup_cons]
          exact h
        · rw [if_neg hk, List.map_cons, List.nodup_cons]
          refine ⟨fun hx => ?_, ih h.2⟩
          rcases hmem rest kv.1 hx with h1 | h1
          · exact h.1 h1
          · exact hk h1
    exact hnd w.entries w.nodup⟩

/-- The state after an event handler or render function, and the exception that aborted
it, if one did. -/
abbrev Outcome := App × Option JsError

/-- Sequencing of two steps of a handler: the second runs unless the first threw. -/
def Outcome.andThen (o : Outcome) (f : App → Outcome) : Outcome :=
  match o.2 with
  | none => f o.1
  | some _ => o

/-- The function `getCurrentWeekData`: the state after the call and the record returned. -/
def getCurrentWeekData (a : App) : App × WeekRecord :=
  match a.appData.weeks.get a.currentWeekKey with
  | some r => (a, r)
  | none =>
    ({ a with appData := { a.appData with
        weeks := a.appData.weeks.set a.currentWeekKey (some createEmptyWeek) } },
      createEmptyWeek)

/-- A statement that mutates the object returned by `weekData()`: `f` gives the record
after the statement, or the exception it throws. -/
def mutateWeek (a : App) (f : WeekRecord → Except JsError WeekRecord) : Outcome :=
  match f (getCurrentWeekData a).2 with
  | .ok r =>
    ({ (getCurrentWeekData a).1 with appData := { (getCurrentWeekData a).1.appData with
        weeks := (getCurrentWeekData a).1.appData.weeks.set a.currentWeekKey (some r) } }, none)
  | .error e => ((getCurrentWeekData a).1, some e)

/-! ## Normalisation in the render functions -/

/-- The first statement of `renderWater` after the lookup:
`if (!Array.isArray(wd.trackers.water)) wd.trackers.water = Array(DAYS).fill(false)`. -/
def normalizeWater (tr : Trackers) : Trackers :=
  match tr.water with
  | .arr _ => tr
  | _ => { tr with water := .arr (List.replicate DAYS false) }

/-- The data effect of `renderWater` on the week record (the loop only reads). -/
def renderWaterData (w : WeekRecord) : Except JsError WeekRecord :=
  match w.trackers with
  | some tr => .ok { w with trackers := some (normalizeWater tr) }
  | none => .error .typeError

/-- The first statement of `renderSleep` after the lookup: the sleep field is replaced
when `typeof sleep === 'number' || !Array.isArray(sleep)`. -/
def normalizeSleep (tr : Trackers) : Trackers :=
  match tr.sleep with
  | .arr _ => tr
  | _ => { tr with sleep := .arr defaultSleep }

/-- The assignment `xs[i] = v` on an array; a gap it opens is filled with `hole`. -/
def jsAssign {α : Type} (hole : α) (xs : List α) (i : Nat) (v : α) : List α :=
  if i < xs.length then xs.set i v else xs ++ List.replicate (i - xs.length) hole ++ [v]

/-- The three statements at the head of the day loop of `renderSleep`, on the entry at one
index: a falsy entry becomes the default entry, falsy meridiems become `AM` and `PM`. -/
def healSleepEntry (e : Option SleepEntry) : SleepEntry :=
  let d := match e with
    | some d => d
    | none => defaultSleepEntry
  let d1 := if truthyStr d.wakeAmPm then d else { d with wakeAmPm := some "AM" }
  if truthyStr d1.bedAmPm then d1 else { d1 with bedAmPm := some "PM" }

/-- One pass of the day loop of `renderSleep` over the data. -/
def sleepLoopStep (xs : List (Option SleepEntry)) (i : Nat) : List (Option SleepEntry) :=
  jsAssign none xs i (some (healSleepEntry (xs.getD i none)))

/-- The data effect of `renderSleep` on the week record. -/
def renderSleepData (w : WeekRecord) : Except JsError WeekRecord :=
  match w.trackers with
  | some tr =>
    match (normalizeSleep tr).sleep with
    | .arr xs =>
      .ok { w with trackers := some { normalizeSleep tr with
        sleep := .arr ((List.range DAYS).foldl sleepLoopStep xs) } }
    | _ => .error .typeError
  | none => .error .typeError

/-- The function `renderWater`, as far as it changes the data. -/
def renderWater (a : App) : Outcome := mutateWeek a renderWaterData

/-- The function `renderSleep`, as far as it changes the data. -/
def renderSleep (a : App) : Outcome := mutateWeek a renderSleepData

/-! ## Tasks -/

/-- The task literal `{ text: '', days: Array(DAYS).fill(null) }`, with a given text. -/
def newTask (text : String) : Task := { text := text, days := some (List.replicate DAYS none) }

/-- The function `renderTasks`, as far as the data is concerned: it reads `wd.tasks` and the
`days` of every task, and throws a `TypeError` when one of them is missing. -/
def renderTasks (a : App) : Outcome :=
  match (getCurrentWeekData a).2.tasks with
  | some ts =>
    if ts.all (fun task => task.days.isSome) then ((getCurrentWeekData a).1, none)
    else ((getCurrentWeekData a).1, some .typeError)
  | none => ((getCurrentWeekData a).1, some .typeError)

/-- The array `states` of the day-checkbox click handler. -/
def states : List DayStatus := [none, some "check", some "x", some "na"]

/-- The method `indexOf`: the index of the first element equal to `x`, or -1. -/
def jsIndexOf (xs : List DayStatus) (x : DayStatus) : Int :=
  if x ∈ xs then (xs.indexOf x : Int) else -1

/-- The value `next` of the click handler, given the value read from the slot (`none` when
the read gives `undefined`). -/
def nextStatus (slot : Option DayStatus) : DayStatus :=
  let current : Int := match slot with
    | some s => jsIndexOf states s
    | none => -1
  states.getD ((current + 1) % (states.length : Int)).toNat none

/-- The statements of the click handler that change the record:
`weekData().tasks[index].days[dayIndex] = next`. -/
def toggleDay (index dayIndex : Nat) (w : WeekRecord) : Except JsError WeekRecord :=
  match w.tasks with
  | none => .error .typeError
  | some ts =>
    match ts[index]? with
    | none => .error .typeError
    | some task =>
      match task.days with
      | none => .error .typeError
      | some ds =>
        .ok { w with tasks := some (ts.set index
          { task with days := some (jsAssign none ds dayIndex (nextStatus ds[dayIndex]?)) }) }

/-- The click handler of the day checkbox at task `index`, day `dayIndex`. -/
def clickDay (index dayIndex : Nat) (a : App) : Outcome :=
  (mutateWeek a (toggleDay index dayIndex)).andThen (fun a1 => (saveData a1, none))

/-- The statement `weekData().tasks.push(task)`, for several tasks in a row. -/
def pushTasks (tasks : List Task) (w : WeekRecord) : Except JsError WeekRecord :=
  match w.tasks with
  | some ts => .ok { w with tasks := some (ts ++ tasks) }
  | none => if tasks = [] then .ok w else .error .typeError

/-- The click handler of the add-task button. -/
def addTask (a : App) : Outcome :=
  ((mutateWeek a (pushTasks [newTask ""])).andThen (fun a1 => (saveData a1, none))).andThen
    renderTasks

/-- The constant `TEMPLATES`. -/
def TEMPLATES : List (String × List String) :=
  [("Morning Routine", ["Wake up early", "Drink water", "Stretch / Exercise",
      "Healthy breakfast", "Journal / Gratitude"]),
    ("Fitness Week", ["Cardio session", "Strength training", "Yoga / Flexibility",
      "Walk 10k steps", "Meal prep"]),
    ("Study Plan", ["Read 30 min", "Review notes", "Practice problems", "Flashcards",
      "Summarize lesson"]),
    ("Self Care", ["Skincare routine", "Meditate 10 min", "Social time",
      "No screens 1hr before bed", "Creative hobby"])]

/-- The click handler of the template option `name`. -/
def applyTemplate (name : String) (a : App) : Outcome :=
  match TEMPLATES.lookup name with
  | none => (a, some .typeError)
  | some texts =>
    ((mutateWeek a (pushTasks (texts.map newTask))).andThen
      (fun a1 => (saveData a1, none))).andThen renderTasks

/-- The statement `weekData().tasks.splice(index, 1)`. -/
def spliceOut (index : Nat) (w : WeekRecord) : Except JsError WeekRecord :=
  match w.tasks with
  | some ts => .ok { w with tasks := some (ts.eraseIdx index) }
  | none => .error .typeError

/-- The click handler of the delete button of task `index`. -/
def deleteTask (index : Nat) (a : App) : Outcome :=
  ((mutateWeek a (spliceOut index)).andThen (fun a1 => (saveData a1, none))).andThen renderTasks

/-- The two `splice` calls of the drop handler: the task at `dragIndex` is taken out and
put back at `index`.  A `dragIndex` past the end would put `undefined` into the array, which
a list of tasks cannot hold; that case is reported as the `TypeError` the next render throws. -/
def moveTask (dragIndex index : Nat) (w : WeekRecord) : Except JsError WeekRecord :=
  match w.tasks with
  | some ts =>
    match ts[dragIndex]? with
    | some moved =>
      .ok { w with tasks := some ((ts.eraseIdx dragIndex).take index ++ moved ::
        (ts.eraseIdx dragIndex).drop index) }
    | none => .error .typeError
  | none => .error .typeError

/-- The drop handler of the task row `index`; `dragIndex` is `null` or the row dragged. -/
def dropTask (dragIndex : Option Nat) (index : Nat) (a : App) : Outcome :=
  match dragIndex with
  | none => (a, none)
  | some d =>
    if d = index then (a, none)
    else
      ((mutateWeek a (moveTask d index)).andThen (fun a1 => (saveData a1, none))).andThen
        renderTasks


/-- A sleep entry with logged times and hours. -/
def sampleSleepEntry : SleepEntry :=
  { wake := "7:00", wakeAmPm := some "AM", bed := "11:00", bedAmPm := some "PM", hours := some "8" }

/-- Trackers whose sleep array has one entry and whose water array has two. -/
def sampleTrackersShort : Trackers :=
  { sampleLegacyTrackers with sleep := .arr [some sampleSleepEntry], water := .arr [true, false] }

/-- Trackers whose sleep and water arrays have nine entries. -/
def sampleTrackersLong : Trackers :=
  { sampleLegacyTrackers with
    sleep := .arr (List.replicate 9 (some sampleSleepEntry))
    water := .arr (List.replicate 9 true) }

/-- A stored week record without a `tasks` field. -/
def sampleWeekNoTasks : WeekRecord :=
  { tasks := none, trackers := some sampleLegacyTrackers, weekOf := "" }

/-- An application whose current week is a stored record without tasks. -/
def sampleAppNoTasks : App :=
  { appData :=
      { currentWeek := "2024-06-10"
        profile := some defaultProfile
        weeks := ⟨[("2024-06-10", some sampleWeekNoTasks)], by decide⟩ }
    currentWeekKey := "2024-06-10"
    pomodoroSeconds := 1500
    pomodoroIsWork := true
    storage := none }


/-- An application whose current week is `sampleWeekTwoChecks`, next to an older week. -/
def sampleAppTasks : App :=
  { appData :=
      { currentWeek := "2024-06-10"
        profile := some defaultProfile
        weeks := ⟨[("2024-06-03", some sampleWeekXP), ("2024-06-10", some sampleWeekTwoChecks)],
          by decide⟩ }
    currentWeekKey := "2024-06-10"
    pomodoroSeconds := 1500
    pomodoroIsWork := true
    storage := none }


/-- Every task of the record has exactly seven day statuses. -/
def RecordDays (r : WeekRecord) : Prop :=
  ∀ ts, r.tasks = some ts → ∀ task ∈ ts, ∃ ds, task.days = some ds ∧ ds.length = 7

/-- Every task of every week record has exactly seven day statuses. -/
def DaysInvariant (weeks : Weeks) : Prop :=
  ∀ kv ∈ weeks.entries, ∀ r, kv.2 = some r → RecordDays r


/-! ## Derived sleep duration -/

/-- A JavaScript number that is either `NaN` or a rational value (arithmetic is exact). -/
inductive JsNum where
  | nan : JsNum
  | num (q : ℚ) : JsNum
deriving DecidableEq

/-- White space that `parseInt` skips at the start of its argument. -/
def isJsWhitespace (c : Char) : Bool :=
  c.toNat ∈ [0x9, 0xA, 0xB, 0xC, 0xD, 0x20, 0xA0, 0x1680, 0x2000, 0x2001, 0x2002, 0x2003,
    0x2004, 0x2005, 0x2006, 0x2007, 0x2008, 0x2009, 0x200A, 0x2028, 0x2029, 0x202F, 0x205F,
    0x3000, 0xFEFF]

/-- The value of a character as a digit of the given radix, if it is one. -/
def digitOf (radix : Nat) (c : Char) : Option Nat :=
  let v :=
    if '0'.toNat ≤ c.toNat ∧ c.toNat ≤ '9'.toNat then c.toNat - '0'.toNat
    else if 'a'.toNat ≤ c.toNat ∧ c.toNat ≤ 'z'.toNat then c.toNat - 'a'.toNat + 10
    else if 'A'.toNat ≤ c.toNat ∧ c.toNat ≤ 'Z'.toNat then c.toNat - 'A'.toNat + 10
    else radix
  if v < radix then some v else none

/-- The digits `parseInt` reads: the longest run of digits of the radix, as a number, or
`none` (the result `NaN`) when there is none. -/
def parseDigits (radix : Nat) (cs : List Char) : Option Nat :=
  let ds := cs.takeWhile (fun c => (digitOf radix c).isSome)
  if ds = [] then none
  else some (ds.foldl (fun acc c => acc * radix + (digitOf radix c).getD 0) 0)

/-- The part of `parseInt` after the sign: a `0x` or `0X` head selects radix 16. -/
def parseUnsigned (cs : List Char) : Option Nat :=
  match cs with
  | '0' :: 'x' :: rest => parseDigits 16 rest
  | '0' :: 'X' :: rest => parseDigits 16 rest
  | _ => parseDigits 10 cs

/-- The function `parseInt` with one argument, on the characters of the string: `none` is
`NaN`. -/
def parseInt (cs : List Char) : Option Int :=
  match cs.dropWhile isJsWhitespace with
  | '-' :: rest => (parseUnsigned rest).map (fun n => -(n : Int))
  | '+' :: rest => (parseUnsigned rest).map (fun n => (n : Int))
  | rest => (parseUnsigned rest).map (fun n => (n : Int))

/-- The method call `str.split(':')`, on the characters of the string. -/
def splitColon : List Char → List (List Char)
  | [] => [[]]
  | c :: cs =>
    if c = ':' then [] :: splitColon cs
    else
      match splitColon cs with
      | p :: ps => (c :: p) :: ps
      | [] => [[c]]

/-- The value `parseInt(parts[0])` of `parseTime`. -/
def hourPart (str : String) : Option Int :=
  parseInt ((splitColon str.toList).getD 0 [])

/-- The value `parts[1] ? parseInt(parts[1]) : 0` of `parseTime`. -/
def minutePart (str : String) : Option Int :=
  match (splitColon str.toList)[1]? with
  | some p => if p = [] then some 0 else parseInt p
  | none => some 0

/-- The hour after the two meridiem statements of `parseTime`. -/
def adjustHour (h : Int) (ampm : String) : Int :=
  let h1 := if ampm = "PM" ∧ h < 12 then h + 12 else h
  if ampm = "AM" ∧ h1 = 12 then 0 else h1

/-- The function `parseTime` inside `calculateSleep`: `none` is the result `null`. -/
def parseTime (str ampm : String) : Option JsNum :=
  match hourPart str with
  | none => none
  | some h =>
    match minutePart str with
    | none => some .nan
    | some m => some (.num ((adjustHour h ampm : ℚ) + (m : ℚ) / 60))

/-- The value of `diff` in `calculateSleep` before it is rounded and stored, for the given
texts of the wake and bed inputs and values of the two meridiem selects; `none` when the
function returns without computing it. -/
def calculateSleepDiff (wakeVal wakeAmPm bedVal bedAmPm : String) : Option JsNum :=
  if wakeVal = "" ∨ bedVal = "" then none
  else
    match parseTime wakeVal wakeAmPm, parseTime bedVal bedAmPm with
    | some wakeH, some bedH =>
      match wakeH, bedH with
      | .num w, .num b => some (.num (if w - b < 0 then w - b + 24 else w - b))
      | _, _ => some .nan
    | _, _ => none


/-- The code units of a two-digit decimal field. -/
def twoDigitUnits (n : Nat) : List Nat := [48 + n / 10, 48 + n % 10]

/-- The code units of the text `YYYY-MM-DD` for a year below 10000. -/
def dateUnits (y m d : Nat) : List Nat :=
  twoDigitUnits (y / 100) ++ twoDigitUnits (y % 100) ++ 45 :: twoDigitUnits m
    ++ 45 :: twoDigitUnits d

/-- The calendar date `(y1, m1, d1)` is not later than `(y2, m2, d2)`. -/
def DateLe (y1 m1 d1 y2 m2 d2 : Int) : Prop :=
  y1 < y2 ∨ (y1 = y2 ∧ (m1 < m2 ∨ (m1 = m2 ∧ d1 ≤ d2)))


/-! ## Navigation and the full render -/

/-- The month names that `toLocaleDateString('en-US', { month: 'short' })` prints. -/
def monthShort (m : Int) : String :=
  ["Jan", "Feb", "Mar", "Apr", "May", "Jun", "Jul", "Aug", "Sep", "Oct", "Nov", "Dec"].getD
    m.toNat ""

/-- The call `toLocaleDateString('en-US', { month: 'short', day: 'numeric' })`, in local
time; an invalid date prints as `Invalid Date`. -/
def toLocaleShort (tza : Int) (date : Option Int) : String :=
  match date with
  | some t =>
    monthShort (JsDate.MonthFromTime (JsDate.LocalTime tza t)) ++ " "
      ++ String.mk (Nat.toDigits 10 (JsDate.DateFromTime (JsDate.LocalTime tza t)).toNat)
  | none => "Invalid Date"

/-- The function `formatWeekLabel`; the separator is the text between the two dates as the
source file holds it. -/
def formatWeekLabel (tza : Int) (weekKey : String) : String :=
  let d := JsDate.localMidnight tza weekKey
  let endDate := match d with
    | some t => JsDate.setDate tza t (JsDate.getDate tza t + 6)
    | none => none
  toLocaleShort tza d ++ " â€“ " ++ toLocaleShort tza endDate

/-- The header part of `renderAll`: when `wd.weekOf` is falsy it is set to the week label
and `saveData` runs. -/
def renderHeader (tza : Int) (a : App) : Outcome :=
  if (getCurrentWeekData a).2.weekOf = "" then
    (mutateWeek a (fun w =>
      .ok { w with weekOf := formatWeekLabel tza a.currentWeekKey })).andThen
      (fun a1 => (saveData a1, none))
  else ((getCurrentWeekData a).1, none)

/-- A render function that only reads `wd.trackers`: it throws when the trackers are
missing. -/
def readTrackers (w : WeekRecord) : Except JsError WeekRecord :=
  match w.trackers with
  | some _ => .ok w
  | none => .error .typeError

/-- The function `renderWeather`, as far as the data is concerned. -/
def renderWeather (a : App) : Outcome := mutateWeek a readTrackers

/-- The function `renderMood`, as far as the data is concerned. -/
def renderMood (a : App) : Outcome := mutateWeek a readTrackers

/-- The data effect of `renderAppointments`: a falsy or non-array `appointments` becomes
the empty array. -/
def renderAppointmentsData (w : WeekRecord) : Except JsError WeekRecord :=
  match w.trackers with
  | some tr =>
    match tr.appointments with
    | some _ => .ok w
    | none => .ok { w with trackers := some { tr with appointments := some [] } }
  | none => .error .typeError

/-- The function `renderAppointments`, as far as it changes the data. -/
def renderAppointments (a : App) : Outcome := mutateWeek a renderAppointmentsData

/-- The data effect of `renderFood`: a falsy `food` becomes the four unchecked meals. -/
def renderFoodData (w : WeekRecord) : Except JsError WeekRecord :=
  match w.trackers with
  | some tr =>
    match tr.food with
    | some _ => .ok w
    | none =>
      .ok { w with trackers := some { tr with
        food := some [("breakfast", false), ("lunch", false), ("dinner", false),
          ("snack", false)] } }
  | none => .error .typeError

/-- The function `renderFood`, as far as it changes the data. -/
def renderFood (a : App) : Outcome := mutateWeek a renderFoodData

/-- The function `renderUniqueEvent`, as far as the data is concerned. -/
def renderUniqueEvent (a : App) : Outcome := mutateWeek a readTrackers

/-- The data effect of `renderFitness`: a falsy `fitness` becomes `{ type: '', duration: '' }`. -/
def renderFitnessData (w : WeekRecord) : Except JsError WeekRecord :=
  match w.trackers with
  | some tr =>
    match tr.fitness with
    | some _ => .ok w
    | none => .ok { w with trackers := some { tr with fitness := some ("", "") } }
  | none => .error .typeError

/-- The function `renderFitness`, as far as it changes the data. -/
def renderFitness (a : App) : Outcome := mutateWeek a renderFitnessData

/-- The function `renderGamification`, as far as it changes the data: `ensureProfile`
stores the default profile when there is none. -/
def renderGamification (a : App) : Outcome :=
  ({ a with appData := { a.appData with profile := some (ensureProfile a.appData) } }, none)

/-- The function `renderAll`. -/
def renderAll (tza : Int) (a : App) : Outcome :=
  ((((((((((renderHeader tza a).andThen renderTasks).andThen renderWeather).andThen
    renderMood).andThen renderAppointments).andThen renderWater).andThen renderSleep).andThen
    renderFood).andThen renderUniqueEvent).andThen renderFitness).andThen renderGamification

/-- The function `navigateWeek`; when `shiftWeek` throws, nothing has been assigned. -/
def navigateWeek (tza delta : Int) (a : App) : Outcome :=
  match shiftWeek tza a.currentWeekKey delta with
  | none => (a, some .rangeError)
  | some key =>
    Outcome.andThen
      (saveData { a with
        currentWeekKey := key
        appData := { a.appData with currentWeek := key } }, none)
      (renderAll tza)

/-- An application showing the last of the four checked weeks of `sampleStateW4`. -/
def sampleAppW4 : App :=
  { appData := sampleStateW4
    currentWeekKey := "2024-06-24"
    pomodoroSeconds := 1500
    pomodoroIsWork := true
    storage := none }


/-! ## Lemmas: xp -/

theorem foldl_xpStatusStep (ds : List DayStatus) (t : Nat) :
    ds.foldl xpStatusStep t = t + 10 * ds.count (some "check") := by
  induction ds generalizing t with
  | nil => simp
  | cons d ds ih =>
    rw [List.foldl_cons, ih, List.count_cons]
    unfold xpStatusStep
    by_cases h : d = some "check"
    · simp [h]; ring
    · simp [h]

theorem foldl_xpTaskStep (ts : List Task) (t : Nat) :
    ts.foldl xpTaskStep t
      = t + 10 * (ts.map (fun task => (task.days.getD []).count (some "check"))).sum := by
  induction ts generalizing t with
  | nil => simp
  | cons a ts ih =>
    rw [List.foldl_cons, ih]
    unfold xpTaskStep
    cases h : a.days with
    | none => simp [h]
    | some ds => simp [h, foldl_xpStatusStep]; ring

theorem foldl_xpWaterStep (ws : List Bool) (t : Nat) :
    ws.foldl xpWaterStep t = t + 5 * ws.count true := by
  induction ws generalizing t with
  | nil => simp
  | cons b ws ih =>
    rw [List.foldl_cons, ih, List.count_cons]
    cases b <;> simp [xpWaterStep]
    ring

theorem foldl_xpFoodStep (fs : List (String × Bool)) (t : Nat) :
    fs.foldl xpFoodStep t = t + 5 * (fs.map Prod.snd).count true := by
  induction fs generalizing t with
  | nil => simp
  | cons b fs ih =>
    rw [List.foldl_cons, ih, List.map_cons, List.count_cons]
    obtain ⟨k, v⟩ := b
    cases v <;> simp [xpFoodStep]
    ring

theorem sleepLogged_eq_hoursPresent (day : Option SleepEntry) :
    sleepLogged day = hoursPresent day := by
  cases day with
  | none => rfl
  | some d =>
    obtain ⟨wake, wa, bed, ba, hours⟩ := d
    cases hours with
    | none => simp [sleepLogged, hoursPresent, truthyStr]
    | some v =>
      by_cases h1 : v = "" <;> by_cases h2 : v = "0" <;>
        simp [sleepLogged, hoursPresent, truthyStr, bne, h1, h2]

theorem foldl_xpSleepStep (ds : List (Option SleepEntry)) (t : Nat) :
    ds.foldl xpSleepStep t = t + 10 * ds.countP hoursPresent := by
  induction ds generalizing t with
  | nil => simp
  | cons d ds ih =>
    rw [List.foldl_cons, ih, List.countP_cons]
    unfold xpSleepStep
    rw [sleepLogged_eq_hoursPresent]
    cases hoursPresent d <;> simp
    ring

theorem truthyStr_eq_isSet (v : Option String) : truthyStr v = isSet v := by
  cases v <;> rfl

theorem xpTrackers_eq (tr : Trackers) (t : Nat) :
    xpTrackers t tr
      = t + 5 * (match tr.water with
                 | .arr ws => ws.count true
                 | _ => 0)
          + 5 * ((tr.food.getD []).map Prod.snd).count true
          + 10 * (match tr.sleep with
                  | .arr ds => ds.countP hoursPresent
                  | _ => 0)
          + (if isSet tr.mood then 5 else 0) + (if isSet tr.weather then 5 else 0) := by
  unfold xpTrackers
  simp only [truthyStr_eq_isSet]
  cases hw : tr.water <;> cases hs : tr.sleep <;> cases hf : tr.food <;>
    by_cases hm : isSet tr.mood = true <;> by_cases hwe : isSet tr.weather = true <;>
    simp [hm, hwe, foldl_xpWaterStep, foldl_xpFoodStep, foldl_xpSleepStep]

theorem xpWeekStep_some (w : WeekRecord) (t : Nat) :
    xpWeekStep t (some w) = t + specWeekXP w := by
  obtain ⟨tasks, trackers, weekOf⟩ := w
  unfold xpWeekStep specWeekXP checkSlots waterDays foodEntries sleepDays moodSet weatherSet
  cases tasks <;> cases trackers <;>
    simp [foldl_xpTaskStep, xpTrackers_eq] <;> ring

theorem lookup_of_mem_nodup (l : List (String × Option WeekRecord))
    (hn : (l.map Prod.fst).Nodup) (kv : String × Option WeekRecord) (hm : kv ∈ l) :
    l.lookup kv.1 = some kv.2 := by
  induction l with
  | nil => simp at hm
  | cons a l ih =>
    obtain ⟨k, v⟩ := a
    rw [List.map_cons, List.nodup_cons] at hn
    rcases List.mem_cons.1 hm with h | h
    · subst h; simp [List.lookup]
    · have hne : kv.1 ≠ k := by
        intro he
        have hk : kv.1 ∈ l.map Prod.fst := List.mem_map_of_mem Prod.fst h
        rw [he] at hk
        exact hn.1 hk
      have hb : (kv.1 == k) = false := by simpa using hne
      rw [List.lookup, hb]
      exact ih hn.2 h

theorem Weeks.get_of_mem (w : Weeks) (kv : String × Option WeekRecord) (hm : kv ∈ w.entries) :
    w.get kv.1 = kv.2 := by
  unfold Weeks.get
  rw [lookup_of_mem_nodup w.entries w.nodup kv hm]

theorem foldl_congr_mem {α β : Type} (f g : β → α → β) (l : List α)
    (h : ∀ a ∈ l, ∀ b, f b a = g b a) (b : β) : l.foldl f b = l.foldl g b := by
  induction l generalizing b with
  | nil => rfl
  | cons a l ih =>
    rw [List.foldl_cons, List.foldl_cons, h a (List.mem_cons_self a l) b]
    exact ih (fun x hx => h x (List.mem_cons_of_mem a hx)) (g b a)

theorem foldl_xpWeekStep (l : List (String × Option WeekRecord)) (t : Nat) :
    l.foldl (fun total kv => xpWeekStep total kv.2) t
      = t + (l.map (fun kv =>
          match kv.2 with
          | some w => specWeekXP w
          | none => 0)).sum := by
  induction l generalizing t with
  | nil => simp
  | cons a l ih =>
    rw [List.foldl_cons, ih, List.map_cons, List.sum_cons]
    cases h : a.2 with
    | none => simp [xpWeekStep]
    | some w => simp [xpWeekStep_some]; ring

theorem totalXP_eq_spec (weeks : Weeks) : totalXP weeks = specTotalXP weeks := by
  unfold totalXP specTotalXP Weeks.keys
  rw [List.foldl_map]
  rw [foldl_congr_mem _ (fun total kv => xpWeekStep total kv.2) weeks.entries
    (fun kv hkv b => by rw [Weeks.get_of_mem weeks kv hkv])]
  rw [foldl_xpWeekStep]
  simp

/-! ## Experience points -/

theorem recalculateXP_profile (s : AppState) :
    ensureProfile (recalculateXP s)
      = { ensureProfile s with
          xp := totalXP s.weeks
          level := calculateLevel (totalXP s.weeks)
          streakDays := computeStreak s.weeks
          longestStreak :=
            if computeStreak s.weeks > (ensureProfile s).longestStreak.getD 0
            then some (computeStreak s.weeks) else (ensureProfile s).longestStreak } := by
  simp [recalculateXP, ensureProfile]

theorem recalculateXP_weeks (s : AppState) : (recalculateXP s).weeks = s.weeks := rfl

/-- C1. After `recalculateXP` the stored xp is the sum over all week records of 10 per
`check` slot, 5 per true water day, 5 per true food entry, 10 per sleep day whose hours is
present and neither empty nor `"0"`, 5 for a set mood and 5 for a set weather (set: a
non-empty string).  A single week with two checks, water on two days, a mood and nothing
else gives xp 35 and level 1. -/
theorem recalculateXP_xp_eq_sum (s : AppState) :
    (ensureProfile (recalculateXP s)).xp = specTotalXP s.weeks ∧
    (∀ k w, s.weeks.entries = [(k, some w)] → checkSlots w = 2 → waterDays w = 2 →
      foodEntries w = 0 → sleepDays w = 0 → moodSet w = true → weatherSet w = false →
      (ensureProfile (recalculateXP s)).xp = 35 ∧ (ensureProfile (recalculateXP s)).level = 1) := by
  have hxp : (ensureProfile (recalculateXP s)).xp = specTotalXP s.weeks := by
    rw [recalculateXP_profile, ← totalXP_eq_spec]
  refine ⟨hxp, ?_⟩
  intro k w he hc hw hf hs hm hwe
  have h35 : totalXP s.weeks = 35 := by
    rw [totalXP_eq_spec]
    simp [specTotalXP, he, specWeekXP, hc, hw, hf, hs, hm, hwe]
  rw [recalculateXP_profile]
  simp [h35, calculateLevel]

theorem recalculateXP_xp_eq_sum_witness :
    (ensureProfile (recalculateXP sampleStateXP)).xp = 35 ∧
    (ensureProfile (recalculateXP sampleStateXP)).level = 1 :=
  (recalculateXP_xp_eq_sum sampleStateXP).2 "2024-06-10" sampleWeekXP rfl
    (by decide) (by decide) (by decide) (by decide) (by decide) (by decide)

/-! ## Level curve -/

theorem sqrt_div_hundred_bounds (xp : Nat) :
    100 * Nat.sqrt (xp / 100) ^ 2 ≤ xp ∧ xp < 100 * (Nat.sqrt (xp / 100) + 1) ^ 2 := by
  have h1 : Nat.sqrt (xp / 100) ^ 2 ≤ xp / 100 := Nat.sqrt_le' (xp / 100)
  have h2 : xp / 100 < (Nat.sqrt (xp / 100) + 1) ^ 2 := Nat.lt_succ_sqrt' (xp / 100)
  constructor
  · have := Nat.mul_le_mul_left 100 h1
    have h3 : 100 * (xp / 100) ≤ xp := Nat.mul_div_le xp 100
    omega
  · have h3 : xp < 100 * (xp / 100 + 1) := by
      have := Nat.div_add_mod xp 100
      have := Nat.mod_lt xp (by norm_num : 100 > 0)
      omega
    have h4 : 100 * (xp / 100 + 1) ≤ 100 * (Nat.sqrt (xp / 100) + 1) ^ 2 :=
      Nat.mul_le_mul_left 100 h2
    omega

theorem level_bounds_unique (xp L M : Nat)
    (hL : 100 * L ^ 2 ≤ xp ∧ xp < 100 * (L + 1) ^ 2)
    (hM : 100 * M ^ 2 ≤ xp ∧ xp < 100 * (M + 1) ^ 2) : M = L := by
  by_contra hne
  rcases Nat.lt_or_gt_of_ne hne with h | h
  · have h1 : (M + 1) ^ 2 ≤ L ^ 2 := Nat.pow_le_pow_left h 2
    have := Nat.mul_le_mul_left 100 h1
    omega
  · have h1 : (L + 1) ^ 2 ≤ M ^ 2 := Nat.pow_le_pow_left h 2
    have := Nat.mul_le_mul_left 100 h1
    omega

theorem calculateLevel_eq_floor_sqrt (xp : Nat) :
    calculateLevel xp = max 1 ⌊Real.sqrt ((xp : ℝ) / 100)⌋₊ := by
  unfold calculateLevel
  congr 1
  symm
  obtain ⟨h1, h2⟩ := sqrt_div_hundred_bounds xp
  rw [Nat.floor_eq_iff (Real.sqrt_nonneg _)]
  constructor
  · apply Real.le_sqrt_of_sq_le
    rw [le_div_iff₀ (by norm_num : (0 : ℝ) < 100)]
    have : ((Nat.sqrt (xp / 100) ^ 2 * 100 : ℕ) : ℝ) ≤ (xp : ℝ) := by
      exact_mod_cast (by omega : Nat.sqrt (xp / 100) ^ 2 * 100 ≤ xp)
    push_cast at this
    exact this
  · rw [Real.sqrt_lt' (by positivity)]
    rw [div_lt_iff₀ (by norm_num : (0 : ℝ) < 100)]
    have : (xp : ℝ) < (((Nat.sqrt (xp / 100) + 1) ^ 2 * 100 : ℕ) : ℝ) := by
      exact_mod_cast (by omega : xp < (Nat.sqrt (xp / 100) + 1) ^ 2 * 100)
    push_cast at this
    exact this

/-- C3. For every natural xp, `calculateLevel xp` is `max 1 (floor (sqrt (xp / 100)))` over
the reals, and it is `max 1 L` for the unique natural `L` with
`100 * L ^ 2 ≤ xp < 100 * (L + 1) ^ 2`. -/
theorem calculateLevel_spec (xp : Nat) :
    calculateLevel xp = max 1 ⌊Real.sqrt ((xp : ℝ) / 100)⌋₊ ∧
    ∃ L : Nat, (100 * L ^ 2 ≤ xp ∧ xp < 100 * (L + 1) ^ 2) ∧
      (∀ M : Nat, 100 * M ^ 2 ≤ xp ∧ xp < 100 * (M + 1) ^ 2 → M = L) ∧
      calculateLevel xp = max 1 L :=
  ⟨calculateLevel_eq_floor_sqrt xp, Nat.sqrt (xp / 100), sqrt_div_hundred_bounds xp,
    fun M hM => level_bounds_unique xp _ M (sqrt_div_hundred_bounds xp) hM, rfl⟩

theorem sqrt_xpForLevel (L : Nat) : Nat.sqrt (xpForLevel L / 100) = L := by
  unfold xpForLevel
  rw [Nat.mul_div_cancel _ (by norm_num : 0 < 100)]
  exact Nat.sqrt_eq L

theorem calculateLevel_xpForLevel_eq (L : Nat) (hL : 1 ≤ L) :
    calculateLevel (xpForLevel L) = L := by
  unfold calculateLevel
  rw [sqrt_xpForLevel]
  exact max_eq_right hL

/-- C4. For every level `L ≥ 1`, `calculateLevel (xpForLevel L) = L`, where
`xpForLevel L = L * L * 100`. -/
theorem calculateLevel_xpForLevel (L : Nat) (hL : 1 ≤ L) :
    calculateLevel (xpForLevel L) = L ∧ xpForLevel L = L * L * 100 :=
  ⟨calculateLevel_xpForLevel_eq L hL, rfl⟩

theorem calculateLevel_xpForLevel_witness :
    calculateLevel (xpForLevel 3) = 3 ∧ xpForLevel 3 = 3 * 3 * 100 :=
  calculateLevel_xpForLevel 3 (by decide)

theorem calculateLevel_zero : calculateLevel 0 = 1 := by
  simp [calculateLevel]

theorem xpForLevel_le_of_level (L xp : Nat) (hL : 2 ≤ L) (h : calculateLevel xp = L) :
    xpForLevel L ≤ xp := by
  unfold calculateLevel at h
  have hs : Nat.sqrt (xp / 100) = L := by
    rcases le_total 1 (Nat.sqrt (xp / 100)) with h1 | h1
    · rwa [max_eq_right h1] at h
    · rw [max_eq_left h1] at h
      omega
  have hb := (sqrt_div_hundred_bounds xp).1
  rw [hs] at hb
  unfold xpForLevel
  nlinarith [hb]

/-- C5 (as stated, refuted). Level 1 does not begin at `xpForLevel 1 = 100`: xp 0 already
has level 1. -/
theorem xpForLevel_one_not_first :
    ¬ (∀ L : Nat, 1 ≤ L → IsFirstXpOfLevel L (xpForLevel L)) := by
  intro h
  have h1 := (h 1 (le_refl 1)).2 0 calculateLevel_zero
  simp [xpForLevel] at h1

/-- C5 (amended). For every level `L ≥ 2`, `xpForLevel L = L * L * 100` is the smallest xp
for which `calculateLevel` returns `L`; level 1 begins at xp 0. -/
theorem xpForLevel_first (L : Nat) (hL : 1 ≤ L) :
    IsFirstXpOfLevel L (if L = 1 then 0 else xpForLevel L) := by
  by_cases h1 : L = 1
  · subst h1
    exact ⟨calculateLevel_zero, fun xp _ => Nat.zero_le xp⟩
  · rw [if_neg h1]
    exact ⟨calculateLevel_xpForLevel_eq L hL,
      fun xp hxp => xpForLevel_le_of_level L xp (by omega) hxp⟩

theorem xpForLevel_first_witness :
    IsFirstXpOfLevel 2 400 ∧ IsFirstXpOfLevel 3 900 ∧ IsFirstXpOfLevel 1 0 :=
  ⟨xpForLevel_first 2 (by decide), xpForLevel_first 3 (by decide),
    xpForLevel_first 1 (by decide)⟩

/-! ## Longest streak, idempotence, independence of the previous profile -/

/-- C6. `recalculateXP` never lowers `longestStreak` (read as `longestStreak || 0`, the way
the source reads it): the new value is the maximum of the previous value and the new
`streakDays`, so it is at least the new `streakDays` and at least the previous value. -/
theorem recalculateXP_longestStreak (s : AppState) :
    (ensureProfile (recalculateXP s)).longestStreak.getD 0
        = max ((ensureProfile s).longestStreak.getD 0)
            (ensureProfile (recalculateXP s)).streakDays ∧
    (ensureProfile (recalculateXP s)).streakDays
        ≤ (ensureProfile (recalculateXP s)).longestStreak.getD 0 ∧
    (ensureProfile s).longestStreak.getD 0
        ≤ (ensureProfile (recalculateXP s)).longestStreak.getD 0 := by
  rw [recalculateXP_profile]
  simp only []
  by_cases h : computeStreak s.weeks > (ensureProfile s).longestStreak.getD 0
  · rw [if_pos h]
    simp only [Option.getD_some]
    omega
  · rw [if_neg h]
    omega

/-- C7. `recalculateXP` is idempotent: a second run on unchanged weeks leaves the whole
state, and so the profile (xp, level, streakDays, longestStreak, unlockedThemes), as the
first run left it. -/
theorem recalculateXP_idempotent (s : AppState) :
    recalculateXP (recalculateXP s) = recalculateXP s ∧
    ensureProfile (recalculateXP (recalculateXP s)) = ensureProfile (recalculateXP s) := by
  have h : recalculateXP (recalculateXP s) = recalculateXP s := by
    unfold recalculateXP
    simp only [ensureProfile]
    by_cases h : computeStreak s.weeks > (ensureProfile s).longestStreak.getD 0
    · simp only [ensureProfile] at h
      simp [h]
    · simp only [ensureProfile] at h
      simp [h]
  exact ⟨h, by rw [h]⟩

theorem saveData_appData (a : App) :
    (saveData a).appData = recalculateXP { a.appData with currentWeek := a.currentWeekKey } ∧
    (saveData a).storage = some (saveData a).appData := by
  simp [saveData, saveAppData]

/-- C8. The xp and level written by `recalculateXP` depend only on `weeks`: two states with
equal weeks get equal xp and level.  So when a Pomodoro work session ends, the 25 bonus xp
that `pomodoroTick` adds is overwritten by the recompute inside `saveData`: the persisted
state is the in-memory one and its xp is the aggregate over tasks and trackers only. -/
theorem recalculateXP_xp_depends_on_weeks (s1 s2 : AppState) (a : App)
    (hw : s1.weeks = s2.weeks) (hs : a.pomodoroSeconds - 1 ≤ 0) (hwork : a.pomodoroIsWork = true) :
    (ensureProfile (recalculateXP s1)).xp = (ensureProfile (recalculateXP s2)).xp ∧
    (ensureProfile (recalculateXP s1)).level = (ensureProfile (recalculateXP s2)).level ∧
    (pomodoroTick a).storage = some (pomodoroTick a).appData ∧
    (ensureProfile (pomodoroTick a).appData).xp = specTotalXP a.appData.weeks ∧
    (ensureProfile (pomodoroTick a).appData).xp = (ensureProfile (recalculateXP a.appData)).xp := by
  refine ⟨?_, ?_, ?_, ?_, ?_⟩
  · rw [recalculateXP_profile, recalculateXP_profile, hw]
  · rw [recalculateXP_profile, recalculateXP_profile, hw]
  · simp [pomodoroTick, hs, hwork, saveData, saveAppData]
  · simp [pomodoroTick, hs, hwork, saveData, saveAppData, recalculateXP, ensureProfile,
      totalXP_eq_spec]
  · simp [pomodoroTick, hs, hwork, saveData, saveAppData, recalculateXP, ensureProfile]

theorem recalculateXP_xp_depends_on_weeks_witness :
    (ensureProfile (recalculateXP sampleStateXP)).xp
        = (ensureProfile (recalculateXP { sampleStateXP with profile := none })).xp ∧
    (ensureProfile (recalculateXP sampleStateXP)).level
        = (ensureProfile (recalculateXP { sampleStateXP with profile := none })).level ∧
    (pomodoroTick sampleAppWorkEnds).storage = some (pomodoroTick sampleAppWorkEnds).appData ∧
    (ensureProfile (pomodoroTick sampleAppWorkEnds).appData).xp
        = specTotalXP sampleAppWorkEnds.appData.weeks ∧
    (ensureProfile (pomodoroTick sampleAppWorkEnds).appData).xp
        = (ensureProfile (recalculateXP sampleAppWorkEnds.appData)).xp :=
  recalculateXP_xp_depends_on_weeks sampleStateXP { sampleStateXP with profile := none }
    sampleAppWorkEnds rfl (by decide) rfl

/-! ## Streak -/

theorem unitsLt_asymm (x y : List Nat) (h : unitsLt x y = true) : unitsLt y x = false := by
  induction x generalizing y with
  | nil => cases y <;> simp [unitsLt] at h ⊢
  | cons a as ih =>
    cases y with
    | nil => simp [unitsLt] at h
    | cons b bs =>
      simp only [unitsLt] at h ⊢
      by_cases h1 : a < b
      · have h2 : ¬ b < a := by omega
        simp [h2, h1]
      · by_cases h2 : b < a
        · simp [h1, h2] at h
        · simp only [h1, h2, if_false] at h ⊢
          exact ih bs h

theorem unitsLe_trans (x y z : List Nat) (h1 : unitsLt y x = false) (h2 : unitsLt z y = false) :
    unitsLt z x = false := by
  induction x generalizing y z with
  | nil => cases z <;> simp [unitsLt]
  | cons a as ih =>
    cases y with
    | nil => simp [unitsLt] at h1
    | cons b bs =>
      cases z with
      | nil => simp [unitsLt] at h2
      | cons c cs =>
        simp only [unitsLt] at h1 h2 ⊢
        by_cases hba : b < a
        · simp [hba] at h1
        · by_cases hcb : c < b
          · simp [hcb] at h2
          · by_cases hac : a < c
            · have hca : ¬ c < a := by omega
              simp [hca, hac]
            · have hab : ¬ a < b := by omega
              have hbc : ¬ b < c := by omega
              have hca : ¬ c < a := by omega
              simp only [hba, hab, if_false] at h1
              simp only [hcb, hbc, if_false] at h2
              simp only [hca, hac, if_false]
              exact ih bs cs h1 h2

theorem jsStrLe_total (a b : String) : jsStrLe a b ∨ jsStrLe b a := by
  unfold jsStrLe jsStrLt
  cases h : unitsLt (codeUnits b) (codeUnits a) with
  | false => exact Or.inl rfl
  | true => exact Or.inr (unitsLt_asymm _ _ h)

theorem jsStrLe_trans (a b c : String) (h1 : jsStrLe a b) (h2 : jsStrLe b c) : jsStrLe a c := by
  unfold jsStrLe jsStrLt at *
  exact unitsLe_trans _ _ _ h1 h2

theorem sortedKeys_sorted (weeks : Weeks) : (sortedKeys weeks).Sorted jsStrLe := by
  haveI : IsTotal String jsStrLe := ⟨jsStrLe_total⟩
  haveI : IsTrans String jsStrLe := ⟨jsStrLe_trans⟩
  exact List.sorted_insertionSort jsStrLe weeks.keys

theorem sortedKeys_perm (weeks : Weeks) : (sortedKeys weeks).Perm weeks.keys :=
  List.perm_insertionSort jsStrLe weeks.keys

theorem foldl_checkStatusStep (ds : List DayStatus) (b : Bool) :
    ds.foldl checkStatusStep b = true ↔ b = true ∨ some "check" ∈ ds := by
  induction ds generalizing b with
  | nil => simp
  | cons d ds ih =>
    rw [List.foldl_cons, ih]
    unfold checkStatusStep
    by_cases h : d = some "check"
    · simp [h]
    · have h2 : ¬ some "check" = d := fun e => h e.symm
      simp [h, h2]

theorem foldl_checkTaskStep (ts : List Task) (b : Bool) :
    ts.foldl checkTaskStep b = true
      ↔ b = true ∨ ∃ task ∈ ts, some "check" ∈ task.days.getD [] := by
  induction ts generalizing b with
  | nil => simp
  | cons a ts ih =>
    rw [List.foldl_cons, ih]
    unfold checkTaskStep
    cases h : a.days with
    | none => simp [h]
    | some ds => simp [h, foldl_checkStatusStep, or_assoc]

theorem weekHasCheck_iff (w : Option WeekRecord) : weekHasCheck w = true ↔ WeekCounts w := by
  unfold WeekCounts
  cases w with
  | none => simp [weekHasCheck]
  | some r =>
    obtain ⟨tasks, trackers, weekOf⟩ := r
    cases tasks with
    | none => simp [weekHasCheck]
    | some ts => simp [weekHasCheck, foldl_checkTaskStep]

theorem streakLoop_acc (weeks : Weeks) (ks : List String) (i acc : Nat) :
    streakLoop weeks ks i acc = acc + streakLoop weeks ks i 0 := by
  induction i generalizing acc with
  | zero => simp [streakLoop]
  | succ i ih =>
    unfold streakLoop
    by_cases h : weekHasCheck (weekAt weeks ks i) = true
    · rw [if_pos h, if_pos h, ih (acc + 1), ih (0 + 1)]
      omega
    · rw [if_neg h, if_neg h]
      rfl

theorem streakLoop_succ (weeks : Weeks) (ks : List String) (i : Nat) :
    streakLoop weeks ks (i + 1) 0
      = if weekHasCheck (weekAt weeks ks i) then streakLoop weeks ks i 0 + 1 else 0 := by
  conv_lhs => unfold streakLoop
  by_cases h : weekHasCheck (weekAt weeks ks i) = true
  · rw [if_pos h, if_pos h, streakLoop_acc]
    omega
  · rw [if_neg h, if_neg h]

theorem streakLoop_run (weeks : Weeks) (ks : List String) (i : Nat) :
    streakLoop weeks ks i 0 ≤ i ∧
    (∀ j, j < streakLoop weeks ks i 0 → weekHasCheck (weekAt weeks ks (i - 1 - j)) = true) ∧
    (streakLoop weeks ks i 0 < i →
      weekHasCheck (weekAt weeks ks (i - 1 - streakLoop weeks ks i 0)) = false) := by
  induction i with
  | zero => simp [streakLoop]
  | succ i ih =>
    obtain ⟨ih1, ih2, ih3⟩ := ih
    rw [streakLoop_succ]
    by_cases h : weekHasCheck (weekAt weeks ks i) = true
    · rw [if_pos h]
      refine ⟨by omega, ?_, ?_⟩
      · intro j hj
        cases j with
        | zero => simpa using h
        | succ j =>
          have := ih2 j (by omega)
          have e : i + 1 - 1 - (j + 1) = i - 1 - j := by omega
          rw [e]
          exact this
      · intro hlt
        have := ih3 (by omega)
        have e : i + 1 - 1 - (streakLoop weeks ks i 0 + 1) = i - 1 - streakLoop weeks ks i 0 := by
          omega
        rw [e]
        exact this
    · rw [if_neg h]
      refine ⟨by omega, ?_, ?_⟩
      · intro j hj
        omega
      · intro _
        simpa using h

/-- C2. After `recalculateXP`, `streakDays` is the length of the longest run of consecutive
weeks, in ascending key order and ending at the most recent key, in which every week has a
task-day with status `check`; it is 0 when the most recent week has none, and it is the
number of weeks when all have one.  For four weeks with a check each it is 4; a later
fifth week without a check makes it 0. -/
theorem recalculateXP_streak (s : AppState) :
    (sortedKeys s.weeks).Sorted jsStrLe ∧ (sortedKeys s.weeks).Perm s.weeks.keys ∧
    (ensureProfile (recalculateXP s)).streakDays ≤ (sortedKeys s.weeks).length ∧
    (∀ j, j < (ensureProfile (recalculateXP s)).streakDays →
      WeekCounts (weekAt s.weeks (sortedKeys s.weeks) ((sortedKeys s.weeks).length - 1 - j))) ∧
    ((ensureProfile (recalculateXP s)).streakDays < (sortedKeys s.weeks).length →
      ¬ WeekCounts (weekAt s.weeks (sortedKeys s.weeks)
        ((sortedKeys s.weeks).length - 1 - (ensureProfile (recalculateXP s)).streakDays))) ∧
    (∀ m, m ≤ (sortedKeys s.weeks).length →
      (∀ j, j < m →
        WeekCounts (weekAt s.weeks (sortedKeys s.weeks) ((sortedKeys s.weeks).length - 1 - j))) →
      m ≤ (ensureProfile (recalculateXP s)).streakDays) ∧
    (¬ WeekCounts (weekAt s.weeks (sortedKeys s.weeks) ((sortedKeys s.weeks).length - 1)) →
      (ensureProfile (recalculateXP s)).streakDays = 0) ∧
    ((∀ i, i < (sortedKeys s.weeks).length → WeekCounts (weekAt s.weeks (sortedKeys s.weeks) i)) →
      (ensureProfile (recalculateXP s)).streakDays = (sortedKeys s.weeks).length) ∧
    (ensureProfile (recalculateXP sampleStateW4)).streakDays = 4 ∧
    (ensureProfile (recalculateXP sampleStateW5)).streakDays = 0 := by
  have hn : (ensureProfile (recalculateXP s)).streakDays
      = streakLoop s.weeks (sortedKeys s.weeks) (sortedKeys s.weeks).length 0 := by
    rw [recalculateXP_profile]
    rfl
  obtain ⟨h1, h2, h3⟩ := streakLoop_run s.weeks (sortedKeys s.weeks) (sortedKeys s.weeks).length
  rw [hn]
  have hmax : ∀ m, m ≤ (sortedKeys s.weeks).length →
      (∀ j, j < m →
        WeekCounts (weekAt s.weeks (sortedKeys s.weeks) ((sortedKeys s.weeks).length - 1 - j))) →
      m ≤ streakLoop s.weeks (sortedKeys s.weeks) (sortedKeys s.weeks).length 0 := by
    intro m hm hall
    by_contra hlt
    have hc := hall _ (Nat.lt_of_not_le hlt)
    have hf := h3 (by omega)
    rw [← weekHasCheck_iff, hf] at hc
    exact Bool.false_ne_true hc
  refine ⟨sortedKeys_sorted s.weeks, sortedKeys_perm s.weeks, h1, ?_, ?_, hmax, ?_, ?_, ?_, ?_⟩
  · intro j hj
    exact (weekHasCheck_iff _).1 (h2 j hj)
  · intro hlt hc
    rw [← weekHasCheck_iff, h3 hlt] at hc
    exact Bool.false_ne_true hc
  · intro hc
    by_contra hne
    exact hc ((weekHasCheck_iff _).1 (h2 0 (Nat.pos_of_ne_zero hne)))
  · intro hall
    refine Nat.le_antisymm h1 (hmax _ (le_refl _) ?_)
    intro j hj
    exact hall _ (by omega)
  · decide
  · decide

/-! ## Week keys -/

namespace JsDate

theorem dayFromYear_bounds (y : Int) :
    146097 * (y - 1970) - 506 ≤ 400 * DayFromYear y ∧
    400 * DayFromYear y ≤ 146097 * (y - 1970) + 589 := by
  unfold DayFromYear
  omega

theorem dayFromYear_succ (y : Int) : DayFromYear (y + 1) = DayFromYear y + DaysInYear y := by
  unfold DayFromYear DaysInYear
  split_ifs <;> omega

theorem yearFromDay_spec (d : Int) :
    DayFromYear (yearFromDay d) ≤ d ∧ d < DayFromYear (yearFromDay d + 1) := by
  have hb0 := dayFromYear_bounds (1970 + 400 * d / 146097 - 1)
  have hb2 := dayFromYear_bounds (1970 + 400 * d / 146097 + 1 + 1)
  have e : 1970 + 400 * d / 146097 - 1 + 1 = 1970 + 400 * d / 146097 := by omega
  unfold yearFromDay
  split_ifs with h1 h2
  · exact ⟨h1, by omega⟩
  · rw [e]
    exact ⟨by omega, h2⟩
  · exact ⟨by omega, by omega⟩

theorem monthOfDay_range (d leap : Int) : 0 ≤ monthOfDay d leap ∧ monthOfDay d leap ≤ 11 := by
  unfold monthOfDay
  by_cases h1 : d < 31
  · rw [if_pos h1]; omega
  rw [if_neg h1]
  by_cases h2 : d < 59 + leap
  · rw [if_pos h2]; omega
  rw [if_neg h2]
  by_cases h3 : d < 90 + leap
  · rw [if_pos h3]; omega
  rw [if_neg h3]
  by_cases h4 : d < 120 + leap
  · rw [if_pos h4]; omega
  rw [if_neg h4]
  by_cases h5 : d < 151 + leap
  · rw [if_pos h5]; omega
  rw [if_neg h5]
  by_cases h6 : d < 181 + leap
  · rw [if_pos h6]; omega
  rw [if_neg h6]
  by_cases h7 : d < 212 + leap
  · rw [if_pos h7]; omega
  rw [if_neg h7]
  by_cases h8 : d < 243 + leap
  · rw [if_pos h8]; omega
  rw [if_neg h8]
  by_cases h9 : d < 273 + leap
  · rw [if_pos h9]; omega
  rw [if_neg h9]
  by_cases h10 : d < 304 + leap
  · rw [if_pos h10]; omega
  rw [if_neg h10]
  by_cases h11 : d < 334 + leap
  · rw [if_pos h11]; omega
  rw [if_neg h11]
  omega

theorem makeDay_of_time (t dt : Int) :
    MakeDay (YearFromTime t) (MonthFromTime t) dt = Day t - DateFromTime t + dt := by
  obtain ⟨h0, h11⟩ := monthOfDay_range (DayWithinYear t) (InLeapYear t)
  have hd : MonthFromTime t / 12 = 0 := by unfold MonthFromTime; omega
  have hm : MonthFromTime t % 12 = MonthFromTime t := by unfold MonthFromTime; omega
  unfold MakeDay DateFromTime DayWithinYear InLeapYear
  simp only [hd, hm, add_zero]
  omega

theorem day_makeDate (day time : Int) (h0 : 0 ≤ time) (h1 : time < msPerDay) :
    Day (MakeDate day time) = day := by
  unfold Day MakeDate msPerDay at *
  omega

theorem isoDatePart_of_day (t u : Int) (h : Day t = Day u) : isoDatePart t = isoDatePart u := by
  unfold isoDatePart DateFromTime MonthFromTime InLeapYear DayWithinYear YearFromTime
  rw [h]

theorem setDate_eq (tza t dt : Int) :
    setDate tza t dt
      = TimeClip (MakeDate (Day (t + tza) - DateFromTime (t + tza) + dt)
          (TimeWithinDay (t + tza)) - tza) := by
  unfold setDate LocalTime UTC
  simp only []
  rw [makeDay_of_time]

end JsDate

theorem mondayOfWeek_spec (day : Int) :
    JsDate.WeekDay (JsDate.MakeDate (mondayOfWeek day) 0) = 1 ∧
    mondayOfWeek day ≤ day ∧ day ≤ mondayOfWeek day + 6 := by
  unfold JsDate.WeekDay JsDate.Day JsDate.MakeDate JsDate.msPerDay mondayOfWeek
  omega

theorem getWeekKey_eq (tza t : Int) :
    getWeekKey tza (some t)
      = (JsDate.TimeClip (JsDate.MakeDate (mondayOfWeek (JsDate.Day (t + tza)))
          (JsDate.TimeWithinDay (t + tza)) - tza)).map JsDate.isoDatePart := by
  have hd : JsDate.Day (t + tza) - JsDate.DateFromTime (t + tza)
      + (JsDate.DateFromTime (t + tza) - JsDate.WeekDay (t + tza)
          + (if JsDate.WeekDay (t + tza) = 0 then -6 else 1))
      = mondayOfWeek (JsDate.Day (t + tza)) := by
    unfold mondayOfWeek JsDate.WeekDay
    split_ifs <;> omega
  unfold getWeekKey
  simp only [JsDate.setDate_eq, JsDate.getDay, JsDate.getDate, JsDate.LocalTime, hd]
  cases JsDate.TimeClip (JsDate.MakeDate (mondayOfWeek (JsDate.Day (t + tza)))
    (JsDate.TimeWithinDay (t + tza)) - tza) <;> rfl

theorem getWeekKey_zone (tza t : Int)
    (h : (JsDate.MakeDate (mondayOfWeek (JsDate.Day (t + tza)))
      (JsDate.TimeWithinDay (t + tza)) - tza).natAbs ≤ 8640000000000000) :
    getWeekKey tza (some t)
      = some (JsDate.isoDatePart (JsDate.MakeDate (mondayOfWeek (JsDate.Day (t + tza))
          + (JsDate.TimeWithinDay (t + tza) - tza) / JsDate.msPerDay) 0)) := by
  rw [getWeekKey_eq]
  unfold JsDate.TimeClip
  rw [if_pos h, Option.map_some']
  congr 1
  apply JsDate.isoDatePart_of_day
  rw [JsDate.day_makeDate _ 0 (by decide) (by decide)]
  unfold JsDate.MakeDate JsDate.TimeWithinDay JsDate.Day JsDate.msPerDay
  omega

theorem getWeekKey_utc (t : Int) (h : t.natAbs + 7 * 86400000 ≤ 8640000000000000) :
    getWeekKey 0 (some t)
      = some (JsDate.isoDatePart (JsDate.MakeDate (mondayOfWeek (JsDate.Day t)) 0)) := by
  have hm := mondayOfWeek_spec (JsDate.Day t)
  rw [getWeekKey_zone]
  · congr 3
    unfold JsDate.TimeWithinDay JsDate.msPerDay
    simp only [add_zero, sub_zero]
    omega
  · simp only [add_zero, sub_zero]
    unfold JsDate.MakeDate JsDate.TimeWithinDay JsDate.Day JsDate.msPerDay at *
    omega

/-- C9 (the code at inputs where it departs from the claim). In a zone east of UTC the key
of local midnight of Wednesday 2024-06-12, and of Friday 2024-06-14, is `2024-06-09`, a
Sunday; in a zone west of UTC the key of 2024-06-12 21:00 local time is `2024-06-11`, a
Tuesday.  In UTC both dates get `2024-06-10`, the Monday. -/
theorem getWeekKey_outside_utc :
    getWeekKey tzaTokyo (JsDate.localMidnight tzaTokyo "2024-06-12") = some "2024-06-09" ∧
    getWeekKey tzaTokyo (JsDate.localMidnight tzaTokyo "2024-06-14") = some "2024-06-09" ∧
    (JsDate.localMidnight 0 "2024-06-09").map JsDate.WeekDay = some 0 ∧
    getWeekKey tzaNewYork
      ((JsDate.localMidnight tzaNewYork "2024-06-12").map (fun t => t + 21 * 3600000))
      = some "2024-06-11" ∧
    getWeekKey 0 (JsDate.localMidnight 0 "2024-06-12") = some "2024-06-10" ∧
    getWeekKey 0 (JsDate.localMidnight 0 "2024-06-14") = some "2024-06-10" := by
  decide

/-- C10 (the code at inputs where it departs from the claim). In a zone east of UTC,
`shiftWeek` of the Monday key `2024-06-10` by 0 weeks is `2024-06-09`, by one week
`2024-06-16`, and a second step forward from `2024-06-09` returns `2024-06-09` again.
In UTC the key moves by whole weeks. -/
theorem shiftWeek_outside_utc :
    shiftWeek tzaTokyo "2024-06-10" 0 = some "2024-06-09" ∧
    shiftWeek tzaTokyo "2024-06-10" 1 = some "2024-06-16" ∧
    shiftWeek tzaTokyo "2024-06-09" 1 = some "2024-06-09" ∧
    shiftWeek 0 "2024-06-10" 0 = some "2024-06-10" ∧
    shiftWeek 0 "2024-06-10" 1 = some "2024-06-17" ∧
    shiftWeek 0 "2024-06-10" (-1) = some "2024-06-03" := by
  decide


/-! ## Loading and migration -/

/-- C13. Migration: when the current-schema blob is absent and the legacy blob is a record
whose `trackers.sleep` is a bare number, `loadAppData` returns (and stores) a state whose
`weeks` has exactly one entry, keyed by `getWeekKey(now)`, which is also `currentWeek`,
holding the legacy record with `trackers.sleep` replaced by seven default sleep entries
(empty wake, bed and hours, meridiems AM and PM), and whose profile is xp 0, level 1,
streakDays 0, longestStreak 0, no unlocked themes. -/
theorem loadAppData_migrates (tza : Int) (now : Option Int) (ls : LocalStorage)
    (old : WeekRecord) (tr : Trackers) (json k : String)
    (h5 : ls.habitJournalDataV5 = .absent) (h4 : ls.habitJournalDataV4 = .object old)
    (ht : old.trackers = some tr) (hs : tr.sleep = .other json)
    (hk : getWeekKey tza now = some k) :
    ∃ s ls', loadAppData tza now ls = .ok (s, ls') ∧
      s.weeks.entries = [(k, some { old with
        trackers := some { tr with
          sleep := .arr (List.replicate 7 (some
            { wake := "", wakeAmPm := some "AM", bed := "", bedAmPm := some "PM",
              hours := some "" })) } })] ∧
      s.currentWeek = k ∧
      s.profile = some
        { xp := 0, level := 1, streakDays := 0, longestStreak := some 0, unlockedThemes := [] } ∧
      ls'.habitJournalDataV5 = .object s ∧ ls'.habitJournalDataV4 = ls.habitJournalDataV4 := by
  refine ⟨singleWeekState k { old with trackers := some (migrateSleep tr) },
    { ls with habitJournalDataV5 :=
        .object (singleWeekState k { old with trackers := some (migrateSleep tr) }) }, ?_, ?_, rfl,
    rfl, rfl, rfl⟩
  · unfold loadAppData
    simp only [h5, h4, hk, ht]
  · simp [singleWeekState, migrateSleep, hs, defaultSleep, defaultSleepEntry, DAYS]

theorem loadAppData_migrates_witness :
    ∃ s ls', loadAppData 0 sampleNow ⟨.absent, .object sampleLegacyWeek⟩ = .ok (s, ls') ∧
      s.weeks.entries = [("2024-06-10", some { sampleLegacyWeek with
        trackers := some { sampleLegacyTrackers with
          sleep := .arr (List.replicate 7 (some
            { wake := "", wakeAmPm := some "AM", bed := "", bedAmPm := some "PM",
              hours := some "" })) } })] ∧
      s.currentWeek = "2024-06-10" ∧
      s.profile = some
        { xp := 0, level := 1, streakDays := 0, longestStreak := some 0, unlockedThemes := [] } ∧
      ls'.habitJournalDataV5 = .object s ∧
      ls'.habitJournalDataV4 = .object sampleLegacyWeek :=
  loadAppData_migrates 0 sampleNow ⟨.absent, .object sampleLegacyWeek⟩ sampleLegacyWeek
    sampleLegacyTrackers "7.5" "2024-06-10" rfl rfl rfl rfl (by decide)

/-- C14 (as stated, refuted). With no current-schema blob and a legacy blob that is not
JSON, `loadAppData` returns no state. -/
theorem loadAppData_malformed_no_state :
    ¬ ∃ r, loadAppData 0 sampleNow ⟨.absent, .invalid "not json"⟩ = .ok r := by
  rintro ⟨r, hr⟩
  simp [loadAppData] at hr

/-- C14 (amended). With no current-schema blob: a legacy blob that is not valid JSON makes
`loadAppData` fail with the `SyntaxError` of `JSON.parse`; an absent legacy blob, or one
holding a falsy JSON value, gives the fresh-start state (default profile and one freshly
created empty week at the current week key), which is also stored. -/
theorem loadAppData_legacy_cases (tza : Int) (now : Option Int) (ls : LocalStorage)
    (h5 : ls.habitJournalDataV5 = .absent) :
    (∀ text, ls.habitJournalDataV4 = .invalid text →
      loadAppData tza now ls = .error .syntaxError) ∧
    (∀ k, (ls.habitJournalDataV4 = .absent ∨ ∃ text, ls.habitJournalDataV4 = .falsy text) →
      getWeekKey tza now = some k →
      ∃ s ls', loadAppData tza now ls = .ok (s, ls') ∧
        s.weeks.entries = [(k, some createEmptyWeek)] ∧ s.currentWeek = k ∧
        s.profile = some defaultProfile ∧ ls'.habitJournalDataV5 = .object s) := by
  constructor
  · intro text h4
    unfold loadAppData
    simp only [h5, h4]
  · intro k h4 hk
    refine ⟨singleWeekState k createEmptyWeek,
      { ls with habitJournalDataV5 := .object (singleWeekState k createEmptyWeek) }, ?_, rfl, rfl,
      rfl, rfl⟩
    unfold loadAppData
    rcases h4 with h4 | ⟨text, h4⟩ <;> simp only [h5, h4, hk]

theorem loadAppData_legacy_cases_witness :
    loadAppData 0 sampleNow ⟨.absent, .invalid "not json"⟩ = .error .syntaxError ∧
    ∃ s ls', loadAppData 0 sampleNow ⟨.absent, .absent⟩ = .ok (s, ls') ∧
      s.weeks.entries = [("2024-06-10", some createEmptyWeek)] ∧ s.currentWeek = "2024-06-10" ∧
      s.profile = some defaultProfile ∧ ls'.habitJournalDataV5 = .object s :=
  ⟨(loadAppData_legacy_cases 0 sampleNow ⟨.absent, .invalid "not json"⟩ rfl).1 "not json" rfl,
    (loadAppData_legacy_cases 0 sampleNow ⟨.absent, .absent⟩ rfl).2 "2024-06-10" (Or.inl rfl)
      (by decide)⟩


/-! ## Normalisation in the render functions -/

theorem sleepLoop_defaultSleep :
    (List.range DAYS).foldl sleepLoopStep defaultSleep = defaultSleep := by
  decide

/-- C15 (as stated, refuted). A sleep array of length other than 7 is not replaced: the
normalisation step leaves an array of one entry, and one of nine entries, as it is; after
the whole data pass of `renderSleep` the logged entry is still first and the nine entries
are still nine. -/
theorem normalizeSleep_keeps_arrays :
    ¬ (∀ tr : Trackers, (¬ ∃ xs, tr.sleep = .arr xs ∧ xs.length = 7) →
        (normalizeSleep tr).sleep = .arr (List.replicate 7 (some defaultSleepEntry))) ∧
    (normalizeSleep sampleTrackersShort).sleep = .arr [some sampleSleepEntry] ∧
    (normalizeSleep sampleTrackersLong).sleep = .arr (List.replicate 9 (some sampleSleepEntry)) ∧
    renderSleepData { sampleWeekNoTasks with trackers := some sampleTrackersShort }
      = .ok { sampleWeekNoTasks with trackers := some { sampleTrackersShort with
          sleep := .arr (some sampleSleepEntry :: List.replicate 6 (some defaultSleepEntry)) } } ∧
    renderSleepData { sampleWeekNoTasks with trackers := some sampleTrackersLong }
      = .ok { sampleWeekNoTasks with trackers := some sampleTrackersLong } := by
  refine ⟨fun h => ?_, by decide, by decide, rfl, rfl⟩
  have h1 := h sampleTrackersShort (by
    rintro ⟨xs, hxs, hlen⟩
    have hx : xs = [some sampleSleepEntry] := by
      simpa [sampleTrackersShort] using hxs.symm
    rw [hx] at hlen
    simp at hlen)
  revert h1
  decide

/-- C15 (amended). When `trackers.sleep` is not an array (a scalar such as a legacy number,
or missing), after the normalisation step at the start of `renderSleep`, and after its whole
data pass, `trackers.sleep` is exactly seven default entries (empty wake, bed and hours,
meridiems AM and PM) and the other trackers are untouched; when it is an array, of any
length, the normalisation step leaves the trackers as they are. -/
theorem normalizeSleep_spec (w : WeekRecord) (tr : Trackers) (htr : w.trackers = some tr) :
    ((∀ xs, tr.sleep ≠ .arr xs) →
      normalizeSleep tr = { tr with sleep := .arr (List.replicate 7 (some
        { wake := "", wakeAmPm := some "AM", bed := "", bedAmPm := some "PM",
          hours := some "" })) } ∧
      renderSleepData w = .ok { w with trackers := some { tr with
        sleep := .arr (List.replicate 7 (some
          { wake := "", wakeAmPm := some "AM", bed := "", bedAmPm := some "PM",
            hours := some "" })) } }) ∧
    (∀ xs, tr.sleep = .arr xs → normalizeSleep tr = tr) := by
  constructor
  · intro hna
    have hn : normalizeSleep tr = { tr with sleep := .arr defaultSleep } := by
      unfold normalizeSleep
      cases hs : tr.sleep with
      | arr xs => exact absurd hs (hna xs)
      | missing => rfl
      | other j => rfl
    refine ⟨hn, ?_⟩
    unfold renderSleepData
    simp only [htr, hn, sleepLoop_defaultSleep]
    rfl
  · intro xs hs
    unfold normalizeSleep
    rw [hs]

theorem normalizeSleep_spec_witness :
    ((∀ xs, sampleLegacyTrackers.sleep ≠ .arr xs) →
      normalizeSleep sampleLegacyTrackers = { sampleLegacyTrackers with
        sleep := .arr (List.replicate 7 (some
          { wake := "", wakeAmPm := some "AM", bed := "", bedAmPm := some "PM",
            hours := some "" })) } ∧
      renderSleepData sampleLegacyWeek = .ok { sampleLegacyWeek with
        trackers := some { sampleLegacyTrackers with
          sleep := .arr (List.replicate 7 (some
            { wake := "", wakeAmPm := some "AM", bed := "", bedAmPm := some "PM",
              hours := some "" })) } }) ∧
    (∀ xs, sampleLegacyTrackers.sleep = .arr xs →
      normalizeSleep sampleLegacyTrackers = sampleLegacyTrackers) :=
  normalizeSleep_spec sampleLegacyWeek sampleLegacyTrackers rfl

/-- C16 (as stated, refuted). A water array of length other than 7 is not replaced: the
normalisation step of `renderWater` leaves an array of two values, and one of nine, as it
is. -/
theorem normalizeWater_keeps_arrays :
    ¬ (∀ tr : Trackers, (¬ ∃ xs, tr.water = .arr xs ∧ xs.length = 7) →
        (normalizeWater tr).water = .arr (List.replicate 7 false)) ∧
    (normalizeWater sampleTrackersShort).water = .arr [true, false] ∧
    (normalizeWater sampleTrackersLong).water = .arr (List.replicate 9 true) := by
  refine ⟨fun h => ?_, by decide, by decide⟩
  have h1 := h sampleTrackersShort (by
    rintro ⟨xs, hxs, hlen⟩
    have hx : xs = [true, false] := by
      simpa [sampleTrackersShort] using hxs.symm
    rw [hx] at hlen
    simp at hlen)
  revert h1
  decide

/-- C16 (amended). When `trackers.water` is not an array (missing, or not a sequence),
after the normalisation step at the start of `renderWater` it is the sequence of seven
`false` values and the other trackers are untouched; when it is an array, of any length,
the step leaves the trackers as they are. -/
theorem normalizeWater_spec (w : WeekRecord) (tr : Trackers) (htr : w.trackers = some tr) :
    ((∀ xs, tr.water ≠ .arr xs) →
      normalizeWater tr
        = { tr with water := .arr [false, false, false, false, false, false, false] } ∧
      renderWaterData w = .ok { w with trackers := some { tr with
        water := .arr [false, false, false, false, false, false, false] } }) ∧
    (∀ xs, tr.water = .arr xs → normalizeWater tr = tr ∧ renderWaterData w = .ok w) := by
  constructor
  · intro hna
    have hn : normalizeWater tr
        = { tr with water := .arr [false, false, false, false, false, false, false] } := by
      unfold normalizeWater
      cases hs : tr.water with
      | arr xs => exact absurd hs (hna xs)
      | missing => rfl
      | other j => rfl
    refine ⟨hn, ?_⟩
    unfold renderWaterData
    simp only [htr, hn]
  · intro xs hs
    have hn : normalizeWater tr = tr := by
      unfold normalizeWater
      rw [hs]
    refine ⟨hn, ?_⟩
    unfold renderWaterData
    simp only [htr, hn]
    rw [← htr]

theorem normalizeWater_spec_witness :
    ((∀ xs, ({ sampleLegacyTrackers with water := .missing } : Trackers).water ≠ .arr xs) →
      normalizeWater { sampleLegacyTrackers with water := .missing }
        = { sampleLegacyTrackers with
            water := .arr [false, false, false, false, false, false, false] } ∧
      renderWaterData
          { sampleLegacyWeek with trackers := some { sampleLegacyTrackers with water := .missing } }
        = .ok { sampleLegacyWeek with trackers := some { sampleLegacyTrackers with
            water := .arr [false, false, false, false, false, false, false] } }) ∧
    (∀ xs, ({ sampleLegacyTrackers with water := .missing } : Trackers).water = .arr xs →
      normalizeWater { sampleLegacyTrackers with water := .missing }
          = { sampleLegacyTrackers with water := .missing } ∧
        renderWaterData
            { sampleLegacyWeek with
              trackers := some { sampleLegacyTrackers with water := .missing } }
          = .ok { sampleLegacyWeek with
              trackers := some { sampleLegacyTrackers with water := .missing } }) :=
  normalizeWater_spec
    { sampleLegacyWeek with trackers := some { sampleLegacyTrackers with water := .missing } }
    { sampleLegacyTrackers with water := .missing } rfl

/-! ## Tasks -/

/-- C17 (the code where it departs from the claim). For a stored week record whose `tasks`
field is absent, `getCurrentWeekData` returns the record as it is and `renderTasks` throws a
`TypeError`; the state, and so the record, is left without tasks. -/
theorem renderTasks_missing_tasks (a : App) (r : WeekRecord)
    (hr : a.appData.weeks.get a.currentWeekKey = some r) (ht : r.tasks = none) :
    getCurrentWeekData a = (a, r) ∧ renderTasks a = (a, some .typeError) := by
  have hg : getCurrentWeekData a = (a, r) := by
    unfold getCurrentWeekData
    rw [hr]
  refine ⟨hg, ?_⟩
  unfold renderTasks
  rw [hg]
  simp only [ht]

theorem renderTasks_missing_tasks_witness :
    getCurrentWeekData sampleAppNoTasks = (sampleAppNoTasks, sampleWeekNoTasks) ∧
    renderTasks sampleAppNoTasks = (sampleAppNoTasks, some .typeError) :=
  renderTasks_missing_tasks sampleAppNoTasks sampleWeekNoTasks (by decide) rfl


theorem mem_setEntry (l : List (String × Option WeekRecord)) (key : String)
    (r : Option WeekRecord) (kv : String × Option WeekRecord) (h : kv ∈ setEntry l key r) :
    kv ∈ l ∨ kv = (key, r) := by
  induction l with
  | nil => exact Or.inr (by simpa [setEntry] using h)
  | cons a rest ih =>
    unfold setEntry at h
    by_cases hk : a.1 = key
    · rw [if_pos hk, List.mem_cons] at h
      rcases h with h | h
      · exact Or.inr (by rw [h, hk])
      · exact Or.inl (List.mem_cons_of_mem a h)
    · rw [if_neg hk, List.mem_cons] at h
      rcases h with h | h
      · exact Or.inl (by rw [h]; exact List.mem_cons_self a rest)
      · rcases ih h with h1 | h1
        · exact Or.inl (List.mem_cons_of_mem a h1)
        · exact Or.inr h1

theorem lookup_setEntry_self (l : List (String × Option WeekRecord)) (key : String)
    (r : Option WeekRecord) : (setEntry l key r).lookup key = some r := by
  induction l with
  | nil => simp [setEntry, List.lookup]
  | cons a rest ih =>
    unfold setEntry
    by_cases hk : a.1 = key
    · rw [if_pos hk]
      simp [List.lookup, hk]
    · rw [if_neg hk]
      have hb : (key == a.1) = false := by
        simpa using fun e : key = a.1 => hk e.symm
      obtain ⟨k, v⟩ := a
      simp only [List.lookup] at *
      rw [hb]
      exact ih

theorem lookup_setEntry_other (l : List (String × Option WeekRecord)) (key other : String)
    (r : Option WeekRecord) (hne : other ≠ key) :
    (setEntry l key r).lookup other = l.lookup other := by
  induction l with
  | nil =>
    have hb : (other == key) = false := by simpa using hne
    simp [setEntry, List.lookup, hb]
  | cons a rest ih =>
    obtain ⟨k, v⟩ := a
    unfold setEntry
    by_cases hk : k = key
    · have hb : (other == k) = false := by
        rw [hk]
        simpa using hne
      rw [if_pos hk]
      simp only [List.lookup, hb]
    · rw [if_neg hk]
      simp only [List.lookup]
      rw [ih]

theorem Weeks.get_set_self (w : Weeks) (key : String) (r : Option WeekRecord) :
    (w.set key r).get key = r := by
  unfold Weeks.get Weeks.set
  simp only [lookup_setEntry_self]

theorem Weeks.get_set_other (w : Weeks) (key other : String) (r : Option WeekRecord)
    (hne : other ≠ key) : (w.set key r).get other = w.get other := by
  unfold Weeks.get Weeks.set
  simp only [lookup_setEntry_other _ _ _ _ hne]

theorem mem_of_lookup (l : List (String × Option WeekRecord)) (key : String)
    (v : Option WeekRecord) (h : l.lookup key = some v) : (key, v) ∈ l := by
  induction l with
  | nil => simp [List.lookup] at h
  | cons a rest ih =>
    obtain ⟨k, x⟩ := a
    by_cases hk : key = k
    · have hb : (key == k) = true := by simpa using hk
      simp only [List.lookup, hb] at h
      have hx : x = v := by simpa using h
      rw [hk, hx]
      exact List.mem_cons_self _ _
    · have hb : (key == k) = false := by simpa using hk
      simp only [List.lookup, hb] at h
      exact List.mem_cons_of_mem _ (ih h)

theorem Weeks.mem_of_get (w : Weeks) (key : String) (r : WeekRecord)
    (h : w.get key = some r) : (key, some r) ∈ w.entries := by
  unfold Weeks.get at h
  cases hl : w.entries.lookup key with
  | none => rw [hl] at h; exact absurd h (by simp)
  | some v =>
    rw [hl] at h
    have hv : v = some r := h
    rw [← hv]
    exact mem_of_lookup _ _ _ hl

theorem toggleDay_slot (w : WeekRecord) (ts : List Task) (task : Task) (ds : List DayStatus)
    (i j : Nat) (s : DayStatus) (hi : ts[i]? = some task) (hj : j < ds.length) :
    toggleDay i j { w with tasks := some (ts.set i { task with days := some (ds.set j s) }) }
      = .ok { w with tasks := some (ts.set i
          { task with days := some (ds.set j (nextStatus (some s))) }) } := by
  have hil : i < ts.length := by
    rcases Nat.lt_or_ge i ts.length with h | h
    · exact h
    · rw [List.getElem?_eq_none h] at hi
      exact absurd hi (by simp)
  unfold toggleDay
  simp [hil, hj, jsAssign]

theorem nextStatus_cycle :
    nextStatus (some none) = some "check" ∧ nextStatus (some (some "check")) = some "x" ∧
    nextStatus (some (some "x")) = some "na" ∧ nextStatus (some (some "na")) = none := by
  decide

theorem nextStatus_four (s : DayStatus) (hs : s ∈ states) :
    nextStatus (some (nextStatus (some (nextStatus (some (nextStatus (some s))))))) = s := by
  simp only [states, List.mem_cons, List.mem_singleton, List.not_mem_nil, or_false] at hs
  rcases hs with h | h | h | h <;> subst h <;> decide


theorem set_of_getElem? {α : Type} (l : List α) (i : Nat) (x : α) (h : l[i]? = some x) :
    l.set i x = l := by
  induction l generalizing i with
  | nil => rfl
  | cons a l ih =>
    cases i with
    | zero =>
      have ha : a = x := by simpa using h
      rw [List.set_cons_zero, ha]
    | succ i =>
      rw [List.set_cons_succ, ih i (by simpa using h)]

theorem lt_length_of_getElem? {α : Type} (l : List α) (i : Nat) (x : α) (h : l[i]? = some x) :
    i < l.length := by
  rcases Nat.lt_or_ge i l.length with hlt | hge
  · exact hlt
  · rw [List.getElem?_eq_none hge] at h
    exact absurd h (by simp)

theorem toggle_record_eq (w : WeekRecord) (ts : List Task) (task : Task) (ds : List DayStatus)
    (i j : Nat) (s : DayStatus) (hts : w.tasks = some ts) (hi : ts[i]? = some task)
    (hds : task.days = some ds) (hj : ds[j]? = some s) :
    ({ w with tasks := some (ts.set i { task with days := some (ds.set j s) }) } : WeekRecord)
      = w := by
  have h1 : ({ task with days := some (ds.set j s) } : Task) = task := by
    rw [set_of_getElem? ds j s hj, ← hds]
  rw [h1, set_of_getElem? ts i task hi, ← hts]

theorem getCurrentWeekData_of_get (a : App) (w : WeekRecord)
    (hw : a.appData.weeks.get a.currentWeekKey = some w) : getCurrentWeekData a = (a, w) := by
  unfold getCurrentWeekData
  rw [hw]

theorem clickDay_slot (a : App) (w : WeekRecord) (ts : List Task) (task : Task)
    (ds : List DayStatus) (i j : Nat) (s : DayStatus)
    (hw : a.appData.weeks.get a.currentWeekKey
      = some { w with tasks := some (ts.set i { task with days := some (ds.set j s) }) })
    (hi : ts[i]? = some task) (hj : j < ds.length) :
    clickDay i j a
      = (saveData { a with appData := { a.appData with
          weeks := a.appData.weeks.set a.currentWeekKey (some { w with
            tasks := some (ts.set i
              { task with days := some (ds.set j (nextStatus (some s))) }) }) } }, none) := by
  unfold clickDay mutateWeek
  rw [getCurrentWeekData_of_get a _ hw]
  simp only [toggleDay_slot w ts task ds i j s hi hj]
  rfl

theorem saveData_weeks (a : App) :
    (saveData a).appData.weeks = a.appData.weeks ∧ (saveData a).currentWeekKey = a.currentWeekKey :=
  ⟨rfl, rfl⟩

/-- C18. The day-status toggle cycles none → check → cross (`x`) → not-applicable (`na`) →
none: one click on a slot whose status `s` is in that set replaces it by its successor and
changes no other slot of the record and no other week; four clicks on the same slot restore
the record. -/
theorem clickDay_cycle (a : App) (w : WeekRecord) (ts : List Task) (task : Task)
    (ds : List DayStatus) (i j : Nat) (s : DayStatus)
    (hw : a.appData.weeks.get a.currentWeekKey = some w) (hts : w.tasks = some ts)
    (hi : ts[i]? = some task) (hds : task.days = some ds) (hj : ds[j]? = some s)
    (hs : s ∈ states) :
    (nextStatus (some none) = some "check" ∧ nextStatus (some (some "check")) = some "x" ∧
      nextStatus (some (some "x")) = some "na" ∧ nextStatus (some (some "na")) = none) ∧
    toggleDay i j w = .ok { w with tasks := some (ts.set i
      { task with days := some (ds.set j (nextStatus (some s))) }) } ∧
    (clickDay i j a).2 = none ∧
    (clickDay i j a).1.appData.weeks.get a.currentWeekKey = some { w with
      tasks := some (ts.set i { task with days := some (ds.set j (nextStatus (some s))) }) } ∧
    (∀ k, k ≠ a.currentWeekKey →
      (clickDay i j a).1.appData.weeks.get k = a.appData.weeks.get k) ∧
    ((((clickDay i j a).andThen (clickDay i j)).andThen (clickDay i j)).andThen
      (clickDay i j)).2 = none ∧
    ((((clickDay i j a).andThen (clickDay i j)).andThen (clickDay i j)).andThen
      (clickDay i j)).1.appData.weeks.get a.currentWeekKey = some w ∧
    (∀ k, k ≠ a.currentWeekKey →
      ((((clickDay i j a).andThen (clickDay i j)).andThen (clickDay i j)).andThen
        (clickDay i j)).1.appData.weeks.get k = a.appData.weeks.get k) := by
  have hjl := lt_length_of_getElem? ds j s hj
  have hw0 := toggle_record_eq w ts task ds i j s hts hi hds hj
  have hw' : a.appData.weeks.get a.currentWeekKey
      = some { w with tasks := some (ts.set i { task with days := some (ds.set j s) }) } := by
    rw [hw0]; exact hw
  have ht := toggleDay_slot w ts task ds i j s hi hjl
  rw [hw0] at ht
  have c1 := clickDay_slot a w ts task ds i j s hw' hi hjl
  have c2 := clickDay_slot (clickDay i j a).1 w ts task ds i j (nextStatus (some s))
    (by rw [c1]; exact Weeks.get_set_self _ _ _) hi hjl
  have k1 : (clickDay i j a).1.currentWeekKey = a.currentWeekKey := by rw [c1]; rfl
  have c3 := clickDay_slot (clickDay i j (clickDay i j a).1).1 w ts task ds i j
    (nextStatus (some (nextStatus (some s))))
    (by rw [c2]; exact Weeks.get_set_self _ _ _) hi hjl
  have k2 : (clickDay i j (clickDay i j a).1).1.currentWeekKey = a.currentWeekKey := by
    rw [c2]; exact k1
  have c4 := clickDay_slot (clickDay i j (clickDay i j (clickDay i j a).1).1).1 w ts task ds i j
    (nextStatus (some (nextStatus (some (nextStatus (some s))))))
    (by rw [c3]; exact Weeks.get_set_self _ _ _) hi hjl
  have k3 : (clickDay i j (clickDay i j (clickDay i j a).1).1).1.currentWeekKey
      = a.currentWeekKey := by
    rw [c3]; exact k2
  have e1 : (clickDay i j a).2 = none := by rw [c1]
  have e2 : (clickDay i j (clickDay i j a).1).2 = none := by rw [c2]
  have e3 : (clickDay i j (clickDay i j (clickDay i j a).1).1).2 = none := by rw [c3]
  have hfour : (((clickDay i j a).andThen (clickDay i j)).andThen (clickDay i j)).andThen
      (clickDay i j)
      = clickDay i j (clickDay i j (clickDay i j (clickDay i j a).1).1).1 := by
    simp only [Outcome.andThen, e1, e2, e3]
  refine ⟨nextStatus_cycle, ht, e1, ?_, ?_, ?_, ?_, ?_⟩
  · rw [c1]; exact Weeks.get_set_self _ _ _
  · intro k hk
    rw [c1]
    exact Weeks.get_set_other _ _ _ _ hk
  · rw [hfour, c4]
  · rw [hfour, c4]
    show Weeks.get (Weeks.set _ (clickDay i j (clickDay i j (clickDay i j a).1).1).1.currentWeekKey
      _) a.currentWeekKey = some w
    rw [k3, Weeks.get_set_self, nextStatus_four s hs, hw0]
  · intro k hk
    rw [hfour, c4]
    show Weeks.get (Weeks.set _ (clickDay i j (clickDay i j (clickDay i j a).1).1).1.currentWeekKey
      _) k = _
    rw [k3, Weeks.get_set_other _ _ _ _ hk, c3]
    show Weeks.get (Weeks.set _ (clickDay i j (clickDay i j a).1).1.currentWeekKey _) k = _
    rw [k2, Weeks.get_set_other _ _ _ _ hk, c2]
    show Weeks.get (Weeks.set _ (clickDay i j a).1.currentWeekKey _) k = _
    rw [k1, Weeks.get_set_other _ _ _ _ hk, c1]
    exact Weeks.get_set_other _ _ _ _ hk


theorem clickDay_cycle_witness :
    toggleDay 0 0 sampleWeekTwoChecks
      = .ok { sampleWeekTwoChecks with
          tasks := some [{ text := "Read", days := some [some "x", some "check", none, none,
            none, none, none] }] } ∧
    ((((clickDay 0 0 sampleAppTasks).andThen (clickDay 0 0)).andThen (clickDay 0 0)).andThen
      (clickDay 0 0)).1.appData.weeks.get "2024-06-10" = some sampleWeekTwoChecks :=
  ⟨(clickDay_cycle sampleAppTasks sampleWeekTwoChecks
      [{ text := "Read", days := some [some "check", some "check", none, none, none, none,
        none] }]
      { text := "Read", days := some [some "check", some "check", none, none, none, none, none] }
      [some "check", some "check", none, none, none, none, none] 0 0 (some "check")
      (by decide) rfl rfl rfl rfl (by decide)).2.1,
    (clickDay_cycle sampleAppTasks sampleWeekTwoChecks
      [{ text := "Read", days := some [some "check", some "check", none, none, none, none,
        none] }]
      { text := "Read", days := some [some "check", some "check", none, none, none, none, none] }
      [some "check", some "check", none, none, none, none, none] 0 0 (some "check")
      (by decide) rfl rfl rfl rfl (by decide)).2.2.2.2.2.2.1⟩

/-! ## The seven-day invariant -/

theorem recordDays_createEmptyWeek : RecordDays createEmptyWeek := by
  intro ts hts task htask
  have h : ts = [{ text := "", days := some (List.replicate DAYS none) }] := by
    simpa [createEmptyWeek] using hts.symm
  rw [h] at htask
  rw [List.mem_singleton] at htask
  subst htask
  exact ⟨_, rfl, by simp [DAYS]⟩

theorem daysInvariant_set (w : Weeks) (key : String) (r : Option WeekRecord)
    (h : DaysInvariant w) (hr : ∀ rec, r = some rec → RecordDays rec) :
    DaysInvariant (w.set key r) := by
  intro kv hkv rec hrec
  rcases mem_setEntry w.entries key r kv hkv with h1 | h1
  · exact h kv h1 rec hrec
  · rw [h1] at hrec
    exact hr rec hrec

theorem daysInvariant_getCurrentWeekData (a : App) (h : DaysInvariant a.appData.weeks) :
    DaysInvariant (getCurrentWeekData a).1.appData.weeks ∧
    RecordDays (getCurrentWeekData a).2 ∧
    (getCurrentWeekData a).1.currentWeekKey = a.currentWeekKey := by
  unfold getCurrentWeekData
  cases hg : a.appData.weeks.get a.currentWeekKey with
  | some r =>
    exact ⟨h, h _ (Weeks.mem_of_get _ _ r hg) r rfl, rfl⟩
  | none =>
    refine ⟨daysInvariant_set _ _ _ h ?_, recordDays_createEmptyWeek, rfl⟩
    intro rec hrec
    have : createEmptyWeek = rec := by simpa using hrec
    rw [← this]
    exact recordDays_createEmptyWeek

theorem daysInvariant_mutateWeek (a : App) (f : WeekRecord → Except JsError WeekRecord)
    (hf : ∀ w w', RecordDays w → f w = .ok w' → RecordDays w')
    (h : DaysInvariant a.appData.weeks) : DaysInvariant (mutateWeek a f).1.appData.weeks := by
  obtain ⟨h1, h2, _⟩ := daysInvariant_getCurrentWeekData a h
  unfold mutateWeek
  cases hfr : f (getCurrentWeekData a).2 with
  | error e => exact h1
  | ok r =>
    refine daysInvariant_set _ _ _ h1 ?_
    intro rec hrec
    have : r = rec := by simpa using hrec
    rw [← this]
    exact hf _ _ h2 hfr

theorem daysInvariant_andThen (o : Outcome) (f : App → Outcome)
    (ho : DaysInvariant o.1.appData.weeks)
    (hf : ∀ a, DaysInvariant a.appData.weeks → DaysInvariant (f a).1.appData.weeks) :
    DaysInvariant (o.andThen f).1.appData.weeks := by
  unfold Outcome.andThen
  cases o.2 with
  | none => exact hf _ ho
  | some e => exact ho

theorem daysInvariant_saveData (a : App) (h : DaysInvariant a.appData.weeks) :
    DaysInvariant (saveData a, (none : Option JsError)).1.appData.weeks := h

theorem daysInvariant_renderTasks (a : App) (h : DaysInvariant a.appData.weeks) :
    DaysInvariant (renderTasks a).1.appData.weeks := by
  have h1 := (daysInvariant_getCurrentWeekData a h).1
  unfold renderTasks
  cases (getCurrentWeekData a).2.tasks with
  | none => exact h1
  | some ts =>
    by_cases hall : (ts.all fun task => task.days.isSome) = true
    · simp only [hall, if_true]; exact h1
    · simp only [hall]; exact h1

theorem recordDays_toggleDay (i j : Nat) (hj : j < 7) (w w' : WeekRecord) (h : RecordDays w)
    (ht : toggleDay i j w = .ok w') : RecordDays w' := by
  unfold toggleDay at ht
  cases hts : w.tasks with
  | none => simp [hts] at ht
  | some ts =>
    cases hi : ts[i]? with
    | none => simp [hts, hi] at ht
    | some task =>
      cases hds : task.days with
      | none => simp [hts, hi, hds] at ht
      | some ds =>
        simp only [hts, hi, hds, Except.ok.injEq] at ht
        obtain ⟨ds0, hds0, hlen⟩ := h ts hts task (List.getElem?_mem hi)
        have hd : ds = ds0 := by rw [hds] at hds0; exact Option.some.inj hds0
        intro ts' hts' t' ht'
        rw [← ht] at hts'
        have hts2 : ts' = ts.set i
            { task with days := some (jsAssign none ds j (nextStatus ds[j]?)) } := by
          simpa using hts'.symm
        rw [hts2] at ht'
        rcases List.mem_or_eq_of_mem_set ht' with h1 | h1
        · exact h ts hts t' h1
        · rw [h1]
          refine ⟨_, rfl, ?_⟩
          unfold jsAssign
          rw [if_pos (by rw [hd, hlen]; exact hj), List.length_set, hd, hlen]

theorem recordDays_pushTasks (tasks : List Task)
    (hnew : ∀ task ∈ tasks, task.days = some (List.replicate 7 none)) (w w' : WeekRecord)
    (h : RecordDays w) (ht : pushTasks tasks w = .ok w') : RecordDays w' := by
  unfold pushTasks at ht
  cases hts : w.tasks with
  | none =>
    rw [hts] at ht
    by_cases he : tasks = []
    · simp only [he, if_true, Except.ok.injEq] at ht
      rw [← ht]; exact h
    · simp [he] at ht
  | some ts =>
    simp only [hts, Except.ok.injEq] at ht
    intro ts' hts' t' ht'
    rw [← ht] at hts'
    have hts2 : ts' = ts ++ tasks := by simpa using hts'.symm
    rw [hts2, List.mem_append] at ht'
    rcases ht' with h1 | h1
    · exact h ts hts t' h1
    · exact ⟨_, hnew t' h1, by simp⟩

theorem recordDays_spliceOut (i : Nat) (w w' : WeekRecord) (h : RecordDays w)
    (ht : spliceOut i w = .ok w') : RecordDays w' := by
  unfold spliceOut at ht
  cases hts : w.tasks with
  | none => simp [hts] at ht
  | some ts =>
    simp only [hts, Except.ok.injEq] at ht
    intro ts' hts' t' ht'
    rw [← ht] at hts'
    have hts2 : ts' = ts.eraseIdx i := by simpa using hts'.symm
    rw [hts2] at ht'
    exact h ts hts t' (List.mem_of_mem_eraseIdx ht')

theorem recordDays_moveTask (d i : Nat) (w w' : WeekRecord) (h : RecordDays w)
    (ht : moveTask d i w = .ok w') : RecordDays w' := by
  unfold moveTask at ht
  cases hts : w.tasks with
  | none => simp [hts] at ht
  | some ts =>
    cases hd : ts[d]? with
    | none => simp [hts, hd] at ht
    | some moved =>
      simp only [hts, hd, Except.ok.injEq] at ht
      intro ts' hts' t' ht'
      rw [← ht] at hts'
      have hts2 : ts' = (ts.eraseIdx d).take i ++ moved :: (ts.eraseIdx d).drop i := by
        simpa using hts'.symm
      rw [hts2, List.mem_append, List.mem_cons] at ht'
      rcases ht' with h1 | h1 | h1
      · exact h ts hts t' (List.mem_of_mem_eraseIdx (List.mem_of_mem_take h1))
      · rw [h1]; exact h ts hts moved (List.getElem?_mem hd)
      · exact h ts hts t' (List.mem_of_mem_eraseIdx (List.mem_of_mem_drop h1))

theorem daysInvariant_handler (a : App) (f : WeekRecord → Except JsError WeekRecord)
    (hf : ∀ w w', RecordDays w → f w = .ok w' → RecordDays w')
    (h : DaysInvariant a.appData.weeks) :
    DaysInvariant (((mutateWeek a f).andThen (fun a1 => (saveData a1, none))).andThen
      renderTasks).1.appData.weeks :=
  daysInvariant_andThen _ _
    (daysInvariant_andThen _ _ (daysInvariant_mutateWeek a f hf h) daysInvariant_saveData)
    daysInvariant_renderTasks

/-- C19. If every task of every week record has exactly seven day statuses, this still
holds after each task-mutating operation: auto-creating an empty week, adding a blank task,
applying a habit template, toggling a day status of an existing slot, deleting a task,
reordering tasks by drag and drop.  Every task these operations create has exactly seven
`null` statuses. -/
theorem daysInvariant_preserved (a : App) (h : DaysInvariant a.appData.weeks)
    (i j : Nat) (hj : j < 7) (drag : Option Nat) (name : String) :
    DaysInvariant (getCurrentWeekData a).1.appData.weeks ∧
    DaysInvariant (addTask a).1.appData.weeks ∧
    DaysInvariant (applyTemplate name a).1.appData.weeks ∧
    DaysInvariant (clickDay i j a).1.appData.weeks ∧
    DaysInvariant (deleteTask i a).1.appData.weeks ∧
    DaysInvariant (dropTask drag i a).1.appData.weeks ∧
    (∀ text, (newTask text).days = some [none, none, none, none, none, none, none]) ∧
    createEmptyWeek.tasks = some [newTask ""] := by
  have hnew : ∀ texts : List String, ∀ task ∈ texts.map newTask,
      task.days = some (List.replicate 7 none) := by
    intro texts task ht
    obtain ⟨text, _, rfl⟩ := List.mem_map.1 ht
    rfl
  refine ⟨(daysInvariant_getCurrentWeekData a h).1, ?_, ?_, ?_, ?_, ?_, fun _ => rfl, rfl⟩
  · exact daysInvariant_handler a _ (recordDays_pushTasks _ (hnew [""])) h
  · unfold applyTemplate
    cases TEMPLATES.lookup name with
    | none => exact h
    | some texts => exact daysInvariant_handler a _ (recordDays_pushTasks _ (hnew texts)) h
  · exact daysInvariant_andThen _ _
      (daysInvariant_mutateWeek a _ (recordDays_toggleDay i j hj) h) daysInvariant_saveData
  · exact daysInvariant_handler a _ (recordDays_spliceOut i) h
  · unfold dropTask
    cases drag with
    | none => exact h
    | some d =>
      by_cases hd : d = i
      · simp only [hd, if_true]; exact h
      · simp only [hd, if_false]
        exact daysInvariant_handler a _ (recordDays_moveTask d i) h


theorem daysInvariant_sampleAppTasks : DaysInvariant sampleAppTasks.appData.weeks := by
  intro kv hkv r hr ts hts task htask
  have hkv2 : kv = ("2024-06-03", some sampleWeekXP) ∨ kv = ("2024-06-10", some sampleWeekTwoChecks) := by
    simpa [sampleAppTasks] using hkv
  have hts2 : ts = [{ text := "Read", days := some [some "check", some "check", none, none,
      none, none, none] }] := by
    rcases hkv2 with h | h <;> rw [h] at hr <;>
      (have hr2 := Option.some.inj hr; rw [← hr2] at hts; exact (Option.some.inj hts).symm)
  rw [hts2, List.mem_singleton] at htask
  rw [htask]
  exact ⟨_, rfl, rfl⟩

theorem daysInvariant_preserved_witness :
    DaysInvariant (getCurrentWeekData sampleAppTasks).1.appData.weeks ∧
    DaysInvariant (addTask sampleAppTasks).1.appData.weeks ∧
    DaysInvariant (applyTemplate "Study Plan" sampleAppTasks).1.appData.weeks ∧
    DaysInvariant (clickDay 0 3 sampleAppTasks).1.appData.weeks ∧
    DaysInvariant (deleteTask 0 sampleAppTasks).1.appData.weeks ∧
    DaysInvariant (dropTask (some 1) 0 sampleAppTasks).1.appData.weeks ∧
    (∀ text, (newTask text).days = some [none, none, none, none, none, none, none]) ∧
    createEmptyWeek.tasks = some [newTask ""] :=
  daysInvariant_preserved sampleAppTasks daysInvariant_sampleAppTasks 0 3 (by decide) (some 1)
    "Study Plan"

/-! ## Derived sleep duration -/

theorem adjustHour_range (h : Int) (ampm : String) (h0 : 0 ≤ h) (h23 : h ≤ 23) :
    0 ≤ adjustHour h ampm ∧ adjustHour h ampm ≤ 23 := by
  unfold adjustHour
  simp only []
  split_ifs <;> omega

theorem parseTime_range (str ampm : String) (h m : Int) (hh : hourPart str = some h)
    (hm : minutePart str = some m) (h0 : 0 ≤ h) (h23 : h ≤ 23) (m0 : 0 ≤ m) (m59 : m ≤ 59) :
    ∃ t : ℚ, parseTime str ampm = some (.num t) ∧ 0 ≤ t ∧ t < 24 := by
  obtain ⟨a0, a23⟩ := adjustHour_range h ampm h0 h23
  refine ⟨(adjustHour h ampm : ℚ) + (m : ℚ) / 60, ?_, ?_, ?_⟩
  · unfold parseTime
    simp only [hh, hm]
  · have h1 : (0 : ℚ) ≤ (adjustHour h ampm : ℚ) := by exact_mod_cast a0
    have h2 : (0 : ℚ) ≤ (m : ℚ) := by exact_mod_cast m0
    positivity
  · have h1 : (adjustHour h ampm : ℚ) ≤ 23 := by exact_mod_cast a23
    have h2 : (m : ℚ) ≤ 59 := by exact_mod_cast m59
    have h3 : (m : ℚ) / 60 < 1 := by
      rw [div_lt_one (by norm_num)]
      linarith
    linarith

/-- C20 (as stated, refuted). The hour part only has to parse as a number: for wake `1` and
bed `30` the value of `diff` is -5, for wake `30` and bed `1` it is 29, and for wake `7:xx`
it is `NaN`. -/
theorem calculateSleepDiff_out_of_range :
    calculateSleepDiff "1" "AM" "30" "AM" = some (.num (-5)) ∧
    calculateSleepDiff "30" "AM" "1" "AM" = some (.num 29) ∧
    calculateSleepDiff "7:xx" "AM" "11:00" "PM" = some .nan ∧
    hourPart "1" = some 1 ∧ hourPart "30" = some 30 ∧ hourPart "7:xx" = some 7 ∧
    ¬ (∀ wakeVal wakeAmPm bedVal bedAmPm : String, ∀ hw hb : Int,
        wakeVal ≠ "" → bedVal ≠ "" → hourPart wakeVal = some hw → hourPart bedVal = some hb →
        ∃ d : ℚ, calculateSleepDiff wakeVal wakeAmPm bedVal bedAmPm = some (.num d) ∧
          0 ≤ d ∧ d < 24) := by
  have h1 : hourPart "1" = some 1 := by decide
  have h30 : hourPart "30" = some 30 := by decide
  have h7 : hourPart "7:xx" = some 7 := by decide
  have h11 : hourPart "11:00" = some 11 := by decide
  have m1 : minutePart "1" = some 0 := by decide
  have m30 : minutePart "30" = some 0 := by decide
  have m7 : minutePart "7:xx" = none := by decide
  have m11 : minutePart "11:00" = some 0 := by decide
  have e1 : calculateSleepDiff "1" "AM" "30" "AM" = some (.num (-5)) := by
    simp [calculateSleepDiff, parseTime, h1, h30, m1, m30, adjustHour]
    norm_num
  have e2 : calculateSleepDiff "30" "AM" "1" "AM" = some (.num 29) := by
    simp [calculateSleepDiff, parseTime, h1, h30, m1, m30, adjustHour]
    norm_num
  have e3 : calculateSleepDiff "7:xx" "AM" "11:00" "PM" = some .nan := by
    simp [calculateSleepDiff, parseTime, h7, h11, m7, m11]
  refine ⟨e1, e2, e3, h1, h30, h7, ?_⟩
  intro h
  obtain ⟨d, hd, hd0, _⟩ := h "1" "AM" "30" "AM" 1 30 (by decide) (by decide) h1 h30
  rw [e1] at hd
  have : d = -5 := by
    have := Option.some.inj hd
    injection this with hq
    exact hq.symm
  rw [this] at hd0
  norm_num at hd0

/-- C20 (amended). For every wake time and bed time whose hour part parses as a number from
0 to 23 and whose minute part is absent or parses as a number from 0 to 59, both parsed
times lie in [0, 24) and the duration before rounding is `wake - bed` modulo 24 hours: a
value `d` with `0 ≤ d < 24` that is `wake - bed` or `wake - bed + 24`. -/
theorem calculateSleepDiff_mod_24 (wakeVal wakeAmPm bedVal bedAmPm : String)
    (hw mw hb mb : Int) (hwv : wakeVal ≠ "") (hbv : bedVal ≠ "")
    (hhw : hourPart wakeVal = some hw) (hmw : minutePart wakeVal = some mw)
    (hhb : hourPart bedVal = some hb) (hmb : minutePart bedVal = some mb)
    (hw0 : 0 ≤ hw) (hw23 : hw ≤ 23) (mw0 : 0 ≤ mw) (mw59 : mw ≤ 59)
    (hb0 : 0 ≤ hb) (hb23 : hb ≤ 23) (mb0 : 0 ≤ mb) (mb59 : mb ≤ 59) :
    ∃ w b d : ℚ, parseTime wakeVal wakeAmPm = some (.num w) ∧
      parseTime bedVal bedAmPm = some (.num b) ∧
      calculateSleepDiff wakeVal wakeAmPm bedVal bedAmPm = some (.num d) ∧
      0 ≤ w ∧ w < 24 ∧ 0 ≤ b ∧ b < 24 ∧ 0 ≤ d ∧ d < 24 ∧ (d = w - b ∨ d = w - b + 24) := by
  obtain ⟨w, hpw, w0, w24⟩ := parseTime_range wakeVal wakeAmPm hw mw hhw hmw hw0 hw23 mw0 mw59
  obtain ⟨b, hpb, b0, b24⟩ := parseTime_range bedVal bedAmPm hb mb hhb hmb hb0 hb23 mb0 mb59
  refine ⟨w, b, if w - b < 0 then w - b + 24 else w - b, hpw, hpb, ?_, w0, w24, b0, b24, ?_, ?_,
    ?_⟩
  · unfold calculateSleepDiff
    rw [if_neg (by simp [hwv, hbv])]
    simp only [hpw, hpb]
  · split_ifs with h <;> linarith
  · split_ifs with h <;> linarith
  · split_ifs with h
    · exact Or.inr rfl
    · exact Or.inl rfl

theorem calculateSleepDiff_mod_24_witness :
    ∃ w b d : ℚ, parseTime "7:00" "AM" = some (.num w) ∧
      parseTime "11:00" "PM" = some (.num b) ∧
      calculateSleepDiff "7:00" "AM" "11:00" "PM" = some (.num d) ∧
      0 ≤ w ∧ w < 24 ∧ 0 ≤ b ∧ b < 24 ∧ 0 ≤ d ∧ d < 24 ∧ (d = w - b ∨ d = w - b + 24) :=
  calculateSleepDiff_mod_24 "7:00" "AM" "11:00" "PM" 7 0 11 0 (by decide) (by decide)
    (by decide) (by decide) (by decide) (by decide) (by decide) (by decide) (by decide)
    (by decide) (by decide) (by decide) (by decide) (by decide)


/-! ## Order of week keys -/

theorem toDigitsCore_append (b fuel n : Nat) (ds : List Char) :
    Nat.toDigitsCore b fuel n ds = Nat.toDigitsCore b fuel n [] ++ ds := by
  induction fuel generalizing n ds with
  | zero => simp [Nat.toDigitsCore]
  | succ f ih =>
    unfold Nat.toDigitsCore
    by_cases h : n / b = 0
    · simp [h]
    · simp only [h, if_false]
      rw [ih (n / b) (Nat.digitChar (n % b) :: ds), ih (n / b) [Nat.digitChar (n % b)]]
      simp

theorem toDigitsCore_fuel (f1 f2 n : Nat) (h1 : n < f1) (h2 : n < f2) :
    Nat.toDigitsCore 10 f1 n [] = Nat.toDigitsCore 10 f2 n [] := by
  induction f1 generalizing f2 n with
  | zero => omega
  | succ f ih =>
    cases f2 with
    | zero => omega
    | succ g =>
      unfold Nat.toDigitsCore
      by_cases h : n / 10 = 0
      · simp [h]
      · simp only [h, if_false]
        rw [toDigitsCore_append 10 f, toDigitsCore_append 10 g]
        rw [ih g (n / 10) (by omega) (by omega)]

theorem toDigits_ten (n : Nat) :
    Nat.toDigits 10 n
      = if n < 10 then [Nat.digitChar n]
        else Nat.toDigits 10 (n / 10) ++ [Nat.digitChar (n % 10)] := by
  unfold Nat.toDigits
  conv_lhs => unfold Nat.toDigitsCore
  by_cases h : n < 10
  · have h0 : n / 10 = 0 := by omega
    have hm : n % 10 = n := by omega
    simp [h, h0, hm]
  · have h0 : ¬ n / 10 = 0 := by omega
    simp only [h, h0, if_false]
    rw [toDigitsCore_append, toDigitsCore_fuel n (n / 10 + 1) (n / 10) (by omega) (by omega)]

theorem toDigits_one (n : Nat) (h : n < 10) : Nat.toDigits 10 n = [Nat.digitChar n] := by
  rw [toDigits_ten, if_pos h]

theorem toDigits_two (n : Nat) (h1 : 10 ≤ n) (h2 : n < 100) :
    Nat.toDigits 10 n = [Nat.digitChar (n / 10), Nat.digitChar (n % 10)] := by
  rw [toDigits_ten, if_neg (by omega), toDigits_one (n / 10) (by omega)]
  rfl

theorem toDigits_three (n : Nat) (h1 : 100 ≤ n) (h2 : n < 1000) :
    Nat.toDigits 10 n
      = [Nat.digitChar (n / 10 / 10), Nat.digitChar (n / 10 % 10), Nat.digitChar (n % 10)] := by
  rw [toDigits_ten, if_neg (by omega), toDigits_two (n / 10) (by omega) (by omega)]
  rfl

theorem toDigits_four (n : Nat) (h1 : 1000 ≤ n) (h2 : n < 10000) :
    Nat.toDigits 10 n
      = [Nat.digitChar (n / 10 / 10 / 10), Nat.digitChar (n / 10 / 10 % 10),
          Nat.digitChar (n / 10 % 10), Nat.digitChar (n % 10)] := by
  rw [toDigits_ten, if_neg (by omega), toDigits_three (n / 10) (by omega) (by omega)]
  rfl

theorem utf16Units_digitChar (k j : Nat) (hk : k < 10) (hj : j = k) :
    utf16Units (Nat.digitChar k) = [48 + j] := by
  subst hj
  interval_cases j <;> decide

theorem codeUnits_mk (cs : List Char) : codeUnits (String.mk cs) = (cs.map utf16Units).flatten :=
  rfl

theorem units_padDigits_two (n : Nat) (hn : n < 100) :
    ((JsDate.padDigits 2 n).map utf16Units).flatten = [48 + n / 10, 48 + n % 10] := by
  have e0 : utf16Units '0' = [48] := by decide
  unfold JsDate.padDigits
  simp only []
  by_cases h : n < 10
  · rw [toDigits_one n h]
    have h0 : n / 10 = 0 := by omega
    rw [h0]
    simp [e0, utf16Units_digitChar n (n % 10) h (by omega)]
  · rw [toDigits_two n (by omega) hn]
    simp [utf16Units_digitChar (n / 10) (n / 10) (by omega) rfl,
      utf16Units_digitChar (n % 10) (n % 10) (by omega) rfl]

theorem units_padDigits_four (n : Nat) (hn : n < 10000) :
    ((JsDate.padDigits 4 n).map utf16Units).flatten
      = [48 + n / 100 / 10, 48 + n / 100 % 10, 48 + n % 100 / 10, 48 + n % 100 % 10] := by
  have e0 : utf16Units '0' = [48] := by decide
  unfold JsDate.padDigits
  simp only []
  by_cases h1 : n < 10
  · rw [toDigits_one n h1]
    have a1 : n / 100 = 0 := by omega
    have a2 : n % 100 / 10 = 0 := by omega
    rw [a1, a2]
    simp [e0, utf16Units_digitChar n (n % 100 % 10) h1 (by omega)]
  · by_cases h2 : n < 100
    · rw [toDigits_two n (by omega) h2]
      have a1 : n / 100 = 0 := by omega
      rw [a1]
      simp [e0, utf16Units_digitChar (n / 10) (n % 100 / 10) (by omega) (by omega),
        utf16Units_digitChar (n % 10) (n % 100 % 10) (by omega) (by omega)]
    · by_cases h3 : n < 1000
      · rw [toDigits_three n (by omega) h3]
        have a1 : n / 100 / 10 = 0 := by omega
        rw [a1]
        simp [e0, utf16Units_digitChar (n / 10 / 10) (n / 100 % 10) (by omega) (by omega),
          utf16Units_digitChar (n / 10 % 10) (n % 100 / 10) (by omega) (by omega),
          utf16Units_digitChar (n % 10) (n % 100 % 10) (by omega) (by omega)]
      · rw [toDigits_four n (by omega) hn]
        simp [utf16Units_digitChar (n / 10 / 10 / 10) (n / 100 / 10) (by omega) (by omega),
          utf16Units_digitChar (n / 10 / 10 % 10) (n / 100 % 10) (by omega) (by omega),
          utf16Units_digitChar (n / 10 % 10) (n % 100 / 10) (by omega) (by omega),
          utf16Units_digitChar (n % 10) (n % 100 % 10) (by omega) (by omega)]

namespace JsDate

theorem monthOfDay_cases (d leap : Int) :
    (monthOfDay d leap = 0 ∧ d < 31) ∨
    (monthOfDay d leap = 1 ∧ 31 ≤ d ∧ d < 59 + leap) ∨
    (monthOfDay d leap = 2 ∧ 59 + leap ≤ d ∧ d < 90 + leap) ∨
    (monthOfDay d leap = 3 ∧ 90 + leap ≤ d ∧ d < 120 + leap) ∨
    (monthOfDay d leap = 4 ∧ 120 + leap ≤ d ∧ d < 151 + leap) ∨
    (monthOfDay d leap = 5 ∧ 151 + leap ≤ d ∧ d < 181 + leap) ∨
    (monthOfDay d leap = 6 ∧ 181 + leap ≤ d ∧ d < 212 + leap) ∨
    (monthOfDay d leap = 7 ∧ 212 + leap ≤ d ∧ d < 243 + leap) ∨
    (monthOfDay d leap = 8 ∧ 243 + leap ≤ d ∧ d < 273 + leap) ∨
    (monthOfDay d leap = 9 ∧ 273 + leap ≤ d ∧ d < 304 + leap) ∨
    (monthOfDay d leap = 10 ∧ 304 + leap ≤ d ∧ d < 334 + leap) ∨
    (monthOfDay d leap = 11 ∧ 334 + leap ≤ d) := by
  generalize hm : monthOfDay d leap = m
  unfold monthOfDay at hm
  by_cases h0 : d < 31
  · rw [if_pos h0] at hm; left; omega
  rw [if_neg h0] at hm
  by_cases h1 : d < 59 + leap
  · rw [if_pos h1] at hm; right; left; omega
  rw [if_neg h1] at hm
  by_cases h2 : d < 90 + leap
  · rw [if_pos h2] at hm; right; right; left; omega
  rw [if_neg h2] at hm
  by_cases h3 : d < 120 + leap
  · rw [if_pos h3] at hm; right; right; right; left; omega
  rw [if_neg h3] at hm
  by_cases h4 : d < 151 + leap
  · rw [if_pos h4] at hm; right; right; right; right; left; omega
  rw [if_neg h4] at hm
  by_cases h5 : d < 181 + leap
  · rw [if_pos h5] at hm; right; right; right; right; right; left; omega
  rw [if_neg h5] at hm
  by_cases h6 : d < 212 + leap
  · rw [if_pos h6] at hm; right; right; right; right; right; right; left; omega
  rw [if_neg h6] at hm
  by_cases h7 : d < 243 + leap
  · rw [if_pos h7] at hm; right; right; right; right; right; right; right; left; omega
  rw [if_neg h7] at hm
  by_cases h8 : d < 273 + leap
  · rw [if_pos h8] at hm; right; right; right; right; right; right; right; right; left; omega
  rw [if_neg h8] at hm
  by_cases h9 : d < 304 + leap
  · rw [if_pos h9] at hm; right; right; right; right; right; right; right; right; right; left; omega
  rw [if_neg h9] at hm
  by_cases h10 : d < 334 + leap
  · rw [if_pos h10] at hm; right; right; right; right; right; right; right; right; right; right; left; omega
  rw [if_neg h10] at hm
  right; right; right; right; right; right; right; right; right; right; right; omega

theorem monthStart_literal (leap : Int) :
    monthStart 0 leap = 0 ∧
    monthStart 1 leap = 31 ∧
    monthStart 2 leap = 59 + leap ∧
    monthStart 3 leap = 90 + leap ∧
    monthStart 4 leap = 120 + leap ∧
    monthStart 5 leap = 151 + leap ∧
    monthStart 6 leap = 181 + leap ∧
    monthStart 7 leap = 212 + leap ∧
    monthStart 8 leap = 243 + leap ∧
    monthStart 9 leap = 273 + leap ∧
    monthStart 10 leap = 304 + leap ∧
    monthStart 11 leap = 334 + leap := by
  simp [monthStart]

theorem month_of_day_cases (d leap : Int) :
    (monthOfDay d leap = 0 ∧ monthStart (monthOfDay d leap) leap = 0 ∧ d < 31) ∨
    (monthOfDay d leap = 1 ∧ monthStart (monthOfDay d leap) leap = 31 ∧ 31 ≤ d ∧ d < 59 + leap) ∨
    (monthOfDay d leap = 2 ∧ monthStart (monthOfDay d leap) leap = 59 + leap ∧ 59 + leap ≤ d ∧ d < 90 + leap) ∨
    (monthOfDay d leap = 3 ∧ monthStart (monthOfDay d leap) leap = 90 + leap ∧ 90 + leap ≤ d ∧ d < 120 + leap) ∨
    (monthOfDay d leap = 4 ∧ monthStart (monthOfDay d leap) leap = 120 + leap ∧ 120 + leap ≤ d ∧ d < 151 + leap) ∨
    (monthOfDay d leap = 5 ∧ monthStart (monthOfDay d leap) leap = 151 + leap ∧ 151 + leap ≤ d ∧ d < 181 + leap) ∨
    (monthOfDay d leap = 6 ∧ monthStart (monthOfDay d leap) leap = 181 + leap ∧ 181 + leap ≤ d ∧ d < 212 + leap) ∨
    (monthOfDay d leap = 7 ∧ monthStart (monthOfDay d leap) leap = 212 + leap ∧ 212 + leap ≤ d ∧ d < 243 + leap) ∨
    (monthOfDay d leap = 8 ∧ monthStart (monthOfDay d leap) leap = 243 + leap ∧ 243 + leap ≤ d ∧ d < 273 + leap) ∨
    (monthOfDay d leap = 9 ∧ monthStart (monthOfDay d leap) leap = 273 + leap ∧ 273 + leap ≤ d ∧ d < 304 + leap) ∨
    (monthOfDay d leap = 10 ∧ monthStart (monthOfDay d leap) leap = 304 + leap ∧ 304 + leap ≤ d ∧ d < 334 + leap) ∨
    (monthOfDay d leap = 11 ∧ monthStart (monthOfDay d leap) leap = 334 + leap ∧ 334 + leap ≤ d) := by
  obtain ⟨s0, s1, s2, s3, s4, s5, s6, s7, s8, s9, s10, s11⟩ := monthStart_literal leap
  rcases monthOfDay_cases d leap with h | h | h | h | h | h | h | h | h | h | h | h
  · left
    refine ⟨h.1, ?_, h.2⟩
    rw [h.1, s0]
  · right; left
    refine ⟨h.1, ?_, h.2⟩
    rw [h.1, s1]
  · right; right; left
    refine ⟨h.1, ?_, h.2⟩
    rw [h.1, s2]
  · right; right; right; left
    refine ⟨h.1, ?_, h.2⟩
    rw [h.1, s3]
  · right; right; right; right; left
    refine ⟨h.1, ?_, h.2⟩
    rw [h.1, s4]
  · right; right; right; right; right; left
    refine ⟨h.1, ?_, h.2⟩
    rw [h.1, s5]
  · right; right; right; right; right; right; left
    refine ⟨h.1, ?_, h.2⟩
    rw [h.1, s6]
  · right; right; right; right; right; right; right; left
    refine ⟨h.1, ?_, h.2⟩
    rw [h.1, s7]
  · right; right; right; right; right; right; right; right; left
    refine ⟨h.1, ?_, h.2⟩
    rw [h.1, s8]
  · right; right; right; right; right; right; right; right; right; left
    refine ⟨h.1, ?_, h.2⟩
    rw [h.1, s9]
  · right; right; right; right; right; right; right; right; right; right; left
    refine ⟨h.1, ?_, h.2⟩
    rw [h.1, s10]
  · right; right; right; right; right; right; right; right; right; right; right
    refine ⟨h.1, ?_, h.2⟩
    rw [h.1, s11]

theorem date_of_day_range (d leap : Int) (h0 : 0 ≤ d) (h1 : d < 365 + leap)
    (hl : leap = 0 ∨ leap = 1) :
    0 ≤ monthOfDay d leap ∧ monthOfDay d leap ≤ 11 ∧
    1 ≤ d - monthStart (monthOfDay d leap) leap + 1 ∧
    d - monthStart (monthOfDay d leap) leap + 1 ≤ 31 := by
  rcases month_of_day_cases d leap with h | h | h | h | h | h | h | h | h | h | h | h <;> omega

theorem date_of_day_mono (d e leap : Int) (h0 : 0 ≤ d) (hde : d ≤ e) (h1 : e < 365 + leap)
    (hl : leap = 0 ∨ leap = 1) :
    monthOfDay d leap < monthOfDay e leap ∨
    (monthOfDay d leap = monthOfDay e leap ∧
      d - monthStart (monthOfDay d leap) leap + 1 ≤ e - monthStart (monthOfDay e leap) leap + 1) := by
  rcases month_of_day_cases d leap with h | h | h | h | h | h | h | h | h | h | h | h <;>
    rcases month_of_day_cases e leap with g | g | g | g | g | g | g | g | g | g | g | g <;>
    omega

end JsDate


namespace JsDate

theorem dayFromYear_mono (y z : Int) (h : y ≤ z) : DayFromYear y ≤ DayFromYear z := by
  unfold DayFromYear
  omega

theorem dayFromYear_lt (y z : Int) (h : y < z) : DayFromYear y < DayFromYear z := by
  have h1 := dayFromYear_mono (y + 1) z (by omega)
  have h2 := dayFromYear_succ y
  have h3 : 365 ≤ DaysInYear y := by unfold DaysInYear; split_ifs <;> omega
  omega

theorem yearFromDay_mono (a b : Int) (h : a ≤ b) : yearFromDay a ≤ yearFromDay b := by
  by_contra hlt
  have ha := yearFromDay_spec a
  have hb := yearFromDay_spec b
  have := dayFromYear_mono (yearFromDay b + 1) (yearFromDay a) (by omega)
  omega

theorem daysInYear_cases (y : Int) : DaysInYear y = 365 ∨ DaysInYear y = 366 := by
  unfold DaysInYear
  split_ifs <;> simp

theorem inLeapYear_cases (t : Int) :
    (InLeapYear t = 0 ∧ DaysInYear (yearFromDay (Day t)) = 365) ∨
    (InLeapYear t = 1 ∧ DaysInYear (yearFromDay (Day t)) = 366) := by
  unfold InLeapYear YearFromTime
  rcases daysInYear_cases (yearFromDay (Day t)) with h | h
  · left
    rw [h]
    exact ⟨by decide, rfl⟩
  · right
    rw [h]
    exact ⟨by decide, rfl⟩

theorem dayWithinYear_range (t : Int) :
    0 ≤ DayWithinYear t ∧ DayWithinYear t < 365 + InLeapYear t ∧
    (InLeapYear t = 0 ∨ InLeapYear t = 1) := by
  have hs := yearFromDay_spec (Day t)
  have hn := dayFromYear_succ (yearFromDay (Day t))
  have hl := inLeapYear_cases t
  unfold DayWithinYear YearFromTime
  omega

theorem date_range (t : Int) :
    0 ≤ MonthFromTime t ∧ MonthFromTime t ≤ 11 ∧ 1 ≤ DateFromTime t ∧ DateFromTime t ≤ 31 := by
  obtain ⟨h0, h1, hl⟩ := dayWithinYear_range t
  exact date_of_day_range (DayWithinYear t) (InLeapYear t) h0 h1 hl

end JsDate

theorem dateLe_of_day_le (t u : Int) (h : JsDate.Day t ≤ JsDate.Day u) :
    DateLe (JsDate.YearFromTime t) (JsDate.MonthFromTime t) (JsDate.DateFromTime t)
      (JsDate.YearFromTime u) (JsDate.MonthFromTime u) (JsDate.DateFromTime u) := by
  unfold DateLe
  have hy := JsDate.yearFromDay_mono _ _ h
  rcases lt_or_eq_of_le hy with hlt | heq
  · exact Or.inl hlt
  · refine Or.inr ⟨heq, ?_⟩
    obtain ⟨t0, _, _⟩ := JsDate.dayWithinYear_range t
    obtain ⟨_, u1, ul⟩ := JsDate.dayWithinYear_range u
    have hleap : JsDate.InLeapYear t = JsDate.InLeapYear u := by
      unfold JsDate.InLeapYear JsDate.YearFromTime
      rw [heq]
    have hd : JsDate.DayWithinYear t ≤ JsDate.DayWithinYear u := by
      unfold JsDate.DayWithinYear JsDate.YearFromTime
      rw [heq]
      omega
    have := JsDate.date_of_day_mono (JsDate.DayWithinYear t) (JsDate.DayWithinYear u)
      (JsDate.InLeapYear u) t0 hd u1 ul
    unfold JsDate.MonthFromTime JsDate.DateFromTime JsDate.MonthFromTime
    rw [hleap]
    exact this


theorem unitsLt_twoDigit (a b : Nat) (x y : List Nat) :
    unitsLt (twoDigitUnits a ++ x) (twoDigitUnits b ++ y)
      = if a < b then true else if b < a then false else unitsLt x y := by
  simp only [twoDigitUnits, List.cons_append, List.nil_append, unitsLt]
  by_cases h1 : a / 10 < b / 10
  · have h2 : a < b := by omega
    simp [h1, h2]
  · by_cases h3 : b / 10 < a / 10
    · have h4 : ¬ a < b := by omega
      have h5 : b < a := by omega
      simp [h1, h3, h4, h5]
    · have e : a / 10 = b / 10 := by omega
      by_cases h6 : a % 10 < b % 10
      · have h2 : a < b := by omega
        simp [e, h6, h2]
      · by_cases h7 : b % 10 < a % 10
        · have h4 : ¬ a < b := by omega
          have h5 : b < a := by omega
          simp [e, h6, h7, h4, h5]
        · have h8 : a = b := by omega
          subst h8
          simp

theorem unitsLt_dash (x y : List Nat) : unitsLt (45 :: x) (45 :: y) = unitsLt x y := by
  simp [unitsLt]

theorem unitsLt_dateUnits (y1 m1 d1 y2 m2 d2 : Nat)
    (h : y1 < y2 ∨ (y1 = y2 ∧ (m1 < m2 ∨ (m1 = m2 ∧ d1 ≤ d2)))) :
    unitsLt (dateUnits y2 m2 d2) (dateUnits y1 m1 d1) = false := by
  unfold dateUnits
  simp only [List.append_assoc, unitsLt_twoDigit, List.cons_append, unitsLt_dash]
  have hnil : unitsLt (twoDigitUnits d2) (twoDigitUnits d1)
      = if d2 < d1 then true else if d1 < d2 then false else false := by
    have := unitsLt_twoDigit d2 d1 [] []
    simpa [unitsLt] using this
  rw [hnil]
  rcases h with h | ⟨rfl, h | ⟨rfl, h⟩⟩
  · by_cases h1 : y2 / 100 < y1 / 100
    · omega
    · by_cases h2 : y1 / 100 < y2 / 100
      · simp [h1, h2]
      · have h3 : ¬ y2 % 100 < y1 % 100 := by omega
        have h4 : y1 % 100 < y2 % 100 := by omega
        simp [h1, h2, h3, h4]
  · have h1 : ¬ m2 < m1 := by omega
    simp [h1, h]
  · have h1 : ¬ d2 < d1 := by omega
    simp [h1]

theorem utf16Units_dash : utf16Units '-' = [45] := by decide

theorem codeUnits_isoDatePart (t : Int) (hy0 : 0 ≤ JsDate.YearFromTime t)
    (hy : JsDate.YearFromTime t ≤ 9999) :
    codeUnits (JsDate.isoDatePart t)
      = dateUnits (JsDate.YearFromTime t).toNat (JsDate.MonthFromTime t + 1).toNat
          (JsDate.DateFromTime t).toNat := by
  obtain ⟨m0, m11, d1, d31⟩ := JsDate.date_range t
  unfold JsDate.isoDatePart JsDate.isoYear
  rw [if_pos ⟨hy0, hy⟩, codeUnits_mk]
  simp only [List.map_append, List.map_cons, List.flatten_append, List.flatten_cons,
    utf16Units_dash]
  rw [units_padDigits_four _ (by omega), units_padDigits_two _ (by omega),
    units_padDigits_two _ (by omega)]
  simp [dateUnits, twoDigitUnits]

theorem jsStrLe_isoDatePart (t u : Int) (h : JsDate.Day t ≤ JsDate.Day u)
    (ht0 : 0 ≤ JsDate.YearFromTime t) (hu : JsDate.YearFromTime u ≤ 9999) :
    jsStrLe (JsDate.isoDatePart t) (JsDate.isoDatePart u) := by
  have hle := dateLe_of_day_le t u h
  obtain ⟨tm0, tm11, td1, td31⟩ := JsDate.date_range t
  obtain ⟨um0, um11, ud1, ud31⟩ := JsDate.date_range u
  have hyy := JsDate.yearFromDay_mono _ _ h
  have hyy2 : JsDate.YearFromTime t ≤ JsDate.YearFromTime u := hyy
  unfold jsStrLe jsStrLt
  rw [codeUnits_isoDatePart t ht0 (by omega), codeUnits_isoDatePart u (by omega) hu]
  apply unitsLt_dateUnits
  unfold DateLe at hle
  omega


/-- C11 (the code at an input where it departs from the claim). In a zone east of UTC,
three weeks forward from the Monday key `2024-06-10` gives `2024-06-30`, and three weeks
back from there gives `2024-06-02`, not the key started from.  In UTC, and in a zone west
of UTC, the round trip returns `2024-06-10`. -/
theorem shiftWeek_round_trip_outside_utc :
    shiftWeek tzaTokyo "2024-06-10" 3 = some "2024-06-30" ∧
    shiftWeek tzaTokyo "2024-06-30" (-3) = some "2024-06-02" ∧
    ((shiftWeek tzaTokyo "2024-06-10" 3).bind fun k => shiftWeek tzaTokyo k (-3))
      = some "2024-06-02" ∧
    ((shiftWeek 0 "2024-06-10" 3).bind fun k => shiftWeek 0 k (-3)) = some "2024-06-10" ∧
    ((shiftWeek tzaNewYork "2024-06-10" 3).bind fun k => shiftWeek tzaNewYork k (-3))
      = some "2024-06-10" := by
  decide

theorem mondayOfWeek_mono (a b : Int) (h : a ≤ b) : mondayOfWeek a ≤ mondayOfWeek b := by
  unfold mondayOfWeek
  omega

theorem getWeekKey_monday (tza t : Int)
    (hz0 : tza ≤ JsDate.TimeWithinDay (t + tza))
    (hz1 : JsDate.TimeWithinDay (t + tza) < tza + JsDate.msPerDay)
    (hy0 : 0 ≤ JsDate.YearFromTime (JsDate.MakeDate (mondayOfWeek (JsDate.Day (t + tza))) 0))
    (hy1 : JsDate.YearFromTime (JsDate.MakeDate (mondayOfWeek (JsDate.Day (t + tza))) 0)
      ≤ 9999) :
    getWeekKey tza (some t)
      = some (JsDate.isoDatePart (JsDate.MakeDate (mondayOfWeek (JsDate.Day (t + tza))) 0)) := by
  have hday : JsDate.Day (JsDate.MakeDate (mondayOfWeek (JsDate.Day (t + tza))) 0)
      = mondayOfWeek (JsDate.Day (t + tza)) := JsDate.day_makeDate _ 0 (by decide) (by decide)
  have hs := JsDate.yearFromDay_spec (mondayOfWeek (JsDate.Day (t + tza)))
  unfold JsDate.YearFromTime at hy0 hy1
  rw [hday] at hy0 hy1
  have hlo := JsDate.dayFromYear_mono 0 _ hy0
  have hhi := JsDate.dayFromYear_mono
    (JsDate.yearFromDay (mondayOfWeek (JsDate.Day (t + tza))) + 1) 10000 (by omega)
  have e0 : JsDate.DayFromYear 0 = -719528 := by decide
  have e1 : JsDate.DayFromYear 10000 = 2932897 := by decide
  have htw : 0 ≤ JsDate.TimeWithinDay (t + tza) ∧
      JsDate.TimeWithinDay (t + tza) < 86400000 := by
    unfold JsDate.TimeWithinDay JsDate.msPerDay
    omega
  rw [getWeekKey_zone]
  · congr 3
    have : (JsDate.TimeWithinDay (t + tza) - tza) / JsDate.msPerDay = 0 := by
      unfold JsDate.msPerDay at *
      omega
    rw [this, add_zero]
  · unfold JsDate.MakeDate JsDate.msPerDay at *
    omega

/-- C12 (as stated, refuted). Keys do not always sort in chronological order.  In UTC the
date 2024-06-12 is earlier than 10000-01-05, but its key `2024-06-10` sorts after the key
`+010000-01-03` of the later date, because years past 9999 are printed with a sign and six
digits.  (East of UTC the order also breaks inside one week: noon of Wednesday 2024-06-12
has key `2024-06-10`, the following local midnight has key `2024-06-09`.) -/
theorem weekKey_order_fails :
    (1718150400000 : Int) ≤ 253402646400000 ∧
    getWeekKey 0 (some 1718150400000) = some "2024-06-10" ∧
    getWeekKey 0 (some 253402646400000) = some "+010000-01-03" ∧
    ¬ jsStrLe "2024-06-10" "+010000-01-03" ∧
    (1718161200000 : Int) ≤ 1718204400000 ∧
    getWeekKey tzaTokyo (some 1718161200000) = some "2024-06-10" ∧
    getWeekKey tzaTokyo (some 1718204400000) = some "2024-06-09" ∧
    ¬ jsStrLe "2024-06-10" "2024-06-09" := by
  decide

/-- C12 (amended). For any two dates `d1` not later than `d2` whose week Mondays lie in the
years 0000 to 9999 and whose local time of day is at least the zone offset and less than a
day more (always so in UTC), `getWeekKey` returns the ISO date of the Monday of the local
week of each, and the key of `d1` is lexicographically (by code units) less than or equal
to the key of `d2`. -/
theorem weekKey_order (tza t1 t2 : Int) (h12 : t1 ≤ t2)
    (hz1 : tza ≤ JsDate.TimeWithinDay (t1 + tza))
    (hz1' : JsDate.TimeWithinDay (t1 + tza) < tza + JsDate.msPerDay)
    (hz2 : tza ≤ JsDate.TimeWithinDay (t2 + tza))
    (hz2' : JsDate.TimeWithinDay (t2 + tza) < tza + JsDate.msPerDay)
    (hy1 : 0 ≤ JsDate.YearFromTime (JsDate.MakeDate (mondayOfWeek (JsDate.Day (t1 + tza))) 0))
    (hy2 : JsDate.YearFromTime (JsDate.MakeDate (mondayOfWeek (JsDate.Day (t2 + tza))) 0)
      ≤ 9999) :
    ∃ k1 k2, getWeekKey tza (some t1) = some k1 ∧ getWeekKey tza (some t2) = some k2 ∧
      k1 = JsDate.isoDatePart (JsDate.MakeDate (mondayOfWeek (JsDate.Day (t1 + tza))) 0) ∧
      k2 = JsDate.isoDatePart (JsDate.MakeDate (mondayOfWeek (JsDate.Day (t2 + tza))) 0) ∧
      jsStrLe k1 k2 := by
  have hd : JsDate.Day (t1 + tza) ≤ JsDate.Day (t2 + tza) := by
    unfold JsDate.Day JsDate.msPerDay
    omega
  have hm := mondayOfWeek_mono _ _ hd
  have hday1 : JsDate.Day (JsDate.MakeDate (mondayOfWeek (JsDate.Day (t1 + tza))) 0)
      = mondayOfWeek (JsDate.Day (t1 + tza)) := JsDate.day_makeDate _ 0 (by decide) (by decide)
  have hday2 : JsDate.Day (JsDate.MakeDate (mondayOfWeek (JsDate.Day (t2 + tza))) 0)
      = mondayOfWeek (JsDate.Day (t2 + tza)) := JsDate.day_makeDate _ 0 (by decide) (by decide)
  have hyy : JsDate.YearFromTime (JsDate.MakeDate (mondayOfWeek (JsDate.Day (t1 + tza))) 0)
      ≤ JsDate.YearFromTime (JsDate.MakeDate (mondayOfWeek (JsDate.Day (t2 + tza))) 0) := by
    unfold JsDate.YearFromTime
    rw [hday1, hday2]
    exact JsDate.yearFromDay_mono _ _ hm
  refine ⟨_, _, getWeekKey_monday tza t1 hz1 hz1' hy1 (by omega),
    getWeekKey_monday tza t2 hz2 hz2' (by omega) hy2, rfl, rfl, ?_⟩
  exact jsStrLe_isoDatePart _ _ (by rw [hday1, hday2]; exact hm) hy1 hy2

theorem weekKey_order_witness :
    ∃ k1 k2, getWeekKey 0 (some 1718150400000) = some k1 ∧
      getWeekKey 0 (some 1718323200000) = some k2 ∧
      k1 = JsDate.isoDatePart
        (JsDate.MakeDate (mondayOfWeek (JsDate.Day (1718150400000 + 0))) 0) ∧
      k2 = JsDate.isoDatePart
        (JsDate.MakeDate (mondayOfWeek (JsDate.Day (1718323200000 + 0))) 0) ∧
      jsStrLe k1 k2 :=
  weekKey_order 0 1718150400000 1718323200000 (by decide) (by decide) (by decide) (by decide)
    (by decide) (by decide) (by decide)


/-! ## Reading a key back -/

namespace JsDate

theorem padDigits_two_chars (n : Nat) (hn : n < 100) :
    padDigits 2 n = [Nat.digitChar (n / 10), Nat.digitChar (n % 10)] := by
  unfold padDigits
  simp only []
  by_cases h : n < 10
  · rw [toDigits_one n h]
    have h0 : n / 10 = 0 := by omega
    have h1 : n % 10 = n := by omega
    rw [h0, h1]
    rfl
  · rw [toDigits_two n (by omega) hn]
    rfl

theorem padDigits_four_chars (n : Nat) (hn : n < 10000) :
    padDigits 4 n
      = [Nat.digitChar (n / 1000), Nat.digitChar (n / 100 % 10), Nat.digitChar (n / 10 % 10),
          Nat.digitChar (n % 10)] := by
  unfold padDigits
  simp only []
  by_cases h1 : n < 10
  · rw [toDigits_one n h1]
    have a1 : n / 1000 = 0 := by omega
    have a2 : n / 100 % 10 = 0 := by omega
    have a3 : n / 10 % 10 = 0 := by omega
    have a4 : n % 10 = n := by omega
    rw [a1, a2, a3, a4]
    rfl
  · by_cases h2 : n < 100
    · rw [toDigits_two n (by omega) h2]
      have a1 : n / 1000 = 0 := by omega
      have a2 : n / 100 % 10 = 0 := by omega
      have a3 : n / 10 % 10 = n / 10 := by omega
      rw [a1, a2, a3]
      rfl
    · by_cases h3 : n < 1000
      · rw [toDigits_three n (by omega) h3]
        have a1 : n / 1000 = 0 := by omega
        have a2 : n / 100 % 10 = n / 10 / 10 := by omega
        rw [a1, a2]
        rfl
      · rw [toDigits_four n (by omega) hn]
        have a1 : n / 10 / 10 / 10 = n / 1000 := by omega
        have a2 : n / 10 / 10 % 10 = n / 100 % 10 := by omega
        rw [a1, a2]
        rfl

theorem digitChar_facts (k : Nat) (hk : k < 10) :
    (Nat.digitChar k).isDigit = true ∧ (Nat.digitChar k).toNat - 48 = k ∧
    Nat.digitChar k ≠ '+' ∧ Nat.digitChar k ≠ '-' := by
  interval_cases k <;> decide

theorem digitsValue_two (a b : Nat) (ha : a < 10) (hb : b < 10) :
    digitsValue [Nat.digitChar a, Nat.digitChar b] = some (10 * a + b) := by
  obtain ⟨a1, a2, _, _⟩ := digitChar_facts a ha
  obtain ⟨b1, b2, _, _⟩ := digitChar_facts b hb
  unfold digitsValue
  simp [a1, a2, b1, b2]

theorem digitsValue_four (a b c d : Nat) (ha : a < 10) (hb : b < 10) (hc : c < 10)
    (hd : d < 10) :
    digitsValue [Nat.digitChar a, Nat.digitChar b, Nat.digitChar c, Nat.digitChar d]
      = some (10 * (10 * (10 * a + b) + c) + d) := by
  obtain ⟨a1, a2, _, _⟩ := digitChar_facts a ha
  obtain ⟨b1, b2, _, _⟩ := digitChar_facts b hb
  obtain ⟨c1, c2, _, _⟩ := digitChar_facts c hc
  obtain ⟨d1, d2, _, _⟩ := digitChar_facts d hd
  unfold digitsValue
  simp [a1, a2, b1, b2, c1, c2, d1, d2]

theorem parseYear_plain (c1 c2 c3 c4 : Char) (rest : List Char) (hp : c1 ≠ '+')
    (hm : c1 ≠ '-') :
    parseYear (c1 :: c2 :: c3 :: c4 :: rest)
      = (digitsValue [c1, c2, c3, c4]).map (fun n => ((n : Int), rest)) := by
  unfold parseYear
  split
  · rename_i h; simp at h; exact absurd h.1 hp
  · rename_i h; simp at h; exact absurd h.1 hm
  · rename_i h
    simp only [List.cons.injEq] at h
    obtain ⟨rfl, rfl, rfl, rfl, rfl⟩ := h
    rfl
  · rename_i h
    exact absurd rfl (h c1 c2 c3 c4 rest)

theorem parseDashField_dash (a b : Char) (rest : List Char) :
    parseDashField ('-' :: a :: b :: rest) = (digitsValue [a, b]).map (fun n => (n, rest)) := by
  rfl

end JsDate


namespace JsDate

theorem makeDay_in_year (t : Int) (m : Int) (h0 : 0 ≤ m) (h11 : m ≤ 11) :
    MakeDay (YearFromTime t) m 1 = DayFromYear (YearFromTime t) + monthStart m (InLeapYear t) := by
  have hd : m / 12 = 0 := by omega
  have hm : m % 12 = m := by omega
  unfold MakeDay InLeapYear
  simp only [hd, hm, add_zero]
  omega

theorem makeDay_next_year (t : Int) :
    MakeDay (YearFromTime t) 12 1 = DayFromYear (YearFromTime t + 1) := by
  unfold MakeDay
  simp [monthStart]

theorem makeDay_next_month (t : Int) :
    Day t + 1 ≤ MakeDay (YearFromTime t) (MonthFromTime t + 1) 1 := by
  obtain ⟨s0, s1, s2, s3, s4, s5, s6, s7, s8, s9, s10, s11⟩ := monthStart_literal (InLeapYear t)
  have hr := dayWithinYear_range t
  have hl := inLeapYear_cases t
  have hn := dayFromYear_succ (yearFromDay (Day t))
  have hdw : DayWithinYear t = Day t - DayFromYear (yearFromDay (Day t)) := rfl
  have hM : MonthFromTime t = monthOfDay (DayWithinYear t) (InLeapYear t) := rfl
  rcases monthOfDay_cases (DayWithinYear t) (InLeapYear t) with h | h | h | h | h | h | h | h | h | h | h | h
  · rw [hM, h.1, show (0 : Int) + 1 = 1 by norm_num, makeDay_in_year t 1 (by norm_num) (by norm_num), s1]
    unfold YearFromTime
    clear s0 s1 s2 s3 s4 s5 s6 s7 s8 s9 s10 s11
    omega
  · rw [hM, h.1, show (1 : Int) + 1 = 2 by norm_num, makeDay_in_year t 2 (by norm_num) (by norm_num), s2]
    unfold YearFromTime
    clear s0 s1 s2 s3 s4 s5 s6 s7 s8 s9 s10 s11
    omega
  · rw [hM, h.1, show (2 : Int) + 1 = 3 by norm_num, makeDay_in_year t 3 (by norm_num) (by norm_num), s3]
    unfold YearFromTime
    clear s0 s1 s2 s3 s4 s5 s6 s7 s8 s9 s10 s11
    omega
  · rw [hM, h.1, show (3 : Int) + 1 = 4 by norm_num, makeDay_in_year t 4 (by norm_num) (by norm_num), s4]
    unfold YearFromTime
    clear s0 s1 s2 s3 s4 s5 s6 s7 s8 s9 s10 s11
    omega
  · rw [hM, h.1, show (4 : Int) + 1 = 5 by norm_num, makeDay_in_year t 5 (by norm_num) (by norm_num), s5]
    unfold YearFromTime
    clear s0 s1 s2 s3 s4 s5 s6 s7 s8 s9 s10 s11
    omega
  · rw [hM, h.1, show (5 : Int) + 1 = 6 by norm_num, makeDay_in_year t 6 (by norm_num) (by norm_num), s6]
    unfold YearFromTime
    clear s0 s1 s2 s3 s4 s5 s6 s7 s8 s9 s10 s11
    omega
  · rw [hM, h.1, show (6 : Int) + 1 = 7 by norm_num, makeDay_in_year t 7 (by norm_num) (by norm_num), s7]
    unfold YearFromTime
    clear s0 s1 s2 s3 s4 s5 s6 s7 s8 s9 s10 s11
    omega
  · rw [hM, h.1, show (7 : Int) + 1 = 8 by norm_num, makeDay_in_year t 8 (by norm_num) (by norm_num), s8]
    unfold YearFromTime
    clear s0 s1 s2 s3 s4 s5 s6 s7 s8 s9 s10 s11
    omega
  · rw [hM, h.1, show (8 : Int) + 1 = 9 by norm_num, makeDay_in_year t 9 (by norm_num) (by norm_num), s9]
    unfold YearFromTime
    clear s0 s1 s2 s3 s4 s5 s6 s7 s8 s9 s10 s11
    omega
  · rw [hM, h.1, show (9 : Int) + 1 = 10 by norm_num, makeDay_in_year t 10 (by norm_num) (by norm_num), s10]
    unfold YearFromTime
    clear s0 s1 s2 s3 s4 s5 s6 s7 s8 s9 s10 s11
    omega
  · rw [hM, h.1, show (10 : Int) + 1 = 11 by norm_num, makeDay_in_year t 11 (by norm_num) (by norm_num), s11]
    unfold YearFromTime
    clear s0 s1 s2 s3 s4 s5 s6 s7 s8 s9 s10 s11
    omega
  · rw [hM, h.1, show (11 : Int) + 1 = 12 by norm_num, makeDay_next_year]
    unfold YearFromTime
    clear s0 s1 s2 s3 s4 s5 s6 s7 s8 s9 s10 s11
    omega

theorem toList_mk (cs : List Char) : (String.mk cs).toList = cs := rfl

theorem parseDate_isoDatePart (t : Int) (hy0 : 0 ≤ YearFromTime t) (hy : YearFromTime t ≤ 9999) :
    parseDate (isoDatePart t) = some (Day t) := by
  obtain ⟨m0, m11, d1, d31⟩ := date_range t
  have hnext := makeDay_next_month t
  have hday := makeDay_of_time t (DateFromTime t)
  have hday1 := makeDay_of_time t (DateFromTime t + 1)
  generalize hY : (YearFromTime t).toNat = y at *
  generalize hMo : (MonthFromTime t + 1).toNat = m at *
  generalize hD : (DateFromTime t).toNat = d at *
  have ey : (y : Int) = YearFromTime t := by omega
  have em : (m : Int) = MonthFromTime t + 1 := by omega
  have ed : (d : Int) = DateFromTime t := by omega
  have hy4 : y < 10000 := by omega
  have hm2 : m < 100 := by omega
  have hd2 : d < 100 := by omega
  obtain ⟨_, _, yp, ym⟩ := digitChar_facts (y / 1000) (by omega)
  unfold isoDatePart isoYear
  rw [if_pos ⟨hy0, hy⟩, hY, hMo, hD, padDigits_four_chars y hy4, padDigits_two_chars m hm2,
    padDigits_two_chars d hd2]
  unfold parseDate
  simp only [toList_mk, List.cons_append, List.nil_append]
  rw [parseYear_plain _ _ _ _ _ yp ym,
    digitsValue_four _ _ _ _ (by omega) (by omega) (by omega) (by omega)]
  simp only [Option.map_some', Option.pure_def, Option.bind_eq_bind, Option.some_bind,
    parseDashField_dash,
    digitsValue_two _ _ (show m / 10 < 10 by omega) (show m % 10 < 10 by omega),
    digitsValue_two _ _ (show d / 10 < 10 by omega) (show d % 10 < 10 by omega)]
  have e1 : 10 * (10 * (10 * (y / 1000) + y / 100 % 10) + y / 10 % 10) + y % 10 = y := by omega
  have e2 : 10 * (m / 10) + m % 10 = m := by omega
  have e3 : 10 * (d / 10) + d % 10 = d := by omega
  rw [e1, e2, e3, ey, em, ed]
  have e4 : MonthFromTime t + 1 - 1 = MonthFromTime t := by omega
  rw [e4, hday, hday1, if_pos]
  · congr 1
    omega
  · refine ⟨trivial, by omega, by omega, by omega, ?_⟩
    omega

end JsDate


theorem mondayOfWeek_of_monday (day : Int) (h : (day + 3) % 7 = 0) : mondayOfWeek day = day := by
  unfold mondayOfWeek
  omega

theorem year_range_days (day : Int) (hy0 : 0 ≤ JsDate.yearFromDay day)
    (hy1 : JsDate.yearFromDay day ≤ 9999) : -719528 ≤ day ∧ day < 2932897 := by
  have hs := JsDate.yearFromDay_spec day
  have hlo := JsDate.dayFromYear_mono 0 _ hy0
  have hhi := JsDate.dayFromYear_mono (JsDate.yearFromDay day + 1) 10000 (by omega)
  have e0 : JsDate.DayFromYear 0 = -719528 := by decide
  have e1 : JsDate.DayFromYear 10000 = 2932897 := by decide
  omega

theorem shiftWeek_of_monday (tza day delta : Int)
    (hz0 : -JsDate.msPerDay < tza) (hz1 : tza < JsDate.msPerDay)
    (hmon : (day + 3) % 7 = 0)
    (hy0 : 0 ≤ JsDate.yearFromDay day) (hy1 : JsDate.yearFromDay day ≤ 9999)
    (hr0 : -99999999 ≤ day + delta * 7) (hr1 : day + delta * 7 ≤ 99999999) :
    shiftWeek tza (JsDate.isoDatePart (JsDate.MakeDate day 0)) delta
      = some (JsDate.isoDatePart
          (JsDate.MakeDate (day + delta * 7 + (-tza) / JsDate.msPerDay) 0)) := by
  obtain ⟨hd0, hd1⟩ := year_range_days day hy0 hy1
  have hday : JsDate.Day (JsDate.MakeDate day 0) = day :=
    JsDate.day_makeDate _ 0 (by decide) (by decide)
  have hparse : JsDate.parseDate (JsDate.isoDatePart (JsDate.MakeDate day 0)) = some day := by
    rw [JsDate.parseDate_isoDatePart _ (by unfold JsDate.YearFromTime; rw [hday]; exact hy0)
      (by unfold JsDate.YearFromTime; rw [hday]; exact hy1), hday]
  have hlocal : JsDate.localMidnight tza (JsDate.isoDatePart (JsDate.MakeDate day 0))
      = some (JsDate.MakeDate day 0 - tza) := by
    unfold JsDate.localMidnight
    rw [hparse]
    unfold JsDate.TimeClip JsDate.UTC
    simp only []
    rw [if_pos]
    unfold JsDate.MakeDate JsDate.msPerDay at *
    omega
  have hsum : JsDate.MakeDate day 0 - tza + tza = JsDate.MakeDate day 0 := by omega
  have htw : JsDate.TimeWithinDay (JsDate.MakeDate day 0) = 0 := by
    unfold JsDate.TimeWithinDay JsDate.MakeDate JsDate.msPerDay
    omega
  have hset : JsDate.setDate tza (JsDate.MakeDate day 0 - tza)
      (JsDate.getDate tza (JsDate.MakeDate day 0 - tza) + delta * 7)
      = some (JsDate.MakeDate (day + delta * 7) 0 - tza) := by
    rw [JsDate.setDate_eq, hsum]
    unfold JsDate.getDate JsDate.LocalTime
    rw [hsum, hday, htw]
    have e : day - JsDate.DateFromTime (JsDate.MakeDate day 0)
        + (JsDate.DateFromTime (JsDate.MakeDate day 0) + delta * 7) = day + delta * 7 := by
      omega
    rw [e]
    unfold JsDate.TimeClip
    rw [if_pos]
    unfold JsDate.MakeDate JsDate.msPerDay at *
    omega
  have hsum2 : JsDate.MakeDate (day + delta * 7) 0 - tza + tza
      = JsDate.MakeDate (day + delta * 7) 0 := by omega
  have hday2 : JsDate.Day (JsDate.MakeDate (day + delta * 7) 0) = day + delta * 7 :=
    JsDate.day_makeDate _ 0 (by decide) (by decide)
  have htw2 : JsDate.TimeWithinDay (JsDate.MakeDate (day + delta * 7) 0) = 0 := by
    unfold JsDate.TimeWithinDay JsDate.MakeDate JsDate.msPerDay
    omega
  have hmon2 : mondayOfWeek (day + delta * 7) = day + delta * 7 :=
    mondayOfWeek_of_monday _ (by omega)
  unfold shiftWeek
  rw [hlocal]
  simp only [hset]
  rw [getWeekKey_zone]
  · rw [hsum2, hday2, htw2, hmon2]
    simp
  · rw [hsum2, hday2, htw2, hmon2]
    unfold JsDate.MakeDate JsDate.msPerDay at *
    omega

theorem shiftWeek_west_of_utc (tza day delta : Int)
    (hz0 : -JsDate.msPerDay < tza) (hz1 : tza ≤ 0)
    (hmon : (day + 3) % 7 = 0)
    (hy0 : 0 ≤ JsDate.yearFromDay day) (hy1 : JsDate.yearFromDay day ≤ 9999)
    (hr0 : -99999999 ≤ day + delta * 7) (hr1 : day + delta * 7 ≤ 99999999) :
    shiftWeek tza (JsDate.isoDatePart (JsDate.MakeDate day 0)) delta
      = some (JsDate.isoDatePart (JsDate.MakeDate (day + delta * 7) 0)) := by
  rw [shiftWeek_of_monday tza day delta hz0 (by unfold JsDate.msPerDay; omega) hmon hy0 hy1
    hr0 hr1]
  have : (-tza) / JsDate.msPerDay = 0 := by
    unfold JsDate.msPerDay at *
    omega
  rw [this, add_zero]

theorem shiftWeek_east_of_utc (tza day delta : Int)
    (hz0 : 0 < tza) (hz1 : tza < JsDate.msPerDay)
    (hmon : (day + 3) % 7 = 0)
    (hy0 : 0 ≤ JsDate.yearFromDay day) (hy1 : JsDate.yearFromDay day ≤ 9999)
    (hr0 : -99999999 ≤ day + delta * 7) (hr1 : day + delta * 7 ≤ 99999999) :
    shiftWeek tza (JsDate.isoDatePart (JsDate.MakeDate day 0)) delta
      = some (JsDate.isoDatePart (JsDate.MakeDate (day + delta * 7 - 1) 0)) := by
  rw [shiftWeek_of_monday tza day delta (by unfold JsDate.msPerDay; omega) hz1 hmon hy0 hy1
    hr0 hr1]
  have : (-tza) / JsDate.msPerDay = -1 := by
    unfold JsDate.msPerDay at *
    omega
  rw [this]
  rfl

theorem shiftWeek_round_trip_west (tza day n : Int)
    (hz0 : -JsDate.msPerDay < tza) (hz1 : tza ≤ 0) (hmon : (day + 3) % 7 = 0)
    (hy0 : 0 ≤ JsDate.yearFromDay day) (hy1 : JsDate.yearFromDay day ≤ 9999)
    (hn0 : 0 ≤ JsDate.yearFromDay (day + n * 7))
    (hn1 : JsDate.yearFromDay (day + n * 7) ≤ 9999) :
    ((shiftWeek tza (JsDate.isoDatePart (JsDate.MakeDate day 0)) n).bind
      fun k => shiftWeek tza k (-n)) = some (JsDate.isoDatePart (JsDate.MakeDate day 0)) := by
  obtain ⟨a0, a1⟩ := year_range_days day hy0 hy1
  obtain ⟨b0, b1⟩ := year_range_days (day + n * 7) hn0 hn1
  rw [shiftWeek_west_of_utc tza day n hz0 hz1 hmon hy0 hy1 (by omega) (by omega)]
  simp only [Option.some_bind]
  rw [shiftWeek_west_of_utc tza (day + n * 7) (-n) hz0 hz1 (by omega) hn0 hn1 (by omega)
    (by omega)]
  have e : day + n * 7 + -n * 7 = day := by ring
  rw [e]


/-! ## Viewing a new week -/

theorem lookup_none_of_not_mem (l : List (String × Option WeekRecord)) (key : String)
    (h : key ∉ l.map Prod.fst) : l.lookup key = none := by
  induction l with
  | nil => rfl
  | cons a rest ih =>
    obtain ⟨k, v⟩ := a
    rw [List.map_cons, List.mem_cons, not_or] at h
    have hb : (key == k) = false := by simpa using h.1
    simp only [List.lookup, hb]
    exact ih h.2

theorem Weeks.get_of_not_mem (w : Weeks) (key : String) (h : key ∉ w.keys) :
    w.get key = none := by
  unfold Weeks.get
  rw [lookup_none_of_not_mem w.entries key h]

theorem setEntry_of_not_mem (l : List (String × Option WeekRecord)) (key : String)
    (r : Option WeekRecord) (h : key ∉ l.map Prod.fst) : setEntry l key r = l ++ [(key, r)] := by
  induction l with
  | nil => rfl
  | cons a rest ih =>
    rw [List.map_cons, List.mem_cons, not_or] at h
    unfold setEntry
    rw [if_neg (fun e => h.1 e.symm), ih h.2]
    rfl

theorem Weeks.set_entries_of_not_mem (w : Weeks) (key : String) (r : Option WeekRecord)
    (h : key ∉ w.keys) :
    (w.set key r).entries = w.entries ++ [(key, r)] ∧ (w.set key r).keys = w.keys ++ [key] := by
  have he : (w.set key r).entries = w.entries ++ [(key, r)] := setEntry_of_not_mem _ _ _ h
  refine ⟨he, ?_⟩
  unfold Weeks.keys
  rw [he, List.map_append]
  rfl

theorem specTotalXP_set_new (w : Weeks) (key : String) (r : WeekRecord) (h : key ∉ w.keys) :
    specTotalXP (w.set key (some r)) = specTotalXP w + specWeekXP r := by
  unfold specTotalXP
  rw [(Weeks.set_entries_of_not_mem w key (some r) h).1]
  simp

theorem specWeekXP_empty (label : String) :
    specWeekXP { createEmptyWeek with weekOf := label } = 0 := by
  rfl

theorem weekHasCheck_empty (label : String) :
    weekHasCheck (some { createEmptyWeek with weekOf := label }) = false := by
  rfl

theorem jsStrLe_refl (a : String) : jsStrLe a a := by
  rcases jsStrLe_total a a with h | h <;> exact h

theorem sortedKeys_last_of_greatest (w : Weeks) (key : String) (r : Option WeekRecord)
    (hnew : key ∉ w.keys) (hgt : ∀ k ∈ w.keys, jsStrLt k key = true) :
    (sortedKeys (w.set key r)).length = w.keys.length + 1 ∧
    (sortedKeys (w.set key r))[w.keys.length]? = some key := by
  have hperm := sortedKeys_perm (w.set key r)
  have hsorted := sortedKeys_sorted (w.set key r)
  rw [(Weeks.set_entries_of_not_mem w key r hnew).2] at hperm
  have hlen : (sortedKeys (w.set key r)).length = w.keys.length + 1 := by
    rw [hperm.length_eq]
    simp
  rcases List.eq_nil_or_concat (sortedKeys (w.set key r)) with hnil | ⟨init, x, hx⟩
  · rw [hnil] at hlen
    simp at hlen
  · rw [List.concat_eq_append] at hx
    rw [hx] at hsorted hperm hlen ⊢
    have hil : init.length = w.keys.length := by
      simp at hlen
      exact hlen
    have hall : ∀ y ∈ init, jsStrLe y x := by
      intro y hy
      have := (List.pairwise_append.1 hsorted).2.2 y hy x (List.mem_singleton_self x)
      exact this
    have hkmem : key ∈ init ++ [x] := hperm.symm.subset (by simp)
    have hxmem : x ∈ w.keys ++ [key] := hperm.subset (by simp)
    have hkx : jsStrLe key x := by
      rcases List.mem_append.1 hkmem with h | h
      · exact hall key h
      · rw [List.mem_singleton] at h
        rw [h]
        exact jsStrLe_refl x
    have hxk : x = key := by
      rcases List.mem_append.1 hxmem with h | h
      · have := hgt x h
        unfold jsStrLe at hkx
        rw [this] at hkx
        exact absurd hkx (by simp)
      · exact List.mem_singleton.1 h
    refine ⟨hlen, ?_⟩
    rw [← hil, hxk]
    simp

theorem computeStreak_new_week (w : Weeks) (key : String) (r : WeekRecord)
    (hnew : key ∉ w.keys) (hgt : ∀ k ∈ w.keys, jsStrLt k key = true)
    (hr : weekHasCheck (some r) = false) : computeStreak (w.set key (some r)) = 0 := by
  obtain ⟨hlen, hlast⟩ := sortedKeys_last_of_greatest w key (some r) hnew hgt
  unfold computeStreak
  rw [hlen, streakLoop_succ]
  have hat : weekAt (w.set key (some r)) (sortedKeys (w.set key (some r))) w.keys.length
      = some r := by
    unfold weekAt
    rw [hlast]
    exact Weeks.get_set_self w key (some r)
  rw [hat, hr]
  rfl
theorem setEntry_setEntry (l : List (String × Option WeekRecord)) (key : String)
    (r r2 : Option WeekRecord) : setEntry (setEntry l key r) key r2 = setEntry l key r2 := by
  induction l with
  | nil => simp [setEntry]
  | cons a rest ih =>
    by_cases hk : a.1 = key
    · simp [setEntry, hk]
    · simp [setEntry, hk, ih]

theorem Weeks.ext_entries (w v : Weeks) (h : w.entries = v.entries) : w = v := by
  cases w
  cases v
  simp only at h
  subst h
  rfl

theorem Weeks.set_set (w : Weeks) (key : String) (r r2 : Option WeekRecord) :
    (w.set key r).set key r2 = w.set key r2 :=
  Weeks.ext_entries _ _ (setEntry_setEntry w.entries key r r2)

theorem setEntry_keys_of_mem (l : List (String × Option WeekRecord)) (key : String)
    (r : Option WeekRecord) (h : key ∈ l.map Prod.fst) :
    (setEntry l key r).map Prod.fst = l.map Prod.fst := by
  induction l with
  | nil => simp at h
  | cons a rest ih =>
    by_cases hk : a.1 = key
    · simp [setEntry, hk]
    · rw [List.map_cons, List.mem_cons] at h
      rcases h with h | h
      · exact absurd h.symm hk
      · simp [setEntry, hk, ih h]

theorem Weeks.keys_set_of_mem (w : Weeks) (key : String) (r : Option WeekRecord)
    (h : key ∈ w.keys) : (w.set key r).keys = w.keys :=
  setEntry_keys_of_mem w.entries key r h

theorem recalculateXP_profile_some (s : AppState) :
    (recalculateXP s).profile = some (ensureProfile (recalculateXP s)) := rfl

theorem andThen_of_none (o : Outcome) (f : App → Outcome) (h : o.2 = none) :
    o.andThen f = f o.1 := by
  unfold Outcome.andThen
  rw [h]

theorem andThen_keeps (P : App → Prop) (o : Outcome) (f : App → Outcome)
    (ho : o.2 = none ∧ P o.1) (hf : ∀ a, P a → (f a).2 = none ∧ P (f a).1) :
    (o.andThen f).2 = none ∧ P (o.andThen f).1 := by
  rw [andThen_of_none o f ho.1]
  exact hf o.1 ho.2

theorem mutateWeek_fixed (a : App) (f : WeekRecord → Except JsError WeekRecord)
    (r : WeekRecord) (hget : a.appData.weeks.get a.currentWeekKey = some r)
    (hf : f r = .ok r) :
    (mutateWeek a f).2 = none ∧ (mutateWeek a f).1.currentWeekKey = a.currentWeekKey ∧
    (mutateWeek a f).1.appData.profile = a.appData.profile ∧
    (mutateWeek a f).1.appData.weeks.get a.currentWeekKey = some r ∧
    (mutateWeek a f).1.appData.weeks.keys = a.appData.weeks.keys := by
  unfold mutateWeek
  rw [getCurrentWeekData_of_get a r hget]
  simp only
  rw [hf]
  exact ⟨rfl, rfl, rfl, Weeks.get_set_self _ _ _,
    Weeks.keys_set_of_mem _ _ _ (List.mem_map_of_mem Prod.fst (Weeks.mem_of_get _ _ _ hget))⟩

theorem renderHeader_new_week (tza : Int) (a : App)
    (hnew : a.currentWeekKey ∉ a.appData.weeks.keys) :
    renderHeader tza a
      = (saveData { a with appData := { a.appData with
          weeks := a.appData.weeks.set a.currentWeekKey
            (some { createEmptyWeek with weekOf := formatWeekLabel tza a.currentWeekKey }) } },
        none) := by
  have hg : getCurrentWeekData a
      = ({ a with appData := { a.appData with
          weeks := a.appData.weeks.set a.currentWeekKey (some createEmptyWeek) } },
        createEmptyWeek) := by
    unfold getCurrentWeekData
    rw [Weeks.get_of_not_mem _ _ hnew]
  unfold renderHeader mutateWeek
  rw [hg]
  simp only
  rw [if_pos (show createEmptyWeek.weekOf = "" from rfl), Weeks.set_set]
  rfl

theorem render_steps_labelled (label : String) :
    renderWaterData { createEmptyWeek with weekOf := label }
      = .ok { createEmptyWeek with weekOf := label } ∧
    renderSleepData { createEmptyWeek with weekOf := label }
      = .ok { createEmptyWeek with weekOf := label } ∧
    readTrackers { createEmptyWeek with weekOf := label }
      = .ok { createEmptyWeek with weekOf := label } ∧
    renderAppointmentsData { createEmptyWeek with weekOf := label }
      = .ok { createEmptyWeek with weekOf := label } ∧
    renderFoodData { createEmptyWeek with weekOf := label }
      = .ok { createEmptyWeek with weekOf := label } ∧
    renderFitnessData { createEmptyWeek with weekOf := label }
      = .ok { createEmptyWeek with weekOf := label } := by
  refine ⟨rfl, ?_, rfl, rfl, rfl, rfl⟩
  rfl

theorem renderTasks_labelled (a : App) (label : String)
    (hget : a.appData.weeks.get a.currentWeekKey
      = some { createEmptyWeek with weekOf := label }) :
    renderTasks a = (a, none) := by
  unfold renderTasks
  rw [getCurrentWeekData_of_get a _ hget]
  rfl

theorem render_tail_labelled (key label : String) (p : Profile) (ks : List String)
    (o : Outcome)
    (ho : o.2 = none ∧ (o.1.currentWeekKey = key ∧ o.1.appData.profile = some p ∧
      o.1.appData.weeks.get key = some { createEmptyWeek with weekOf := label } ∧
      o.1.appData.weeks.keys = ks)) :
    (((((((((((o.andThen renderTasks).andThen renderWeather).andThen
      renderMood).andThen renderAppointments).andThen renderWater).andThen renderSleep).andThen
      renderFood).andThen renderUniqueEvent).andThen renderFitness).andThen
      renderGamification).2 = none) ∧
    ((((((((((((o.andThen renderTasks).andThen renderWeather).andThen
      renderMood).andThen renderAppointments).andThen renderWater).andThen renderSleep).andThen
      renderFood).andThen renderUniqueEvent).andThen renderFitness).andThen
      renderGamification).1.currentWeekKey = key) ∧
    ((((((((((o.andThen renderTasks).andThen renderWeather).andThen
      renderMood).andThen renderAppointments).andThen renderWater).andThen renderSleep).andThen
      renderFood).andThen renderUniqueEvent).andThen renderFitness).andThen
      renderGamification).1.appData.profile = some p ∧
    ((((((((((o.andThen renderTasks).andThen renderWeather).andThen
      renderMood).andThen renderAppointments).andThen renderWater).andThen renderSleep).andThen
      renderFood).andThen renderUniqueEvent).andThen renderFitness).andThen
      renderGamification).1.appData.weeks.get key
        = some { createEmptyWeek with weekOf := label } ∧
    ((((((((((o.andThen renderTasks).andThen renderWeather).andThen
      renderMood).andThen renderAppointments).andThen renderWater).andThen renderSleep).andThen
      renderFood).andThen renderUniqueEvent).andThen renderFitness).andThen
      renderGamification).1.appData.weeks.keys = ks) := by
  have hsteps := render_steps_labelled label
  have hmut : ∀ (f : WeekRecord → Except JsError WeekRecord),
      f { createEmptyWeek with weekOf := label } = .ok { createEmptyWeek with weekOf := label } →
      ∀ b : App,
        (b.currentWeekKey = key ∧ b.appData.profile = some p ∧
          b.appData.weeks.get key = some { createEmptyWeek with weekOf := label } ∧
          b.appData.weeks.keys = ks) →
        (mutateWeek b f).2 = none ∧
        ((mutateWeek b f).1.currentWeekKey = key ∧
          (mutateWeek b f).1.appData.profile = some p ∧
          (mutateWeek b f).1.appData.weeks.get key
            = some { createEmptyWeek with weekOf := label } ∧
          (mutateWeek b f).1.appData.weeks.keys = ks) := by
    intro f hf b hb
    obtain ⟨hk, hp, hg, hks⟩ := hb
    subst hk
    obtain ⟨h1, h2, h3, h4, h5⟩ := mutateWeek_fixed b f _ hg hf
    exact ⟨h1, h2, h3.trans hp, h4, h5.trans hks⟩
  have htasks : ∀ b : App,
      (b.currentWeekKey = key ∧ b.appData.profile = some p ∧
        b.appData.weeks.get key = some { createEmptyWeek with weekOf := label } ∧
        b.appData.weeks.keys = ks) →
      (renderTasks b).2 = none ∧
      ((renderTasks b).1.currentWeekKey = key ∧ (renderTasks b).1.appData.profile = some p ∧
        (renderTasks b).1.appData.weeks.get key
          = some { createEmptyWeek with weekOf := label } ∧
        (renderTasks b).1.appData.weeks.keys = ks) := by
    intro b hb
    have hg := hb.2.2.1
    rw [← hb.1] at hg
    rw [renderTasks_labelled b _ hg]
    exact ⟨rfl, hb⟩
  have hgam : ∀ b : App,
      (b.currentWeekKey = key ∧ b.appData.profile = some p ∧
        b.appData.weeks.get key = some { createEmptyWeek with weekOf := label } ∧
        b.appData.weeks.keys = ks) →
      (renderGamification b).2 = none ∧
      ((renderGamification b).1.currentWeekKey = key ∧
        (renderGamification b).1.appData.profile = some p ∧
        (renderGamification b).1.appData.weeks.get key
          = some { createEmptyWeek with weekOf := label } ∧
        (renderGamification b).1.appData.weeks.keys = ks) := by
    intro b hb
    refine ⟨rfl, hb.1, ?_, hb.2.2.1, hb.2.2.2⟩
    show some (ensureProfile b.appData) = _
    unfold ensureProfile
    rw [hb.2.1]
  have h1 := andThen_keeps (fun b : App => b.currentWeekKey = key ∧ b.appData.profile = some p ∧
      b.appData.weeks.get key = some { createEmptyWeek with weekOf := label } ∧
      b.appData.weeks.keys = ks) o renderTasks ho htasks
  have h2 := andThen_keeps _ _ renderWeather h1 (hmut _ hsteps.2.2.1)
  have h3 := andThen_keeps _ _ renderMood h2 (hmut _ hsteps.2.2.1)
  have h4 := andThen_keeps _ _ renderAppointments h3 (hmut _ hsteps.2.2.2.1)
  have h5 := andThen_keeps _ _ renderWater h4 (hmut _ hsteps.1)
  have h6 := andThen_keeps _ _ renderSleep h5 (hmut _ hsteps.2.1)
  have h7 := andThen_keeps _ _ renderFood h6 (hmut _ hsteps.2.2.2.2.1)
  have h8 := andThen_keeps _ _ renderUniqueEvent h7 (hmut _ hsteps.2.2.1)
  have h9 := andThen_keeps _ _ renderFitness h8 (hmut _ hsteps.2.2.2.2.2)
  exact andThen_keeps _ _ renderGamification h9 hgam

theorem renderAll_new_week (tza : Int) (a : App)
    (hnew : a.currentWeekKey ∉ a.appData.weeks.keys) :
    (renderAll tza a).2 = none ∧
    (renderAll tza a).1.currentWeekKey = a.currentWeekKey ∧
    (renderAll tza a).1.appData.profile
      = some (ensureProfile (recalculateXP { a.appData with
          weeks := a.appData.weeks.set a.currentWeekKey
            (some { createEmptyWeek with weekOf := formatWeekLabel tza a.currentWeekKey }) })) ∧
    (renderAll tza a).1.appData.weeks.get a.currentWeekKey
      = some { createEmptyWeek with weekOf := formatWeekLabel tza a.currentWeekKey } ∧
    (renderAll tza a).1.appData.weeks.keys = a.appData.weeks.keys ++ [a.currentWeekKey] := by
  unfold renderAll
  refine render_tail_labelled a.currentWeekKey _ _ _ (renderHeader tza a) ?_
  rw [renderHeader_new_week tza a hnew]
  refine ⟨rfl, rfl, rfl, ?_, ?_⟩
  · exact Weeks.get_set_self _ _ _
  · exact (Weeks.set_entries_of_not_mem _ _ _ hnew).2

theorem recalculateXP_new_week (s : AppState) (key : String) (r : WeekRecord)
    (hnew : key ∉ s.weeks.keys) (hgt : ∀ k ∈ s.weeks.keys, jsStrLt k key = true)
    (hcheck : weekHasCheck (some r) = false) (hxp : specWeekXP r = 0) :
    (ensureProfile (recalculateXP { s with weeks := s.weeks.set key (some r) })).streakDays = 0 ∧
    (ensureProfile (recalculateXP { s with weeks := s.weeks.set key (some r) })).xp
      = totalXP s.weeks ∧
    (ensureProfile (recalculateXP { s with weeks := s.weeks.set key (some r) })).longestStreak
      = (ensureProfile s).longestStreak := by
  rw [recalculateXP_profile]
  simp only
  rw [computeStreak_new_week s.weeks key r hnew hgt hcheck, totalXP_eq_spec,
    specTotalXP_set_new s.weeks key r hnew, hxp, totalXP_eq_spec]
  refine ⟨rfl, rfl, ?_⟩
  rw [if_neg (Nat.not_lt_zero _)]
  rfl

theorem longestStreak_recalculateXP_ge (s : AppState) :
    (ensureProfile s).longestStreak.getD 0
      ≤ (ensureProfile (recalculateXP s)).longestStreak.getD 0 ∧
    computeStreak s.weeks ≤ (ensureProfile (recalculateXP s)).longestStreak.getD 0 := by
  rw [recalculateXP_profile]
  simp only
  by_cases h : computeStreak s.weeks > (ensureProfile s).longestStreak.getD 0
  · rw [if_pos h]
    exact ⟨Nat.le_of_lt h, Nat.le_refl _⟩
  · rw [if_neg h]
    exact ⟨Nat.le_refl _, Nat.le_of_not_lt h⟩

/-- C21. Viewing a new future week resets the streak.  For every application state and
every week key `k` that is not a key of `weeks` and comes after every stored key in the
order of `sort()`: once `getCurrentWeekData` has created the empty record at `k` and
`recalculateXP` has run, `streakDays` is 0, whatever the earlier weeks hold, the xp is the
xp of the old weeks, and `longestStreak` is the stored one.  This is what `navigateWeek`
does when `shiftWeek` gives such a key: the handler ends without an exception on the week
`k`, the record at `k` is the empty week with its label, `k` is the last key, and the
profile has `streakDays = 0`, the xp and the `longestStreak` that `recalculateXP` gives
without the new record; that `longestStreak` is at least the stored one and at least the
streak of the old weeks. -/
theorem navigateWeek_new_week_resets_streak (tza delta : Int) (a : App) (k : String)
    (hnew : k ∉ a.appData.weeks.keys)
    (hgt : ∀ key ∈ a.appData.weeks.keys, jsStrLt key k = true) :
    ((ensureProfile (recalculateXP
        (getCurrentWeekData { a with currentWeekKey := k }).1.appData)).streakDays = 0 ∧
      (ensureProfile (recalculateXP
        (getCurrentWeekData { a with currentWeekKey := k }).1.appData)).xp
        = (ensureProfile (recalculateXP a.appData)).xp ∧
      (ensureProfile (recalculateXP
        (getCurrentWeekData { a with currentWeekKey := k }).1.appData)).longestStreak
        = (ensureProfile a.appData).longestStreak) ∧
    (shiftWeek tza a.currentWeekKey delta = some k →
      (navigateWeek tza delta a).2 = none ∧
      (navigateWeek tza delta a).1.currentWeekKey = k ∧
      (navigateWeek tza delta a).1.appData.weeks.get k
        = some { createEmptyWeek with weekOf := formatWeekLabel tza k } ∧
      (navigateWeek tza delta a).1.appData.weeks.keys = a.appData.weeks.keys ++ [k] ∧
      (ensureProfile (navigateWeek tza delta a).1.appData).streakDays = 0 ∧
      (ensureProfile (navigateWeek tza delta a).1.appData).xp
        = (ensureProfile (recalculateXP a.appData)).xp ∧
      (ensureProfile (navigateWeek tza delta a).1.appData).longestStreak
        = (ensureProfile (recalculateXP a.appData)).longestStreak ∧
      (ensureProfile a.appData).longestStreak.getD 0
        ≤ (ensureProfile (navigateWeek tza delta a).1.appData).longestStreak.getD 0 ∧
      computeStreak a.appData.weeks
        ≤ (ensureProfile (navigateWeek tza delta a).1.appData).longestStreak.getD 0) := by
  constructor
  · have hg : (getCurrentWeekData { a with currentWeekKey := k }).1.appData
        = { a.appData with weeks := a.appData.weeks.set k (some createEmptyWeek) } := by
      unfold getCurrentWeekData
      simp only
      rw [Weeks.get_of_not_mem _ _ hnew]
    rw [hg]
    exact recalculateXP_new_week a.appData k createEmptyWeek hnew hgt rfl rfl
  · intro hshift
    have hnav : navigateWeek tza delta a
        = renderAll tza (saveData { a with
            currentWeekKey := k
            appData := { a.appData with currentWeek := k } }) := by
      unfold navigateWeek
      rw [hshift]
      exact andThen_of_none _ _ rfl
    obtain ⟨h1, h2, h3, h4, h5⟩ := renderAll_new_week tza (saveData { a with
      currentWeekKey := k
      appData := { a.appData with currentWeek := k } }) hnew
    obtain ⟨p1, p2, p3⟩ := recalculateXP_new_week (saveData { a with
      currentWeekKey := k
      appData := { a.appData with currentWeek := k } }).appData k
        { createEmptyWeek with weekOf := formatWeekLabel tza k } hnew hgt rfl rfl
    have hp : ensureProfile (navigateWeek tza delta a).1.appData
        = ensureProfile (recalculateXP { (saveData { a with
            currentWeekKey := k
            appData := { a.appData with currentWeek := k } }).appData with
          weeks := a.appData.weeks.set k
            (some { createEmptyWeek with weekOf := formatWeekLabel tza k }) }) := by
      rw [hnav]
      unfold ensureProfile
      rw [h3]
      rfl
    have hl : (ensureProfile (navigateWeek tza delta a).1.appData).longestStreak
        = (ensureProfile (recalculateXP a.appData)).longestStreak := by
      rw [hp]
      exact p3
    rw [hnav]
    refine ⟨h1, h2, h4, h5, ?_, ?_, ?_, ?_, ?_⟩
    · rw [← hnav, hp]
      exact p1
    · rw [← hnav, hp]
      exact p2
    · rw [← hnav]
      exact hl
    · rw [← hnav, hl]
      exact (longestStreak_recalculateXP_ge a.appData).1
    · rw [← hnav, hl]
      exact (longestStreak_recalculateXP_ge a.appData).2

theorem navigateWeek_new_week_resets_streak_witness :
    "2024-07-01" ∉ sampleAppW4.appData.weeks.keys ∧
    (∀ key ∈ sampleAppW4.appData.weeks.keys, jsStrLt key "2024-07-01" = true) ∧
    shiftWeek 0 sampleAppW4.currentWeekKey 1 = some "2024-07-01" ∧
    (ensureProfile (recalculateXP sampleAppW4.appData)).streakDays = 4 ∧
    (ensureProfile (recalculateXP sampleAppW4.appData)).xp = 95 ∧
    (navigateWeek 0 1 sampleAppW4).2 = none ∧
    (navigateWeek 0 1 sampleAppW4).1.currentWeekKey = "2024-07-01" ∧
    (ensureProfile (navigateWeek 0 1 sampleAppW4).1.appData).streakDays = 0 ∧
    (ensureProfile (navigateWeek 0 1 sampleAppW4).1.appData).xp = 95 ∧
    4 ≤ (ensureProfile (navigateWeek 0 1 sampleAppW4).1.appData).longestStreak.getD 0 := by
  have h := (navigateWeek_new_week_resets_streak 0 1 sampleAppW4 "2024-07-01"
    (by decide) (by decide)).2 (by decide)
  have hs : (ensureProfile (recalculateXP sampleAppW4.appData)).streakDays = 4 := by decide
  have hx : (ensureProfile (recalculateXP sampleAppW4.appData)).xp = 95 := by decide
  have hc : computeStreak sampleAppW4.appData.weeks = 4 := by decide
  refine ⟨by decide, by decide, by decide, hs, hx, h.1, h.2.1, h.2.2.2.2.1, ?_, ?_⟩
  · rw [h.2.2.2.2.2.1, hx]
  · rw [← hc]
    exact h.2.2.2.2.2.2.2.2

end HabitApp
